import Mathlib

/-! # VOT integration header (`native/vot.h`): session adapter, regions, runner

A shallow embedding of the TraX session adapter of `vot.h` and of the
`VOTManager` runner.

Conventions of the embedding

* The region representation is selected at compile time (`_VOT_REGION`); the
  session code only touches it through `_trax_to_region`, `_region_to_trax`
  and `vot_region_copy`, so the session is written once over a `RegionMode`.
* `assert` is enabled (the header includes `<assert.h>` and never defines
  `NDEBUG`): a failing assertion aborts the process. A call that may abort
  returns `Except (Fault S) _`, the fault holding the state at the abort.
* The TraX library is external. Its server side is modelled by the ghost
  record `Transport`: the messages the harness is still going to send, the
  replies sent so far, and counters of `trax_server_wait` / `trax_cleanup`
  calls.
* Image paths are assumed to fit `VOT_READ_BUFFER`; `strcpy` is an
  assignment. The default channel mode (colour only) is embedded.
-/

namespace Vot

/-! ## Constants and plain records -/

/-- `#define VOT_MAX_OBJECTS 100` -/
def VOT_MAX_OBJECTS : Nat := 100

/-- `struct vot_image`, default channel mode: the colour path. -/
structure vot_image where
  color : String
deriving DecidableEq, Repr

/-- `struct VOTImage`, default channel mode. A default-constructed wrapper has
the empty string. -/
structure VOTImage where
  color : String
deriving DecidableEq, Repr

/-- `trax_image_list` restricted to the colour channel: the path returned by
`trax_image_get_path (trax_image_list_get (list, TRAX_CHANNEL_COLOR))`. -/
structure trax_image_list where
  color : String
deriving DecidableEq, Repr

/-- One entry of a `trax_object_list`: a wire region and its named scalar
properties. -/
structure trax_object (W : Type) where
  region : W
  properties : List (String × ℚ)
deriving DecidableEq, Repr

/-- `trax_object_list`. -/
abbrev trax_object_list (W : Type) := List (trax_object W)

/-- Return codes of `trax_server_wait` on the server side. -/
inductive Response
  | TRAX_ERROR
  | TRAX_INITIALIZE
  | TRAX_FRAME
  | TRAX_QUIT
deriving DecidableEq, Repr

/-- Modelled from the spec: the TraX library is not among the sources. A
message of the harness is tagged Initialize (images, objects), Frame (images)
or End; `error` stands for a failed receive (`TRAX_ERROR`). A frame message
of the library may carry objects as well, which is what `vot_frame` asserts
against. -/
inductive Message (W : Type)
  | init (image : trax_image_list) (objects : trax_object_list W)
  | frame (image : trax_image_list) (objects : trax_object_list W)
  | quit
  | error
deriving DecidableEq, Repr

/-- The objects a message carries (none for `quit` and `error`). -/
def Message.objects {W : Type} : Message W → trax_object_list W
  | Message.init _ objects => objects
  | Message.frame _ objects => objects
  | Message.quit => []
  | Message.error => []

/-- Whether `trax_server_wait` answers `TRAX_FRAME` for the message. -/
def Message.is_frame {W : Type} : Message W → Bool
  | Message.frame _ _ => true
  | _ => false

/-- Opaque `trax_handle`. -/
inductive trax_handle
  | server
deriving DecidableEq, Repr

/-- Modelled from the spec: ghost state of the transport, which the sources
reach only through the TraX library. It holds what the harness will still
send (`pending`), every `trax_server_reply` so far (`sent`, oldest first), and
the number of `trax_server_wait` and `trax_cleanup` calls made. -/
structure Transport (W : Type) where
  pending : List (Message W)
  sent : List (trax_object_list W)
  waits : Nat
  cleanups : Nat
deriving DecidableEq, Repr

/-- The three functions through which the session touches the configured
region representation (`#if _VOT_REGION == ...`). -/
structure RegionMode (W R : Type) where
  _trax_to_region : W → R
  _region_to_trax : R → W
  vot_region_copy : R → R

/-- Data members of `class VOT` that the code uses, with the transport ghost.
`_objects` is the array `vot_region* _objects[VOT_MAX_OBJECTS]` (`none` is
`NULL`); `overrun` records, in order, the stores `_objects[j] = ...` that the
code executes with `j` outside the array. -/
structure VOT (W R : Type) where
  _vot_sequence_position : Int
  _vot_sequence_size : Int
  _trax_handle : Option trax_handle
  _image : vot_image
  _objects : List (Option R)
  overrun : List (Nat × R)
  wire : Transport W
deriving DecidableEq, Repr

/-- A failed `assert`: the process aborts in state `state`. -/
structure Fault (S : Type) where
  state : S
deriving DecidableEq, Repr

/-! ## Selection of the region representation -/

/-- The macros that decide the region representation, as the translation unit
has them when it includes `vot.h`: whether `VOT_RECTANGLE`, `VOT_POLYGON`,
`VOT_MASK` are defined, and the value of `_VOT_REGION` if it is defined. -/
structure Defines where
  VOT_RECTANGLE : Bool
  VOT_POLYGON : Bool
  VOT_MASK : Bool
  _VOT_REGION : Option Nat
deriving DecidableEq, Repr

/-- The value of `_VOT_REGION` after the two conditional blocks at the head of
`vot.h`. The first block is `#ifdef VOT_RECTANGLE` / `#elif defined
(VOT_POLYGON)` / `#elif defined (VOT_MASK)` / `#else`; its first three
branches define the macro only under `#ifndef _VOT_REGION`, its `#else` branch
is the plain `#define _VOT_REGION 1`. The second block, under the comment
"Default region is polygon", is `#ifndef _VOT_REGION` / `#define _VOT_REGION
2`. -/
def _VOT_REGION (d : Defines) : Nat :=
  let first : Option Nat :=
    if d.VOT_RECTANGLE then
      (if d._VOT_REGION.isNone then some 1 else d._VOT_REGION)
    else if d.VOT_POLYGON then
      (if d._VOT_REGION.isNone then some 2 else d._VOT_REGION)
    else if d.VOT_MASK then
      (if d._VOT_REGION.isNone then some 3 else d._VOT_REGION)
    else some 1
  match first with
  | some n => n
  | none => 2

/-! ## Transport primitives -/

/-- Modelled from the spec: `trax_server_wait (handle, &image, &objects, NULL)`
of the TraX library, the `transport.wait` of the specification - the blocking
receive of the next message of the harness. A harness that has nothing more
to send has closed the connection, which is reported as `TRAX_ERROR`. The
out-parameters stay `NULL` (`none`) unless the message carries them. -/
def trax_server_wait {W : Type} (t : Transport W) :
    Response × Option trax_image_list × Option (trax_object_list W) × Transport W :=
  match t.pending with
  | [] => (Response.TRAX_ERROR, none, none, { t with waits := t.waits + 1 })
  | Message.init image objects :: rest =>
      (Response.TRAX_INITIALIZE, some image, some objects,
        { t with pending := rest, waits := t.waits + 1 })
  | Message.frame image objects :: rest =>
      (Response.TRAX_FRAME, some image, some objects,
        { t with pending := rest, waits := t.waits + 1 })
  | Message.quit :: rest =>
      (Response.TRAX_QUIT, none, none, { t with pending := rest, waits := t.waits + 1 })
  | Message.error :: rest =>
      (Response.TRAX_ERROR, none, none, { t with pending := rest, waits := t.waits + 1 })

/-- Modelled from the spec: `trax_server_reply (handle, objects)` of the TraX
library, the `transport.reply` of the specification - it sends the list of
wire regions with the properties attached to each. -/
def trax_server_reply {W : Type} (t : Transport W) (objects : trax_object_list W) :
    Transport W :=
  { t with sent := t.sent ++ [objects] }

/-- Modelled from the spec: `trax_object_list_count` of the TraX library, the
number of wire regions in the list. -/
def trax_object_list_count {W : Type} (objects : trax_object_list W) : Nat :=
  objects.length

/-! ## Session -/

section Session

variable {W R : Type}

/-- The store `_objects[j] = region`. Inside the array it overwrites slot `j`;
outside it is the out-of-bounds write, kept in `overrun`. -/
def store_object (s : VOT W R) (j : Nat) (region : R) : VOT W R :=
  if j < VOT_MAX_OBJECTS then
    { s with _objects := s._objects.set j (some region) }
  else
    { s with overrun := s.overrun ++ [(j, region)] }

/-- The loop `for (j = 0; j < trax_object_list_count (_trax_objects); j++)
_objects[j] = _trax_to_region (trax_object_list_get (_trax_objects, j))`,
started at index `j` with the objects from `j` on. -/
def store_objects (M : RegionMode W R) : List (trax_object W) → Nat → VOT W R → VOT W R
  | [], _, s => s
  | o :: rest, j, s => store_objects M rest (j + 1) (store_object s j (M._trax_to_region o.region))

/-- `vot_initialize`: handshake. Returns `_objects` (multi-object build; the
single-object build returns `_objects[0]`).
`trax_server_setup` is taken to succeed. -/
def vot_initialize (M : RegionMode W R) (s : VOT W R) :
    Except (Fault (VOT W R)) (List (Option R) × VOT W R) :=
  let s := { s with _vot_sequence_position := 0, _vot_sequence_size := 0 }
  -- assert(_trax_handle == NULL);
  if s._trax_handle ≠ none then Except.error ⟨s⟩ else
  let s := { s with _trax_handle := some trax_handle.server }
  match trax_server_wait s.wire with
  | (response, _trax_image, _trax_objects, wire) =>
    let s := { s with wire := wire }
    -- assert(response == TRAX_INITIALIZE);
    match response, _trax_image, _trax_objects with
    | Response.TRAX_INITIALIZE, some image, some objects =>
      let s := { s with _image := ⟨image.color⟩ }
      let s := { s with wire := trax_server_reply s.wire objects }
      let s := { s with _objects := List.replicate VOT_MAX_OBJECTS none }
      let s := store_objects M objects 0 s
      Except.ok (s._objects, s)
    | _, _, _ => Except.error ⟨s⟩

/-- The loop of `vot_quit` over `i < VOT_MAX_OBJECTS`, from slot `i` with
`n` slots to go: a non-`NULL` slot is released and set to `NULL`. -/
def release_objects : Nat → Nat → List (Option R) → List (Option R)
  | 0, _, objects => objects
  | n + 1, i, objects =>
      match objects.getD i none with
      | some _ => release_objects n (i + 1) (objects.set i none)
      | none => release_objects n (i + 1) objects

/-- `vot_quit`. `trax_cleanup (&_trax_handle)`, the `transport.teardown` of
the specification, releases the handle and sets it to `NULL`. -/
def vot_quit (s : VOT W R) : VOT W R :=
  match s._trax_handle with
  | some _ =>
      { s with
        _trax_handle := none
        wire := { s.wire with cleanups := s.wire.cleanups + 1 }
        _objects := release_objects VOT_MAX_OBJECTS 0 s._objects }
  | none => s

/-- Ghost of the loop of `vot_quit`: the regions it hands to
`vot_region_release`, in the order of the calls. -/
def released_objects : Nat → Nat → List (Option R) → List R
  | 0, _, _ => []
  | n + 1, i, objects =>
      match objects.getD i none with
      | some region => region :: released_objects n (i + 1) (objects.set i none)
      | none => released_objects n (i + 1) objects

/-- Ghost of `vot_quit`: the regions released by a call made in state `s`. -/
def vot_quit_released (s : VOT W R) : List R :=
  match s._trax_handle with
  | some _ => released_objects VOT_MAX_OBJECTS 0 s._objects
  | none => []

/-- `vot_frame`: `some image` is `&_image`, `none` is `NULL`. -/
def vot_frame (s : VOT W R) : Except (Fault (VOT W R)) (Option vot_image × VOT W R) :=
  -- assert (_trax_handle);
  if s._trax_handle = none then Except.error ⟨s⟩ else
  if s._vot_sequence_position = 0 then
    let s := { s with _vot_sequence_position := s._vot_sequence_position + 1 }
    Except.ok (some s._image, s)
  else
    match trax_server_wait s.wire with
    | (response, _trax_image, _trax_objects, wire) =>
      let s := { s with wire := wire }
      -- assert(_trax_objects == NULL || trax_object_list_count(_trax_objects) == 0);
      if ¬ (_trax_objects.isNone ∨ trax_object_list_count (_trax_objects.getD []) = 0) then
        Except.error ⟨s⟩
      else
        match response, _trax_image with
        | Response.TRAX_FRAME, some image =>
            let s := { s with _image := ⟨image.color⟩ }
            Except.ok (some s._image, s)
        -- not reached: `trax_server_wait` hands a frame over with its image list
        | Response.TRAX_FRAME, none => Except.ok (some s._image, s)
        | _, _ => Except.ok (none, vot_quit s)

/-- `vot_end`. -/
def vot_end (s : VOT W R) : Int :=
  if s._trax_handle = none then 1 else 0

/-- The entries before the first `NULL` among the first `VOT_MAX_OBJECTS`
entries of an array of region pointers: their number is the value of `i`
after the first loop of `vot_report`, and they are the regions `VOT::objects`
wraps. -/
def leading_objects (objects : List (Option R)) : List R :=
  ((objects.take VOT_MAX_OBJECTS).takeWhile Option.isSome).filterMap id

/-- `vot_report` of the multi-object build. `objects` is the `NULL`-terminated
array; each listed region is encoded with `_region_to_trax` into a fresh
`trax_object_list` (no properties) and the list is sent. -/
def vot_report (M : RegionMode W R) (objects : List (Option R)) (s : VOT W R) :
    Except (Fault (VOT W R)) (Unit × VOT W R) :=
  -- assert (_trax_handle);
  if s._trax_handle = none then Except.error ⟨s⟩ else
  let _objects : trax_object_list W :=
    (leading_objects objects).map (fun region => ⟨M._region_to_trax region, []⟩)
  Except.ok ((), { s with wire := trax_server_reply s.wire _objects })

/-- `vot_report` of the single-object build. -/
def vot_report_single (M : RegionMode W R) (region : R) (s : VOT W R) :
    Except (Fault (VOT W R)) (Unit × VOT W R) :=
  if s._trax_handle = none then Except.error ⟨s⟩ else
  let _objects : trax_object_list W := [⟨M._region_to_trax region, []⟩]
  Except.ok ((), { s with wire := trax_server_reply s.wire _objects })

/-- `vot_report2` (single-object build): as `vot_report`, with the property
`confidence` set on object 0. -/
def vot_report2 (M : RegionMode W R) (region : R) (confidence : ℚ) (s : VOT W R) :
    Except (Fault (VOT W R)) (Unit × VOT W R) :=
  if s._trax_handle = none then Except.error ⟨s⟩ else
  let _objects : trax_object_list W :=
    [⟨M._region_to_trax region, [("confidence", confidence)]⟩]
  Except.ok ((), { s with wire := trax_server_reply s.wire _objects })

/-- `n` consecutive calls of `vot_frame`, up to the first abort. -/
def vot_frames : Nat → VOT W R → Except (Fault (VOT W R)) (VOT W R)
  | 0, s => Except.ok s
  | n + 1, s =>
      match vot_frame s with
      | Except.ok (_, s) => vot_frames n s
      | Except.error f => Except.error f

/-! ### The C++ wrapper `class VOT` -/

/-- `VOT::VOT ()`. -/
def VOT.new (M : RegionMode W R) (s : VOT W R) : Except (Fault (VOT W R)) (VOT W R) :=
  match vot_initialize M s with
  | Except.ok (_, s) => Except.ok s
  | Except.error f => Except.error f

/-- `VOT::objects ()`: a copy of every stored region up to the first `NULL`
slot. -/
def VOT.objects (M : RegionMode W R) (s : VOT W R) : List R :=
  (leading_objects s._objects).map M.vot_region_copy

/-- `VOT::report (const std::vector<VOTRegion>&)`: the pointers of the
regions (live wrappers, none of them `NULL`), followed by `NULL`, go to
`vot_report`. -/
def VOT.report (M : RegionMode W R) (objects : List R) (s : VOT W R) :
    Except (Fault (VOT W R)) (Unit × VOT W R) :=
  vot_report M (objects.map some ++ [none]) s

/-- `VOT::region ()` of the single-object build: `VOTRegion (_objects[0])`, a
copy of the region in slot 0 (`none` when the slot is `NULL`, which the
constructor does not expect). -/
def VOT.region (M : RegionMode W R) (s : VOT W R) : Option R :=
  (s._objects.getD 0 none).map M.vot_region_copy

/-- `VOT::report (const VOTRegion& region, float confidence = 1)` of the
single-object build; `none` is a call that leaves the second argument out. -/
def VOT.report_single (M : RegionMode W R) (region : R) (confidence : Option ℚ)
    (s : VOT W R) : Except (Fault (VOT W R)) (Unit × VOT W R) :=
  vot_report2 M region (confidence.getD 1) s

/-- `VOT::image ()`. -/
def VOT.image (s : VOT W R) : Except (Fault (VOT W R)) (VOTImage × VOT W R) :=
  match vot_frame s with
  | Except.error f => Except.error f
  | Except.ok (none, s) => Except.ok (⟨""⟩, s)
  | Except.ok (some _, s) => Except.ok (⟨s._image.color⟩, s)

/-- `VOT::end ()`. -/
def VOT.end (s : VOT W R) : Bool :=
  vot_end s != 0

end Session

/-! ## Numbers and OpenCV records

A `float` value is the rational number it stands for; non-finite values are
outside the model. The two conversions of the code are those of C on a
machine with 32-bit `int` and IEEE single precision: `int` to `float` rounds
to 24 significant bits (to nearest, ties to even), `float` to `int` discards
the fraction and needs the result to fit 32 bits. Sums of `int` are taken
modulo `2 ^ 32`. The comparisons `MIN` and `MAX` are exact; the subtractions
`right - left` and `bottom - top` of `VOTRegion::get` are kept exact, without
the rounding of the difference to single precision (on integer coordinates
below `2 ^ 23` in magnitude the only rounding they would see is that of
`FLT_MIN` added to a non-zero integer, which the conversion to `int` discards
as well); what is proved of `width` and `height` in general holds of the
rounded differences too. -/

/-- C `float`. -/
abbrev float := ℚ

/-- `FLT_MAX` of the C library header `<float.h>` (not among the sources): the
largest finite single-precision value. -/
def FLT_MAX : float := (2 ^ 24 - 1) * 2 ^ 104

/-- `FLT_MIN` of the C library header `<float.h>` (not among the sources): the
smallest positive normalised single-precision value, `2 ^ (-126)`. -/
def FLT_MIN : float := 1 / 2 ^ 126

/-- The macro `MIN` of OpenCV (not among the sources):
`#define MIN(a,b) ((a) > (b) ? (b) : (a))`. -/
def MIN (a b : float) : float := if a > b then b else a

/-- The macro `MAX` of OpenCV (not among the sources):
`#define MAX(a,b) ((a) < (b) ? (b) : (a))`. -/
def MAX (a b : float) : float := if a < b then b else a

/-- `INT_MIN` of `<limits.h>` (not among the sources), 32-bit `int`. -/
def INT_MIN : Int := -2 ^ 31

/-- `INT_MAX` of `<limits.h>` (not among the sources), 32-bit `int`. -/
def INT_MAX : Int := 2 ^ 31 - 1

/-- The sum `a + b` of two `int`: the sum modulo `2 ^ 32`, in the range of
`int`. (A sum outside the range is undefined in C; two's complement hardware
wraps.) -/
def int_add (a b : Int) : Int := (a + b + 2 ^ 31) % 2 ^ 32 - 2 ^ 31

/-- The number of low bits of `n` that a significand of 24 bits cannot hold:
the least `e` with `n / 2 ^ e < 2 ^ 24`, found by halving `n`; `fuel`
halvings suffice whenever `n ≤ fuel`. -/
def excess_bits : Nat → Nat → Nat
  | 0, _ => 0
  | fuel + 1, n => if n < 2 ^ 24 then 0 else excess_bits fuel (n / 2) + 1

/-- Rounding of a natural number to 24 significant bits, to nearest and ties
to even: with `e` excess bits, `n = q * 2 ^ e + r` becomes `q * 2 ^ e` or
`(q + 1) * 2 ^ e`. -/
def round_to_float (n : Nat) : Nat :=
  let e := excess_bits n n
  let q := n / 2 ^ e
  let r := n % 2 ^ e
  let q := if 2 * r < 2 ^ e then q else if 2 ^ e < 2 * r then q + 1
    else if q % 2 = 0 then q else q + 1
  q * 2 ^ e

/-- Conversion of a `float` to `int`: the fractional part is discarded
(truncation toward zero). A result outside the range of `int` is undefined in
C; the conversion instruction of the usual hardware then gives `INT_MIN`,
which is the value taken here. -/
def float_to_int (q : float) : Int :=
  let t : Int := if 0 ≤ q then ⌊q⌋ else ⌈q⌉
  if INT_MIN ≤ t ∧ t ≤ INT_MAX then t else INT_MIN

/-- Conversion of an `int` to `float`: the nearest single-precision value. -/
def int_to_float (i : Int) : float :=
  if 0 ≤ i then (round_to_float i.natAbs : ℚ) else -(round_to_float i.natAbs : ℚ)

/-- An `int` that single precision holds exactly: a value in the range of
`int` with at most 24 significant bits. On such values `int_to_float` changes
nothing and `float_to_int` leads back. -/
def exactly_representable (i : Int) : Prop :=
  INT_MIN ≤ i ∧ i ≤ INT_MAX ∧ ∃ m e : Nat, m < 2 ^ 24 ∧ i.natAbs = m * 2 ^ e

/-- `cv::Rect` of OpenCV (`cv::Rect_<int>`, not among the sources). -/
structure Rect where
  x : Int
  y : Int
  width : Int
  height : Int
deriving DecidableEq, Repr

/-- The part of `cv::Mat` (OpenCV, not among the sources) the header uses: `rows`, `cols`, `channels ()`,
`elemSize ()` (bytes of one element, all channels), and the bytes of a
continuous matrix, row after row. -/
structure Mat where
  rows : Nat
  cols : Nat
  channels : Nat
  elemSize : Nat
  data : List Nat
deriving DecidableEq, Repr

/-- `cv::Mat::empty ()`. -/
def Mat.empty (m : Mat) : Bool := m.rows * m.cols == 0

/-- `cv::Mat::ptr (i)` (spelled `prt` in the header): the bytes from row `i`
on. -/
def Mat.ptr (m : Mat) (i : Nat) : List Nat := m.data.drop (i * (m.cols * m.elemSize))

/-- `cv::Size (width, height)`. -/
structure Size where
  width : Nat
  height : Nat
deriving DecidableEq, Repr

/-- `cv::Mat::create (size, CV_8UC1)`: `size.height` rows and `size.width`
columns of one byte each; `fresh k` is the content of byte `k` of the new
buffer. -/
def Mat.create (size : Size) (fresh : Nat → Nat) : Mat :=
  { rows := size.height
    cols := size.width
    channels := 1
    elemSize := 1
    data := (List.range (size.height * size.width)).map fresh }

/-- `memcpy (dst + offset, src, n)` on byte buffers. -/
def memcpy (dst : List Nat) (offset : Nat) (src : List Nat) (n : Nat) : List Nat :=
  (List.range dst.length).map
    (fun k => if offset ≤ k ∧ k < offset + n then src.getD (k - offset) 0 else dst.getD k 0)

/-- A loop `for (i = ...; ...; i++) dst[i] = src[i]` on arrays, from index `i`
with `n` rounds to go (`d` stands for a read outside `src`). -/
def overwrite {α : Type} (src : List α) (d : α) : Nat → Nat → List α → List α
  | 0, _, dst => dst
  | n + 1, i, dst => overwrite src d n (i + 1) (dst.set i (src.getD i d))

/-! ## Region, `_VOT_REGION == 1` (rectangle) -/

namespace Box

/-- `struct vot_region`. -/
structure vot_region where
  x : float
  y : float
  width : float
  height : float
deriving DecidableEq, Repr

/-- Wire rectangle of the TraX library (`TRAX_REGION_RECTANGLE`). -/
structure trax_region where
  x : float
  y : float
  width : float
  height : float
deriving DecidableEq, Repr

/-- `vot_region_create ()`. -/
def vot_region_create : vot_region :=
  { x := 0, y := 0, width := 0, height := 0 }

/-- `vot_region_copy`. -/
def vot_region_copy (region : vot_region) : vot_region :=
  let copy := vot_region_create
  let copy := { copy with x := region.x }
  let copy := { copy with y := region.y }
  let copy := { copy with width := region.width }
  { copy with height := region.height }

/-- `_trax_to_region`; the asserted region type is the type of the
argument. -/
def _trax_to_region (_trax_region : trax_region) : vot_region :=
  let region := vot_region_create
  { region with
    x := _trax_region.x
    y := _trax_region.y
    width := _trax_region.width
    height := _trax_region.height }

/-- `_region_to_trax`. -/
def _region_to_trax (region : vot_region) : trax_region :=
  { x := region.x, y := region.y, width := region.width, height := region.height }

/-- `VOTRegion::get_x`, `get_y`, `get_width`, `get_height`. -/
def VOTRegion.get_x (_region : vot_region) : float := _region.x

@[inherit_doc VOTRegion.get_x]
def VOTRegion.get_y (_region : vot_region) : float := _region.y

@[inherit_doc VOTRegion.get_x]
def VOTRegion.get_width (_region : vot_region) : float := _region.width

@[inherit_doc VOTRegion.get_x]
def VOTRegion.get_height (_region : vot_region) : float := _region.height

/-- `VOTRegion::set_x`, `set_y`, `set_width`, `set_height`. -/
def VOTRegion.set_x (_region : vot_region) (x : float) : vot_region := { _region with x := x }

@[inherit_doc VOTRegion.set_x]
def VOTRegion.set_y (_region : vot_region) (y : float) : vot_region := { _region with y := y }

@[inherit_doc VOTRegion.set_x]
def VOTRegion.set_width (_region : vot_region) (width : float) : vot_region :=
  { _region with width := width }

@[inherit_doc VOTRegion.set_x]
def VOTRegion.set_height (_region : vot_region) (height : float) : vot_region :=
  { _region with height := height }

/-- `VOTRegion::set (const cv::Rect&)`. -/
def VOTRegion.set_rect (_region : vot_region) (rectangle : Rect) : vot_region :=
  let _region := VOTRegion.set_x _region (int_to_float rectangle.x)
  let _region := VOTRegion.set_y _region (int_to_float rectangle.y)
  let _region := VOTRegion.set_width _region (int_to_float rectangle.width)
  VOTRegion.set_height _region (int_to_float rectangle.height)

/-- `VOTRegion::VOTRegion (const cv::Rect&)`. -/
def VOTRegion.of_rect (rectangle : Rect) : vot_region :=
  VOTRegion.set_rect vot_region_create rectangle

/-- `VOTRegion::get (cv::Rect&)`. -/
def VOTRegion.get_rect (_region : vot_region) : Rect :=
  { x := float_to_int (VOTRegion.get_x _region)
    y := float_to_int (VOTRegion.get_y _region)
    width := float_to_int (VOTRegion.get_width _region)
    height := float_to_int (VOTRegion.get_height _region) }

/-- The rectangle build of the session. -/
def mode : RegionMode trax_region vot_region :=
  { _trax_to_region := _trax_to_region
    _region_to_trax := _region_to_trax
    vot_region_copy := vot_region_copy }

end Box

/-! ## Region, `_VOT_REGION == 2` (polygon) -/

namespace Polygon

/-- `struct vot_region`: the arrays `x`, `y` and `count`. -/
structure vot_region where
  x : List float
  y : List float
  count : Nat
deriving DecidableEq, Repr

/-- `vot_region_create (n)`: two arrays of `n` zeros. -/
def vot_region_create (n : Nat) : vot_region :=
  { x := List.replicate n 0, y := List.replicate n 0, count := n }

/-- `VOTRegion::set (i, x, y)`. -/
def VOTRegion.set (_region : vot_region) (i : Int) (x y : float) :
    Except (Fault vot_region) vot_region :=
  -- assert(i >= 0 && i < _region->count);
  if ¬ (i ≥ 0 ∧ i < _region.count) then Except.error ⟨_region⟩ else
  Except.ok { _region with x := _region.x.set i.toNat x, y := _region.y.set i.toNat y }

/-- `VOTRegion::set (const cv::Rect&)`. -/
def VOTRegion.set_rect (_region : vot_region) (rectangle : Rect) :
    Except (Fault vot_region) vot_region := do
  let _region := if _region.count ≠ 4 then vot_region_create 4 else _region
  let _region ← VOTRegion.set _region 0 (int_to_float rectangle.x) (int_to_float rectangle.y)
  let _region ← VOTRegion.set _region 1 (int_to_float (int_add rectangle.x rectangle.width))
    (int_to_float rectangle.y)
  let _region ← VOTRegion.set _region 2 (int_to_float (int_add rectangle.x rectangle.width))
    (int_to_float (int_add rectangle.y rectangle.height))
  VOTRegion.set _region 3 (int_to_float rectangle.x)
    (int_to_float (int_add rectangle.y rectangle.height))

/-- `VOTRegion::VOTRegion (const cv::Rect&)`. -/
def VOTRegion.of_rect (rectangle : Rect) : Except (Fault vot_region) vot_region :=
  VOTRegion.set_rect (vot_region_create 4) rectangle

/-- The shape of an allocated region: both arrays have `count` entries. -/
def vot_region.wf (region : vot_region) : Prop :=
  region.x.length = region.count ∧ region.y.length = region.count

/-- `VOTRegion::get_x (i)`. -/
def VOTRegion.get_x (_region : vot_region) (i : Int) : Except (Fault vot_region) float :=
  -- assert(i >= 0 && i < _region->count);
  if ¬ (i ≥ 0 ∧ i < _region.count) then Except.error ⟨_region⟩ else
  Except.ok (_region.x.getD i.toNat 0)

/-- `VOTRegion::get_y (i)`. -/
def VOTRegion.get_y (_region : vot_region) (i : Int) : Except (Fault vot_region) float :=
  -- assert(i >= 0 && i < _region->count);
  if ¬ (i ≥ 0 ∧ i < _region.count) then Except.error ⟨_region⟩ else
  Except.ok (_region.y.getD i.toNat 0)

/-- `VOTRegion::count ()`. -/
def VOTRegion.count (_region : vot_region) : Nat := _region.count

/-- The loop `for (int i = 0; i < source.count (); i++)
set (i, source.get_x (i), source.get_y (i))` of the copy assignment, from
index `i` with `n` rounds to go. -/
def assign_points (source : vot_region) : Nat → Nat → vot_region →
    Except (Fault vot_region) vot_region
  | 0, _, _region => Except.ok _region
  | n + 1, i, _region => do
      let x ← VOTRegion.get_x source i
      let y ← VOTRegion.get_y source i
      let _region ← VOTRegion.set _region i x y
      assign_points source n (i + 1) _region

/-- `VOTRegion::operator= (const VOTRegion&)` on the target `_region`. The
early return of a self-assignment (`this == &source`) is not a case of its
own here: target and source then hold the same region and the loop leaves it
as it is. -/
def VOTRegion.assign (_region source : vot_region) : Except (Fault vot_region) vot_region :=
  let _region :=
    if _region.count ≠ VOTRegion.count source then vot_region_create (VOTRegion.count source)
    else _region
  assign_points source (VOTRegion.count source) 0 _region

/-- The loop `for (i = 0; i < region->count; i++) { copy->x[i] = region->x[i];
copy->y[i] = region->y[i]; }` of `vot_region_copy`, from index `i` with `n`
rounds to go. -/
def copy_points (region : vot_region) : Nat → Nat → vot_region → vot_region
  | 0, _, copy => copy
  | n + 1, i, copy =>
      copy_points region n (i + 1)
        { copy with x := copy.x.set i (region.x.getD i 0), y := copy.y.set i (region.y.getD i 0) }

/-- `vot_region_copy`. -/
def vot_region_copy (region : vot_region) : vot_region :=
  let copy := vot_region_create region.count
  copy_points region region.count 0 copy

/-- Modelled from the spec: the wire polygon of the TraX library
(`TRAX_REGION_POLYGON`), which is not among the sources - an ordered list of
`(x, y)` floating-point pairs, the count given explicitly. -/
structure trax_region where
  count : Nat
  x : List float
  y : List float
deriving DecidableEq, Repr

/-- Modelled from the spec: `trax_region_create_polygon (count)` of the TraX
library, a wire polygon with room for `count` points. Its entries are taken
as zero; `_region_to_trax` sets every one of them. -/
def trax_region_create_polygon (count : Nat) : trax_region :=
  { count := count, x := List.replicate count 0, y := List.replicate count 0 }

/-- Modelled from the spec: `trax_region_get_polygon_count` of the TraX
library. -/
def trax_region_get_polygon_count (_trax_region : trax_region) : Nat := _trax_region.count

/-- Modelled from the spec: `trax_region_set_polygon_point (region, index, x, y)`
of the TraX library. -/
def trax_region_set_polygon_point (_trax_region : trax_region) (index : Nat) (x y : float) :
    trax_region :=
  { _trax_region with x := _trax_region.x.set index x, y := _trax_region.y.set index y }

/-- Modelled from the spec: `trax_region_get_polygon_point (region, index, &x, &y)`
of the TraX library. -/
def trax_region_get_polygon_point (_trax_region : trax_region) (index : Nat) : float × float :=
  (_trax_region.x.getD index 0, _trax_region.y.getD index 0)

/-- The loop of `_trax_to_region`, from index `i` with `n` rounds to go. -/
def read_points (_trax_region : trax_region) : Nat → Nat → vot_region → vot_region
  | 0, _, region => region
  | n + 1, i, region =>
      let point := trax_region_get_polygon_point _trax_region i
      read_points _trax_region n (i + 1)
        { region with x := region.x.set i point.1, y := region.y.set i point.2 }

/-- `_trax_to_region`. -/
def _trax_to_region (_trax_region : trax_region) : vot_region :=
  let count := trax_region_get_polygon_count _trax_region
  let region := vot_region_create count
  read_points _trax_region count 0 region

/-- The loop of `_region_to_trax`, from index `i` with `n` rounds to go. -/
def write_points (region : vot_region) : Nat → Nat → trax_region → trax_region
  | 0, _, _trax_region => _trax_region
  | n + 1, i, _trax_region =>
      write_points region n (i + 1)
        (trax_region_set_polygon_point _trax_region i (region.x.getD i 0) (region.y.getD i 0))

/-- `_region_to_trax`; the asserted region type is the type of the value. -/
def _region_to_trax (region : vot_region) : trax_region :=
  let _trax_region := trax_region_create_polygon region.count
  write_points region region.count 0 _trax_region

/-- The polygon build of the session. -/
def mode : RegionMode trax_region vot_region :=
  { _trax_to_region := _trax_to_region
    _region_to_trax := _region_to_trax
    vot_region_copy := vot_region_copy }

/-- The locals `top`, `bottom`, `left`, `right` of `VOTRegion::get`. -/
structure Extent where
  top : float
  bottom : float
  left : float
  right : float
deriving DecidableEq, Repr

/-- The loop of `VOTRegion::get (cv::Rect&)` with its initial values. -/
def VOTRegion.extent (_region : vot_region) : Extent :=
  (List.range _region.count).foldl
    (fun e j =>
      { top := MIN e.top (_region.y.getD j 0)
        bottom := MAX e.bottom (_region.y.getD j 0)
        left := MIN e.left (_region.x.getD j 0)
        right := MAX e.right (_region.x.getD j 0) })
    { top := FLT_MAX, bottom := FLT_MIN, left := FLT_MAX, right := FLT_MIN }

/-- The four `float` values that `VOTRegion::get (cv::Rect&)` assigns to
`rectangle.x`, `.y`, `.width`, `.height`, before their conversion to `int`. -/
def VOTRegion.get_float (_region : vot_region) : float × float × float × float :=
  let e := VOTRegion.extent _region
  (e.left, e.top, e.right - e.left, e.bottom - e.top)

/-- `VOTRegion::get (cv::Rect&)`. -/
def VOTRegion.get_rect (_region : vot_region) : Rect :=
  let v := VOTRegion.get_float _region
  { x := float_to_int v.1
    y := float_to_int v.2.1
    width := float_to_int v.2.2.1
    height := float_to_int v.2.2.2 }

end Polygon

/-! ## Region, `_VOT_REGION == 3` (mask) -/

namespace Mask

/-- `struct vot_region`. -/
structure vot_region where
  width : Nat
  height : Nat
  data : List Nat
deriving DecidableEq, Repr

/-- `vot_region_create (width, height)`. The buffer comes from `malloc`;
`memset (region->data, sizeof (char) * width * height, 0)` has a length of 0
and writes nothing, so the buffer keeps the bytes `fresh` that `malloc` handed
out. -/
def vot_region_create (fresh : Nat → Nat) (width height : Nat) : vot_region :=
  { width := width, height := height, data := (List.range (width * height)).map fresh }

/-- The shape of an allocated region: `width * height` bytes. -/
def vot_region.wf (region : vot_region) : Prop :=
  region.data.length = region.width * region.height

/-- `vot_region_copy`. -/
def vot_region_copy (fresh : Nat → Nat) (region : vot_region) : vot_region :=
  let copy := vot_region_create fresh region.width region.height
  { copy with data := memcpy copy.data 0 region.data (region.width * region.height) }

/-- Modelled from the spec: the wire mask of the TraX library
(`TRAX_REGION_MASK`), which is not among the sources - an origin offset
`(x, y)`, a width and a height, and the bytes of the mask, one row of `width`
bytes after the other. Offsets are taken as not negative. -/
structure trax_region where
  x : Nat
  y : Nat
  width : Nat
  height : Nat
  data : List Nat
deriving DecidableEq, Repr

/-- Modelled from the spec: `trax_region_create_mask (x, y, width, height)` of
the TraX library; `fresh` is the content of the new buffer. -/
def trax_region_create_mask (fresh : Nat → Nat) (x y width height : Nat) : trax_region :=
  { x := x, y := y, width := width, height := height,
    data := (List.range (width * height)).map fresh }

/-- Modelled from the spec: `trax_region_get_mask_row (region, row)` of the
TraX library, the bytes from row `row` on. -/
def trax_region_get_mask_row (_trax_region : trax_region) (row : Nat) : List Nat :=
  _trax_region.data.drop (row * _trax_region.width)

/-- The loop `for (i = 0; i < height; i++) memcpy (&(region->data[(width + x) *
(i + y) + x]), trax_region_get_mask_row (_trax_region, i), width)` of
`_trax_to_region`, from row `i` with `n` rows to go. -/
def read_rows (_trax_region : trax_region) : Nat → Nat → vot_region → vot_region
  | 0, _, region => region
  | n + 1, i, region =>
      read_rows _trax_region n (i + 1)
        { region with
          data := memcpy region.data
            ((_trax_region.width + _trax_region.x) * (i + _trax_region.y) + _trax_region.x)
            (trax_region_get_mask_row _trax_region i) _trax_region.width }

/-- `_trax_to_region`. -/
def _trax_to_region (fresh : Nat → Nat) (_trax_region : trax_region) : vot_region :=
  let region := vot_region_create fresh (_trax_region.x + _trax_region.width)
    (_trax_region.y + _trax_region.height)
  read_rows _trax_region _trax_region.height 0 region

/-- `_region_to_trax`: `memcpy (trax_region_write_mask_row (_trax_region, 0),
region->data, region->width * region->height)` on a new wire mask at offset
`(0, 0)`. -/
def _region_to_trax (fresh : Nat → Nat) (region : vot_region) : trax_region :=
  let _trax_region := trax_region_create_mask fresh 0 0 region.width region.height
  { _trax_region with
    data := memcpy _trax_region.data 0 region.data (region.width * region.height) }

/-- The mask build of the session; `fresh` is what `malloc` hands out. -/
def mode (fresh : Nat → Nat) : RegionMode trax_region vot_region :=
  { _trax_to_region := _trax_to_region fresh
    _region_to_trax := _region_to_trax fresh
    vot_region_copy := vot_region_copy fresh }

/-- The loop `for (i = 0; i < mask.rows; i++) memcpy (&(_region->data[mask.cols * i]),
mask.ptr (i), _region->width)` of `VOTRegion::set (const cv::Mat&)`, from row
`i` with `n` rows to go. -/
def copy_rows (mask : Mat) : Nat → Nat → vot_region → vot_region
  | 0, _, _region => _region
  | n + 1, i, _region =>
      copy_rows mask n (i + 1)
        { _region with data := memcpy _region.data (mask.cols * i) (mask.ptr i) _region.width }

/-- `VOTRegion::set (const cv::Mat&)`. -/
def VOTRegion.set_mat (fresh : Nat → Nat) (_region : vot_region) (mask : Mat) :
    Except (Fault vot_region) vot_region :=
  -- assert(!mask.empty() && mask.channels() == 2 && mask.elemSize() == 1);
  if ¬ (!mask.empty ∧ mask.channels = 2 ∧ mask.elemSize = 1) then Except.error ⟨_region⟩ else
  let _region :=
    if _region.width ≠ mask.cols ∨ _region.height ≠ mask.rows then
      vot_region_create fresh mask.cols mask.rows
    else _region
  Except.ok (copy_rows mask mask.rows 0 _region)

/-- `VOTRegion::VOTRegion (const cv::Mat&)`. The assertion is evaluated
before `_region` is set; the fault reports an empty region. -/
def VOTRegion.of_mat (fresh : Nat → Nat) (mask : Mat) : Except (Fault vot_region) vot_region :=
  if ¬ (!mask.empty ∧ mask.channels = 2 ∧ mask.elemSize = 1) then
    Except.error ⟨{ width := 0, height := 0, data := [] }⟩
  else
    VOTRegion.set_mat fresh (vot_region_create fresh mask.cols mask.rows) mask

/-- `VOTRegion::get (cv::Mat&)`: `mask.create (cv::Size (_region->height,
_region->width), CV_8UC1)`, then one `memcpy` of `height * width` bytes to
`mask.ptr (0)`. -/
def VOTRegion.get_mat (fresh : Nat → Nat) (_region : vot_region) : Mat :=
  let mask := Mat.create { width := _region.height, height := _region.width } fresh
  { mask with data := memcpy mask.data 0 _region.data (_region.height * _region.width) }

end Mask

/-! ## Polygon regions on the heap

The polygon build once more, with the allocations of the code made explicit:
a `vot_region*` is an address, the `struct vot_region` and its two arrays are
blocks of a heap. `malloc` hands out an address that was never used before;
a block that is freed leaves its address empty. A load from an address that
does not hold a block of the expected kind is undefined behaviour in C and
ends the call with a fault, as a failed assertion does. -/

namespace Heap

/-- A block of the heap: an array of `float`, or a `struct vot_region` with
its pointers `x`, `y` and its `count`. -/
inductive Block
  | floats (data : List float)
  | region (x y : Nat) (count : Nat)
deriving DecidableEq, Repr

/-- The heap: the block at each address, and the first address `malloc` has
not handed out yet. -/
structure Memory where
  cells : Nat → Option Block
  next : Nat

/-- `malloc`, the new block holding `b`. -/
def malloc (m : Memory) (b : Block) : Nat × Memory :=
  (m.next, { cells := Function.update m.cells m.next (some b), next := m.next + 1 })

/-- `free (p)`. -/
def free (m : Memory) (p : Nat) : Memory :=
  { m with cells := Function.update m.cells p none }

/-- A store into the block at `p`. -/
def store (m : Memory) (p : Nat) (b : Block) : Memory :=
  { m with cells := Function.update m.cells p (some b) }

/-- The fields of the `struct vot_region` at `p`. -/
def load_region (m : Memory) (p : Nat) : Option (Nat × Nat × Nat) :=
  match m.cells p with
  | some (Block.region x y count) => some (x, y, count)
  | _ => none

/-- The array of `float` at `p`. -/
def load_floats (m : Memory) (p : Nat) : Option (List float) :=
  match m.cells p with
  | some (Block.floats data) => some data
  | _ => none

/-- `vot_region_create (n)`: three `malloc`s, the arrays zeroed by `memset`. -/
def vot_region_create (n : Nat) (m : Memory) : Nat × Memory :=
  let r := malloc m (Block.region 0 0 0)
  let x := malloc r.2 (Block.floats (List.replicate n 0))
  let y := malloc x.2 (Block.floats (List.replicate n 0))
  (r.1, store y.2 r.1 (Block.region x.1 y.1 n))

/-- `vot_region_release (&region)` on a pointer that is not `NULL`: the two
arrays and the struct are freed. -/
def vot_region_release (region : Nat) (m : Memory) : Except (Fault Memory) Memory :=
  match load_region m region with
  | none => Except.error ⟨m⟩
  | some (x, y, _) => Except.ok (free (free (free m x) y) region)

/-- The loop of `vot_region_copy`, from index `i` with `n` rounds to go. -/
def copy_points (region copy : Nat) : Nat → Nat → Memory → Except (Fault Memory) Memory
  | 0, _, m => Except.ok m
  | n + 1, i, m =>
      match load_region m region, load_region m copy with
      | some (rx, ry, _), some (cx, cy, _) =>
          match load_floats m rx, load_floats m cx with
          | some xs, some cxs =>
              let m := store m cx (Block.floats (cxs.set i (xs.getD i 0)))
              match load_floats m ry, load_floats m cy with
              | some ys, some cys =>
                  copy_points region copy n (i + 1)
                    (store m cy (Block.floats (cys.set i (ys.getD i 0))))
              | _, _ => Except.error ⟨m⟩
          | _, _ => Except.error ⟨m⟩
      | _, _ => Except.error ⟨m⟩

/-- `vot_region_copy (region)`; also the constructors
`VOTRegion (const vot_region*)` and `VOTRegion (const VOTRegion&)`. -/
def vot_region_copy (region : Nat) (m : Memory) : Except (Fault Memory) (Nat × Memory) :=
  match load_region m region with
  | none => Except.error ⟨m⟩
  | some (_, _, count) =>
      let c := vot_region_create count m
      match copy_points region c.1 count 0 c.2 with
      | Except.ok m => Except.ok (c.1, m)
      | Except.error f => Except.error f

/-- `VOTRegion::set (i, x, y)` on the wrapper whose `_region` is `p`. -/
def VOTRegion.set (p : Nat) (i : Int) (x y : float) (m : Memory) :
    Except (Fault Memory) Memory :=
  match load_region m p with
  | none => Except.error ⟨m⟩
  | some (px, py, count) =>
      -- assert(i >= 0 && i < _region->count);
      if ¬ (i ≥ 0 ∧ i < count) then Except.error ⟨m⟩ else
      match load_floats m px with
      | none => Except.error ⟨m⟩
      | some xs =>
          let m := store m px (Block.floats (xs.set i.toNat x))
          match load_floats m py with
          | none => Except.error ⟨m⟩
          | some ys => Except.ok (store m py (Block.floats (ys.set i.toNat y)))

/-- `VOTRegion::get_x (i)`. -/
def VOTRegion.get_x (p : Nat) (i : Int) (m : Memory) : Except (Fault Memory) float :=
  match load_region m p with
  | none => Except.error ⟨m⟩
  | some (px, _, count) =>
      if ¬ (i ≥ 0 ∧ i < count) then Except.error ⟨m⟩ else
      match load_floats m px with
      | none => Except.error ⟨m⟩
      | some xs => Except.ok (xs.getD i.toNat 0)

/-- `VOTRegion::get_y (i)`. -/
def VOTRegion.get_y (p : Nat) (i : Int) (m : Memory) : Except (Fault Memory) float :=
  match load_region m p with
  | none => Except.error ⟨m⟩
  | some (_, py, count) =>
      if ¬ (i ≥ 0 ∧ i < count) then Except.error ⟨m⟩ else
      match load_floats m py with
      | none => Except.error ⟨m⟩
      | some ys => Except.ok (ys.getD i.toNat 0)

/-- The loop of the copy assignment, from index `i` with `n` rounds to go. -/
def assign_points (source p : Nat) : Nat → Nat → Memory → Except (Fault Memory) Memory
  | 0, _, m => Except.ok m
  | n + 1, i, m =>
      match VOTRegion.get_x source i m, VOTRegion.get_y source i m with
      | Except.ok x, Except.ok y =>
          match VOTRegion.set p i x y m with
          | Except.ok m => assign_points source p n (i + 1) m
          | Except.error f => Except.error f
      | _, _ => Except.error ⟨m⟩

/-- `VOTRegion::operator= (const VOTRegion&)` on the wrapper whose `_region`
is `p`, from the wrapper whose `_region` is `source`; the result is the
`_region` of the target afterwards. Two wrappers own different regions, so
`this == &source` is `p = source`. -/
def VOTRegion.assign (p source : Nat) (m : Memory) : Except (Fault Memory) (Nat × Memory) :=
  if p = source then Except.ok (p, m) else
  match load_region m p, load_region m source with
  | some (_, _, count), some (_, _, source_count) =>
      let realloc : Except (Fault Memory) (Nat × Memory) :=
        if count ≠ source_count then
          match vot_region_release p m with
          | Except.ok m => Except.ok (vot_region_create source_count m)
          | Except.error f => Except.error f
        else Except.ok (p, m)
      match realloc with
      | Except.error f => Except.error f
      | Except.ok (p, m) =>
          match assign_points source p source_count 0 m with
          | Except.ok m => Except.ok (p, m)
          | Except.error f => Except.error f
  | _, _ => Except.error ⟨m⟩

/-- `VOTRegion::set (const cv::Rect&)` on the wrapper whose `_region` is `p`;
the result is its `_region` afterwards. -/
def VOTRegion.set_rect (p : Nat) (rectangle : Rect) (m : Memory) :
    Except (Fault Memory) (Nat × Memory) :=
  match load_region m p with
  | none => Except.error ⟨m⟩
  | some (_, _, count) =>
      let realloc : Except (Fault Memory) (Nat × Memory) :=
        if count ≠ 4 then
          match vot_region_release p m with
          | Except.ok m => Except.ok (vot_region_create 4 m)
          | Except.error f => Except.error f
        else Except.ok (p, m)
      match realloc with
      | Except.error f => Except.error f
      | Except.ok (p, m) => do
          let m ← VOTRegion.set p 0 (int_to_float rectangle.x) (int_to_float rectangle.y) m
          let m ← VOTRegion.set p 1 (int_to_float (int_add rectangle.x rectangle.width))
            (int_to_float rectangle.y) m
          let m ← VOTRegion.set p 2 (int_to_float (int_add rectangle.x rectangle.width))
            (int_to_float (int_add rectangle.y rectangle.height)) m
          let m ← VOTRegion.set p 3 (int_to_float rectangle.x)
            (int_to_float (int_add rectangle.y rectangle.height)) m
          Except.ok (p, m)

/-- The region a pointer stands for: the struct at `p` names the arrays at
`px` and `py`, which hold the coordinates of `v`; the three blocks were handed
out by `malloc`, and the arrays are two blocks. -/
structure Rep (m : Memory) (p px py : Nat) (v : Polygon.vot_region) : Prop where
  region : m.cells p = some (Block.region px py v.count)
  xs : m.cells px = some (Block.floats v.x)
  ys : m.cells py = some (Block.floats v.y)
  distinct : px ≠ py
  allocated : p < m.next ∧ px < m.next ∧ py < m.next

/-- The region read through a pointer, when the pointer is valid. -/
def view (m : Memory) (p : Nat) : Option Polygon.vot_region :=
  match load_region m p with
  | none => none
  | some (px, py, count) =>
      match load_floats m px, load_floats m py with
      | some xs, some ys => some { x := xs, y := ys, count := count }
      | _, _ => none

/-- What a call leaves alone: every block that `malloc` had handed out before
the call and whose address is not in `touched` is the same after the call, and
no address is handed out twice. -/
def Frame (m m' : Memory) (touched : List Nat) : Prop :=
  (∀ q, q < m.next → q ∉ touched → m'.cells q = m.cells q) ∧ m.next ≤ m'.next

/-- The empty heap; address 0 is `NULL`. -/
def empty : Memory := { cells := fun _ => none, next := 1 }

/-- A heap that holds one region, the triangle `(-3,-1) (-1,-4) (-2,-2)`: the
struct at address 1, its arrays at 2 and 3. -/
def triangle : Memory :=
  { cells := fun q =>
      if q = 1 then some (Block.region 2 3 3)
      else if q = 2 then some (Block.floats [-3, -1, -2])
      else if q = 3 then some (Block.floats [-1, -4, -2])
      else none
    next := 4 }

/-- A run on the triangle: copy it, give the original the rectangle
`(1, 2, 3, 4)`, then set point 0 of the copy to `(7, 8)`. The result lists the
pointers of the copy and of the original, what both read as after the second
step, and what both read as after the third. -/
def copy_run : Except (Fault Memory)
    (Nat × Nat × Option Polygon.vot_region × Option Polygon.vot_region ×
      Option Polygon.vot_region × Option Polygon.vot_region) :=
  match vot_region_copy 1 triangle with
  | Except.error f => Except.error f
  | Except.ok (b, m1) =>
      match VOTRegion.set_rect 1 ⟨1, 2, 3, 4⟩ m1 with
      | Except.error f => Except.error f
      | Except.ok (a, m2) =>
          match VOTRegion.set b 0 7 8 m2 with
          | Except.error f => Except.error f
          | Except.ok m3 => Except.ok (b, a, view m2 a, view m2 b, view m3 a, view m3 b)

end Heap

/-! ## Runner (`VOTManager<T>`, multi-object build) -/

section Runner

variable {W R T : Type}

/-- The tracker class `T` handed to `VOTManager<T>`: its constructor
`T (image, region)` and the virtual `update (image)`, which may change the
tracker and returns a region. -/
structure TrackerClass (R T : Type) where
  create : VOTImage → R → T
  update : T → VOTImage → R × T

/-- Ghost record of a call made by `VOTManager::run`, with the value of
`_vot->end ()` at the time of the call. -/
inductive Call (R : Type)
  | update (i : Nat) (image : VOTImage) (session_ended : Bool)
  | report (state : List R) (session_ended : Bool)
deriving DecidableEq, Repr

/-- Whether the call is a call of `VOT::report`. -/
def Call.is_report {R : Type} : Call R → Bool
  | Call.report _ _ => true
  | Call.update _ _ _ => false

/-- The `VOT::report` calls among `calls`. -/
def reports {R : Type} (calls : List (Call R)) : List (Call R) :=
  calls.filter Call.is_report

/-- Members of `VOTManager<T>`, with the ghost list of calls made so far
(oldest first). -/
structure VOTManager (W R T : Type) where
  _vot : VOT W R
  _trackers : List T
  calls : List (Call R)

/-- The loop `for (i = 0; i < _trackers.size (); i++)
state.push_back (_trackers[i]->update (image))`, from index `i` on: the
regions pushed, the trackers after their update, and the calls made. -/
def update_trackers (C : TrackerClass R T) (image : VOTImage) (ended : Bool) :
    List T → Nat → List R × List T × List (Call R)
  | [], _ => ([], [], [])
  | t :: rest, i =>
      let r := C.update t image
      let tail := update_trackers C image ended rest (i + 1)
      (r.1 :: tail.1, r.2 :: tail.2.1, Call.update i image ended :: tail.2.2)

/-- `VOTManager::VOTManager ()`: `_vot = new VOT ()`. -/
def VOTManager.new (M : RegionMode W R) (s : VOT W R) :
    Except (Fault (VOT W R)) (VOTManager W R T) :=
  match VOT.new M s with
  | Except.ok v => Except.ok { _vot := v, _trackers := [], calls := [] }
  | Except.error f => Except.error f

/-- One iteration of the body of the `while` loop of `VOTManager::run`:
`image ()`, the update of every tracker, `report (state)`. -/
def run_cycle (M : RegionMode W R) (C : TrackerClass R T) (m : VOTManager W R T) :
    Except (Fault (VOTManager W R T)) (VOTManager W R T) :=
  match VOT.image m._vot with
  | Except.error f => Except.error ⟨{ m with _vot := f.state }⟩
  | Except.ok (image, v) =>
      let updated := update_trackers C image (VOT.end v) m._trackers 0
      let state := updated.1
      let m := { m with
        _vot := v
        _trackers := updated.2.1
        calls := m.calls ++ updated.2.2 ++ [Call.report state (VOT.end v)] }
      match VOT.report M state v with
      | Except.error f => Except.error ⟨{ m with _vot := f.state }⟩
      | Except.ok (_, v) => Except.ok { m with _vot := v }

/-- The `while (!_vot->end ())` loop of `VOTManager::run`, at most `fuel`
iterations; `none` when the fuel does not suffice. -/
def run_loop (M : RegionMode W R) (C : TrackerClass R T) :
    Nat → VOTManager W R T → Option (Except (Fault (VOTManager W R T)) (VOTManager W R T))
  | 0, _ => none
  | fuel + 1, m =>
      if VOT.end m._vot then some (Except.ok m) else
      match run_cycle M C m with
      | Except.error f => some (Except.error f)
      | Except.ok m => run_loop M C fuel m

/-- Bound on the cycles the loop can still complete: the messages the harness
has yet to send, and one more while the position is 0. -/
def cycles_left (m : VOTManager W R T) : Nat :=
  m._vot.wire.pending.length + (if m._vot._vot_sequence_position = 0 then 1 else 0)

/-- The statements of `VOTManager::run` before its loop: the initial objects,
the initial image, one tracker per object. -/
def run_setup (M : RegionMode W R) (C : TrackerClass R T) (m : VOTManager W R T) :
    Except (Fault (VOTManager W R T)) (VOTManager W R T) :=
  let objects := VOT.objects M m._vot
  match VOT.image m._vot with
  | Except.error f => Except.error ⟨{ m with _vot := f.state }⟩
  | Except.ok (image, v) =>
      Except.ok { m with _vot := v, _trackers := m._trackers ++ objects.map (C.create image) }

/-- `VOTManager::run ()`. Every iteration of the loop that neither aborts
nor ends the loop takes a message from the harness (or moves the position
off 0), so `pending.length + 2` iterations suffice. The trackers deleted
at the end stay listed in `_trackers`. -/
def VOTManager.run (M : RegionMode W R) (C : TrackerClass R T) (m : VOTManager W R T) :
    Option (Except (Fault (VOTManager W R T)) (VOTManager W R T)) :=
  match run_setup M C m with
  | Except.error f => some (Except.error f)
  | Except.ok m => run_loop M C (m._vot.wire.pending.length + 2) m

/-- The calls of one loop cycle in which the trackers `trackers` see `image`:
`update` on tracker 0, 1, ... in index order, then one `report` with the
regions the updates returned, in the same order. -/
def cycle_calls (C : TrackerClass R T) (image : VOTImage) (ended : Bool) (trackers : List T) :
    List (Call R) :=
  (List.range trackers.length).map (fun i => Call.update i image ended) ++
    [Call.report (trackers.map (fun t => (C.update t image).1)) ended]

/-- The calls expected of the loop on the messages `Frame × k, End`: one cycle
per frame on the running session, each on the trackers as the cycle before
left them, then the cycle that receives `End`, on the empty image and the
ended session. -/
def script_calls (C : TrackerClass R T) : List T → List trax_image_list → List (Call R)
  | trackers, [] => cycle_calls C ⟨""⟩ true trackers
  | trackers, f :: rest =>
      cycle_calls C ⟨f.color⟩ false trackers ++
        script_calls C (trackers.map (fun t => (C.update t ⟨f.color⟩).2)) rest

/-- `VOTManager::~VOTManager ()`: `delete _vot`, whose destructor is
`vot_quit`. -/
def VOTManager.delete (m : VOTManager W R T) : VOTManager W R T :=
  { m with _vot := vot_quit m._vot }

/-- The program `main` of `opencv.cpp`: `VOTManager<Tracker> vot; vot.run ();`
and the destructor at the end of the block, on a process whose session memory
is `s`. -/
def main (M : RegionMode W R) (C : TrackerClass R T) (s : VOT W R) :
    Option (Except (Fault (VOTManager W R T)) (VOTManager W R T)) :=
  match (VOTManager.new M s : Except _ (VOTManager W R T)) with
  | Except.error f => some (Except.error ⟨{ _vot := f.state, _trackers := [], calls := [] }⟩)
  | Except.ok m =>
      match VOTManager.run M C m with
      | none => none
      | some (Except.error f) => some (Except.error f)
      | some (Except.ok m) => some (Except.ok (VOTManager.delete m))

end Runner

/-! ## Scenarios -/

/-- A session memory before `vot_initialize`, on a harness that will send
`script`. -/
def fresh {W R : Type} (script : List (Message W)) : VOT W R :=
  { _vot_sequence_position := 0
    _vot_sequence_size := 0
    _trax_handle := none
    _image := ⟨""⟩
    _objects := List.replicate VOT_MAX_OBJECTS none
    overrun := []
    wire := { pending := script, sent := [], waits := 0, cleanups := 0 } }

/-- The initial object of the single-object scenario: the rectangle
`{x:10, y:10, w:20, h:20}`, without properties. -/
def box_object : trax_object Box.trax_region :=
  { region := { x := 10, y := 10, width := 20, height := 20 }, properties := [] }

/-- The session of the rectangle scenario after the handshake and the first
`vot_frame`, with `pending` still to come from the harness. -/
def running_box (pending : List (Message Box.trax_region)) :
    VOT Box.trax_region Box.vot_region :=
  { _vot_sequence_position := 1
    _vot_sequence_size := 0
    _trax_handle := some trax_handle.server
    _image := ⟨"f1.png"⟩
    _objects := (List.replicate VOT_MAX_OBJECTS none).set 0
      (some { x := 10, y := 10, width := 20, height := 20 })
    overrun := []
    wire := { pending := pending, sent := [[box_object]], waits := 1, cleanups := 0 } }

/-- A polygon with coordinates of both signs: the triangle
`(-3,-1) (1,4) (2,2)`. -/
def mixed_triangle : Polygon.vot_region := ⟨[-3, 1, 2], [-1, 4, 2], 3⟩

/-- The harness script `Initialize, Frame × k, End`. -/
def script {W : Type} (image0 : trax_image_list) (objects : trax_object_list W)
    (frames : List trax_image_list) : List (Message W) :=
  Message.init image0 objects :: (frames.map (fun f => Message.frame f []) ++ [Message.quit])


/-- A tracker of the rectangle build that is the rectangle it was made from
and returns, on every update, that rectangle moved right by one. -/
def moving_tracker : TrackerClass Box.vot_region Box.vot_region :=
  { create := fun _ r => r
    update := fun t _ => ({ t with x := t.x + 1 }, t) }

/-- Three wire rectangles `A`, `B`, `C`, without properties. -/
def three_boxes : trax_object_list Box.trax_region :=
  [⟨⟨1, 0, 5, 5⟩, []⟩, ⟨⟨2, 0, 5, 5⟩, []⟩, ⟨⟨3, 0, 5, 5⟩, []⟩]

/-- A wire polygon, the triangle `(-3,-1) (-1,-4) (-2,-2)`, without
properties. -/
def wire_triangle : trax_object Polygon.trax_region :=
  ⟨⟨3, [-3, -1, -2], [-1, -4, -2]⟩, []⟩

/-- A wire mask of 2 columns and 2 rows at offset `(0, 0)`, without
properties. -/
def wire_mask : trax_object Mask.trax_region :=
  ⟨⟨0, 0, 2, 2, [1, 0, 1, 1]⟩, []⟩

/-- A session memory before the handshake, on a harness that sends
`Initialize` with 100 rectangles. -/
def boxes_session : VOT Box.trax_region Box.vot_region :=
  fresh [Message.init ⟨"f1.png"⟩ (List.replicate 100 box_object)]

/-- A session memory before the handshake, on a harness that sends
`Initialize` with the triangle. -/
def triangle_session : VOT Polygon.trax_region Polygon.vot_region :=
  fresh [Message.init ⟨"f1.png"⟩ [wire_triangle]]

/-- A session memory before the handshake, on a harness that sends
`Initialize` with the mask. -/
def mask_session : VOT Mask.trax_region Mask.vot_region :=
  fresh [Message.init ⟨"f1.png"⟩ [wire_mask]]

/-! # Properties -/

/-! ## Shared lemmas on the session -/

section SessionLemmas

variable {W R : Type}

theorem store_object_handle (s : VOT W R) (j : Nat) (r : R) :
    (store_object s j r)._trax_handle = s._trax_handle := by
  unfold store_object; split <;> rfl

theorem store_object_wire (s : VOT W R) (j : Nat) (r : R) :
    (store_object s j r).wire = s.wire := by
  unfold store_object; split <;> rfl

theorem store_object_position (s : VOT W R) (j : Nat) (r : R) :
    (store_object s j r)._vot_sequence_position = s._vot_sequence_position := by
  unfold store_object; split <;> rfl

theorem store_object_image (s : VOT W R) (j : Nat) (r : R) :
    (store_object s j r)._image = s._image := by
  unfold store_object; split <;> rfl

theorem store_object_length (s : VOT W R) (j : Nat) (r : R) :
    (store_object s j r)._objects.length = s._objects.length := by
  unfold store_object; split <;> simp

theorem store_objects_handle (M : RegionMode W R) (objects : List (trax_object W)) :
    ∀ (j : Nat) (s : VOT W R), (store_objects M objects j s)._trax_handle = s._trax_handle := by
  induction objects with
  | nil => intro j s; rfl
  | cons o rest ih => intro j s; simp [store_objects, ih, store_object_handle]

theorem store_objects_wire (M : RegionMode W R) (objects : List (trax_object W)) :
    ∀ (j : Nat) (s : VOT W R), (store_objects M objects j s).wire = s.wire := by
  induction objects with
  | nil => intro j s; rfl
  | cons o rest ih => intro j s; simp [store_objects, ih, store_object_wire]

theorem store_objects_position (M : RegionMode W R) (objects : List (trax_object W)) :
    ∀ (j : Nat) (s : VOT W R),
      (store_objects M objects j s)._vot_sequence_position = s._vot_sequence_position := by
  induction objects with
  | nil => intro j s; rfl
  | cons o rest ih => intro j s; simp [store_objects, ih, store_object_position]

theorem store_objects_image (M : RegionMode W R) (objects : List (trax_object W)) :
    ∀ (j : Nat) (s : VOT W R), (store_objects M objects j s)._image = s._image := by
  induction objects with
  | nil => intro j s; rfl
  | cons o rest ih => intro j s; simp [store_objects, ih, store_object_image]

theorem store_objects_length (M : RegionMode W R) (objects : List (trax_object W)) :
    ∀ (j : Nat) (s : VOT W R),
      (store_objects M objects j s)._objects.length = s._objects.length := by
  induction objects with
  | nil => intro j s; rfl
  | cons o rest ih => intro j s; simp [store_objects, ih, store_object_length]

/-- Stores past the array are never undone by later stores. -/
theorem store_objects_overrun_mono (M : RegionMode W R) (objects : List (trax_object W)) :
    ∀ (j : Nat) (s : VOT W R) (p : Nat × R),
      p ∈ s.overrun → p ∈ (store_objects M objects j s).overrun := by
  induction objects with
  | nil => intro j s p hp; exact hp
  | cons o rest ih =>
      intro j s p hp
      simp only [store_objects]
      apply ih
      unfold store_object
      split
      · exact hp
      · simp [hp]

/-- The object at list position `i` is stored at index `j + i`; when that
index is outside the array the store is an overrun. -/
theorem store_objects_overrun (M : RegionMode W R) (objects : List (trax_object W)) :
    ∀ (j : Nat) (s : VOT W R) (i : Nat) (o : trax_object W),
      objects.get? i = some o → VOT_MAX_OBJECTS ≤ j + i →
      (j + i, M._trax_to_region o.region) ∈ (store_objects M objects j s).overrun := by
  induction objects with
  | nil => intro j s i o h; simp at h
  | cons a rest ih =>
      intro j s i o h hj
      cases i with
      | zero =>
          simp at h
          subst h
          simp only [store_objects]
          apply store_objects_overrun_mono
          have : ¬ j < VOT_MAX_OBJECTS := by omega
          simp [store_object, this]
      | succ i =>
          simp at h
          simp only [store_objects]
          have := ih (j + 1) (store_object s j (M._trax_to_region a.region)) i o (by simpa using h)
            (by omega)
          have e : j + (i + 1) = j + 1 + i := by omega
          rw [e]
          exact this

/-- What `vot_initialize` does on an `Initialize` message. -/
theorem vot_initialize_init (M : RegionMode W R) (s : VOT W R) (image : trax_image_list)
    (objects : trax_object_list W) (rest : List (Message W))
    (h0 : s._trax_handle = none) (hp : s.wire.pending = Message.init image objects :: rest) :
    vot_initialize M s =
      Except.ok
        ((store_objects M objects 0
            { s with
              _vot_sequence_position := 0
              _vot_sequence_size := 0
              _trax_handle := some trax_handle.server
              _image := ⟨image.color⟩
              _objects := List.replicate VOT_MAX_OBJECTS none
              wire :=
                { s.wire with
                  pending := rest
                  waits := s.wire.waits + 1
                  sent := s.wire.sent ++ [objects] } })._objects,
          store_objects M objects 0
            { s with
              _vot_sequence_position := 0
              _vot_sequence_size := 0
              _trax_handle := some trax_handle.server
              _image := ⟨image.color⟩
              _objects := List.replicate VOT_MAX_OBJECTS none
              wire :=
                { s.wire with
                  pending := rest
                  waits := s.wire.waits + 1
                  sent := s.wire.sent ++ [objects] } }) := by
  simp [ vot_initialize, h0, trax_server_wait, hp, trax_server_reply]

theorem VOT.end_of_ended (s : VOT W R) (h : s._trax_handle = none) : VOT.end s = true := by
  simp [VOT.end, vot_end, h]

theorem VOT.end_of_running (s : VOT W R) (h : s._trax_handle ≠ none) : VOT.end s = false := by
  simp [VOT.end, vot_end, h]

theorem vot_quit_handle (s : VOT W R) : (vot_quit s)._trax_handle = none := by
  unfold vot_quit
  split
  · rfl
  · assumption

/-- `vot_frame` on an ended session: the assertion fails at once. -/
theorem vot_frame_ended (s : VOT W R) (h : s._trax_handle = none) :
    vot_frame s = Except.error ⟨s⟩ := by
  simp [vot_frame, h]

/-- `vot_frame` at position 0: the cached image, no transport access. -/
theorem vot_frame_first (s : VOT W R) (h1 : s._trax_handle ≠ none)
    (h2 : s._vot_sequence_position = 0) :
    vot_frame s = Except.ok (some s._image, { s with _vot_sequence_position := 1 }) := by
  simp [vot_frame, h1, h2]

/-- `vot_frame` on a new-frame message without objects. -/
theorem vot_frame_frame (s : VOT W R) (f : trax_image_list) (rest : List (Message W))
    (h1 : s._trax_handle ≠ none) (h2 : s._vot_sequence_position ≠ 0)
    (h3 : s.wire.pending = Message.frame f [] :: rest) :
    vot_frame s = Except.ok (some ⟨f.color⟩,
      { s with
        _image := ⟨f.color⟩
        wire := { s.wire with pending := rest, waits := s.wire.waits + 1 } }) := by
  simp [vot_frame, h1, h2, trax_server_wait, h3, trax_object_list_count]

/-- `vot_frame` on a message that is no new-frame message and carries no
object: `vot_quit`, then `NULL`. -/
theorem vot_frame_stop (s : VOT W R) (m : Message W) (rest : List (Message W))
    (h1 : s._trax_handle ≠ none) (h2 : s._vot_sequence_position ≠ 0)
    (h3 : s.wire.pending = m :: rest) (hf : m.is_frame = false) (ho : m.objects = []) :
    vot_frame s = Except.ok (none,
      vot_quit { s with wire := { s.wire with pending := rest, waits := s.wire.waits + 1 } }) := by
  cases m with
  | init image objects =>
      simp [Message.objects] at ho
      simp [vot_frame, h1, h2, trax_server_wait, h3, trax_object_list_count, ho]
  | frame image objects => simp [Message.is_frame] at hf
  | quit => simp [vot_frame, h1, h2, trax_server_wait, h3, trax_object_list_count]
  | error => simp [vot_frame, h1, h2, trax_server_wait, h3, trax_object_list_count]

/-- `vot_frame` when the harness has closed the connection. -/
theorem vot_frame_closed (s : VOT W R)
    (h1 : s._trax_handle ≠ none) (h2 : s._vot_sequence_position ≠ 0)
    (h3 : s.wire.pending = []) :
    vot_frame s = Except.ok (none,
      vot_quit { s with wire := { s.wire with waits := s.wire.waits + 1 } }) := by
  simp [vot_frame, h1, h2, trax_server_wait, h3, trax_object_list_count]

/-- `vot_frame` on a message that carries an object: the assertion on
`_trax_objects` fails right after the wait. -/
theorem vot_frame_objects (s : VOT W R) (m : Message W) (rest : List (Message W))
    (h1 : s._trax_handle ≠ none) (h2 : s._vot_sequence_position ≠ 0)
    (h3 : s.wire.pending = m :: rest) (ho : m.objects ≠ []) :
    vot_frame s = Except.error
      ⟨{ s with wire := { s.wire with pending := rest, waits := s.wire.waits + 1 } }⟩ := by
  cases m with
  | init image objects =>
      simp [Message.objects] at ho
      simp [vot_frame, h1, h2, trax_server_wait, h3, trax_object_list_count, ho]
  | frame image objects =>
      simp [Message.objects] at ho
      simp [vot_frame, h1, h2, trax_server_wait, h3, trax_object_list_count, ho]
  | quit => simp [Message.objects] at ho
  | error => simp [Message.objects] at ho

/-- The `NULL`-terminated array that `VOT::report` builds lists the first
`VOT_MAX_OBJECTS` regions of the vector. -/
theorem leading_objects_terminated (objects : List R) :
    leading_objects (objects.map some ++ [none]) = objects.take VOT_MAX_OBJECTS := by
  unfold leading_objects
  generalize VOT_MAX_OBJECTS = n
  induction objects generalizing n with
  | nil => cases n <;> simp [List.takeWhile]
  | cons a rest ih =>
      cases n with
      | zero => simp
      | succ n => simp [List.takeWhile, ih]

/-- `VOT::report` on a running session: one reply, made of the encodings of
the first `VOT_MAX_OBJECTS` regions. -/
theorem VOT.report_running (M : RegionMode W R) (objects : List R) (s : VOT W R)
    (h : s._trax_handle ≠ none) :
    VOT.report M objects s = Except.ok ((),
      { s with
        wire := { s.wire with
          sent := s.wire.sent ++
            [(objects.take VOT_MAX_OBJECTS).map (fun r => ⟨M._region_to_trax r, []⟩)] } }) := by
  simp [VOT.report, vot_report, h, leading_objects_terminated, trax_server_reply]

/-- `VOT::report` on an ended session: the assertion fails at once. -/
theorem VOT.report_ended (M : RegionMode W R) (objects : List R) (s : VOT W R)
    (h : s._trax_handle = none) :
    VOT.report M objects s = Except.error ⟨s⟩ := by
  simp [VOT.report, vot_report, h]

/-- After `vot_initialize` on an `Initialize` message: handle held, position
0, image cached, the objects echoed to the harness. -/
theorem vot_initialize_running (M : RegionMode W R) (s : VOT W R) (image : trax_image_list)
    (objects : trax_object_list W) (rest : List (Message W))
    (h0 : s._trax_handle = none) (hp : s.wire.pending = Message.init image objects :: rest) :
    ∃ s1 : VOT W R, vot_initialize M s = Except.ok (s1._objects, s1) ∧
      s1._trax_handle = some trax_handle.server ∧
      s1._vot_sequence_position = 0 ∧
      s1._image = ⟨image.color⟩ ∧
      s1.wire = { s.wire with
        pending := rest
        waits := s.wire.waits + 1
        sent := s.wire.sent ++ [objects] } ∧
      s1._objects.length = VOT_MAX_OBJECTS := by
  refine ⟨_, vot_initialize_init M s image objects rest h0 hp, ?_, ?_, ?_, ?_, ?_⟩
  · rw [store_objects_handle]
  · rw [store_objects_position]
  · rw [store_objects_image]
  · rw [store_objects_wire]
  · rw [store_objects_length]; simp

theorem release_objects_length : ∀ (n i : Nat) (objects : List (Option R)),
    (release_objects n i objects).length = objects.length := by
  intro n
  induction n with
  | zero => intro i objects; rfl
  | succ n ih =>
      intro i objects
      simp only [release_objects]
      split
      · rw [ih]; simp
      · rw [ih]

/-- The loop of `vot_quit` leaves `NULL` in the slots `i .. i + n - 1` and
does not touch the others. -/
theorem release_objects_getElem? : ∀ (n i : Nat) (objects : List (Option R)) (k : Nat),
    (release_objects n i objects)[k]? =
      if i ≤ k ∧ k < i + n then objects[k]?.map (fun _ => none) else objects[k]? := by
  intro n
  induction n with
  | zero =>
      intro i objects k
      have h0 : ¬ (i ≤ k ∧ k < i + 0) := by omega
      simp only [release_objects, h0, if_false]
  | succ n ih =>
      intro i objects k
      simp only [release_objects]
      split
      · rename_i r hr
        rw [ih, List.getElem?_set]
        by_cases hk : i = k
        · subst hk
          have hlt : i < objects.length := by
            by_contra hge
            rw [List.getD_eq_getElem?_getD, List.getElem?_eq_none (by omega)] at hr
            simp at hr
          have hi : objects[i]? = some objects[i] := List.getElem?_eq_getElem hlt
          simp [hlt, hi]
        · have h1 : (i + 1 ≤ k ∧ k < i + 1 + n) ↔ (i ≤ k ∧ k < i + (n + 1)) := by omega
          simp only [hk, if_false, h1]
      · rename_i hr
        rw [ih]
        by_cases hk : i = k
        · subst hk
          have h0 : ¬ (i + 1 ≤ i ∧ i < i + 1 + n) := by omega
          have h1 : (i ≤ i ∧ i < i + (n + 1)) := by omega
          simp only [h0, h1, if_false, if_true]
          rw [List.getD_eq_getElem?_getD] at hr
          cases ho : objects[i]? with
          | none => rfl
          | some v =>
              rw [ho] at hr
              simp at hr
              simp [hr]
        · have h1 : (i + 1 ≤ k ∧ k < i + 1 + n) ↔ (i ≤ k ∧ k < i + (n + 1)) := by omega
          simp only [h1]

/-- After `vot_quit` on a running session every slot of the array is
`NULL`. -/
theorem release_objects_all (objects : List (Option R))
    (h : objects.length = VOT_MAX_OBJECTS) :
    release_objects VOT_MAX_OBJECTS 0 objects = List.replicate VOT_MAX_OBJECTS none := by
  apply List.ext_getElem?
  intro k
  rw [release_objects_getElem?, List.getElem?_replicate]
  by_cases hk : k < VOT_MAX_OBJECTS
  · have hi : objects[k]? = some objects[k] := List.getElem?_eq_getElem (by omega)
    simp [hk, hi]
  · have hn : objects[k]? = none := List.getElem?_eq_none (by omega)
    simp [hk, hn]

/-- `vot_quit` on a running session. -/
theorem vot_quit_running (s : VOT W R) (h : s._trax_handle ≠ none)
    (hlen : s._objects.length = VOT_MAX_OBJECTS) :
    vot_quit s =
      { s with
        _trax_handle := none
        wire := { s.wire with cleanups := s.wire.cleanups + 1 }
        _objects := List.replicate VOT_MAX_OBJECTS none } := by
  unfold vot_quit
  cases hh : s._trax_handle with
  | none => exact absurd hh h
  | some t => simp [release_objects_all _ hlen]

/-- `vot_quit` on an ended session changes nothing. -/
theorem vot_quit_ended (s : VOT W R) (h : s._trax_handle = none) : vot_quit s = s := by
  unfold vot_quit
  simp [h]

/-- Consecutive frame requests on new-frame messages: each returns, and the
position stays where it was. -/
theorem vot_frames_frames : ∀ (n : Nat) (frames : List trax_image_list) (s : VOT W R)
    (rest : List (Message W)),
    s._trax_handle ≠ none → s._vot_sequence_position ≠ 0 →
    s.wire.pending = frames.map (fun f => Message.frame f []) ++ rest →
    n ≤ frames.length →
    ∃ s', vot_frames n s = Except.ok s' ∧
      s'._vot_sequence_position = s._vot_sequence_position ∧
      s'._trax_handle = s._trax_handle := by
  intro n
  induction n with
  | zero => intro frames s rest _ _ _ _; exact ⟨s, rfl, rfl, rfl⟩
  | succ n ih =>
      intro frames s rest h1 h2 h3 hn
      cases frames with
      | nil => simp at hn
      | cons f fs =>
          simp only [List.map_cons, List.cons_append] at h3
          obtain ⟨s', e1, e2, e3⟩ := ih fs
            { s with
              _image := ⟨f.color⟩
              wire := { s.wire with pending := fs.map (fun f => Message.frame f []) ++ rest
                                    waits := s.wire.waits + 1 } }
            rest h1 h2 rfl (by simpa using hn)
          refine ⟨s', ?_, e2, e3⟩
          simp only [vot_frames, vot_frame_frame s f _ h1 h2 h3]
          exact e1

/-- A frame request that returns never lowers the position: it moves it from
0 to 1 and otherwise leaves it. -/
theorem vot_frame_position (s s' : VOT W R) (r : Option vot_image)
    (h : vot_frame s = Except.ok (r, s')) :
    s'._vot_sequence_position = if s._vot_sequence_position = 0 then 1
      else s._vot_sequence_position := by
  unfold vot_frame at h
  by_cases h1 : s._trax_handle = none
  · simp [h1] at h
  · by_cases h2 : s._vot_sequence_position = 0
    · simp [h1, h2] at h
      rw [← h.2]
      simp [h2]
    · simp only [h1, h2, if_false] at h
      simp only [h2, if_false]
      split at h
      · cases h
      · split at h
        · cases h; rfl
        · cases h; rfl
        · cases h
          simp only [vot_quit]
          split <;> rfl

/-- Slot `k` of the array after the storing loop of `vot_initialize`. -/
theorem store_objects_getElem? (M : RegionMode W R) (objects : List (trax_object W)) :
    ∀ (j : Nat) (s : VOT W R) (k : Nat), s._objects.length = VOT_MAX_OBJECTS →
      (store_objects M objects j s)._objects[k]? =
        if j ≤ k ∧ k < j + objects.length ∧ k < VOT_MAX_OBJECTS then
          objects[k - j]?.map (fun o => some (M._trax_to_region o.region))
        else s._objects[k]? := by
  induction objects with
  | nil =>
      intro j s k _
      have h0 : ¬ (j ≤ k ∧ k < j + ([] : List (trax_object W)).length ∧ k < VOT_MAX_OBJECTS) := by
        simp only [List.length_nil]; omega
      simp only [store_objects, h0, if_false]
  | cons o rest ih =>
      intro j s k hlen
      simp only [store_objects]
      rw [ih (j + 1) _ k (by rw [store_object_length]; exact hlen)]
      by_cases hk : k = j
      · subst hk
        have h0 : ¬ (k + 1 ≤ k ∧ k < k + 1 + rest.length ∧ k < VOT_MAX_OBJECTS) := by omega
        simp only [h0, if_false, store_object]
        by_cases hj : k < VOT_MAX_OBJECTS
        · have h1 : k ≤ k ∧ k < k + (o :: rest).length ∧ k < VOT_MAX_OBJECTS := by
            simp only [List.length_cons]; omega
          simp only [hj, h1, if_true, Nat.sub_self, List.getElem?_cons_zero, Option.map_some']
          rw [List.getElem?_set]
          simp [hlen, hj]
        · have h1 : ¬ (k ≤ k ∧ k < k + (o :: rest).length ∧ k < VOT_MAX_OBJECTS) := by omega
          rw [if_neg h1]
          simp only [hj, if_false]
      · by_cases hc : j + 1 ≤ k ∧ k < j + 1 + rest.length ∧ k < VOT_MAX_OBJECTS
        · have h1 : j ≤ k ∧ k < j + (o :: rest).length ∧ k < VOT_MAX_OBJECTS := by
            simp only [List.length_cons]; omega
          have e : k - j = (k - (j + 1)) + 1 := by omega
          simp only [hc, h1, and_self, if_true]
          rw [e, List.getElem?_cons_succ]
        · have h1 : ¬ (j ≤ k ∧ k < j + (o :: rest).length ∧ k < VOT_MAX_OBJECTS) := by
            simp only [List.length_cons]; omega
          simp only [hc, h1, if_false, store_object]
          split
          · rw [List.getElem?_set]
            have : ¬ j = k := fun h => hk h.symm
            simp only [this, if_false]
          · rfl

/-- The array after `vot_initialize`: the decoded objects (the first
`VOT_MAX_OBJECTS` of them) in the order of the harness, then `NULL` slots. -/
theorem store_objects_zero (M : RegionMode W R) (objects : List (trax_object W))
    (s : VOT W R) (hs : s._objects = List.replicate VOT_MAX_OBJECTS none) :
    (store_objects M objects 0 s)._objects =
      ((objects.take VOT_MAX_OBJECTS).map (fun o => M._trax_to_region o.region)).map some ++
        List.replicate (VOT_MAX_OBJECTS - objects.length) none := by
  apply List.ext_getElem?
  intro k
  rw [store_objects_getElem? M objects 0 s k (by rw [hs]; simp), hs]
  by_cases hk : k < VOT_MAX_OBJECTS
  · by_cases hl : k < objects.length
    · have h1 : 0 ≤ k ∧ k < 0 + objects.length ∧ k < VOT_MAX_OBJECTS := by omega
      simp only [h1, and_self, if_true, Nat.sub_zero]
      rw [List.getElem?_append_left (by simp; omega)]
      simp only [List.getElem?_map, List.getElem?_take, hk, if_true, Option.map_map]
      rfl
    · have h1 : ¬ (0 ≤ k ∧ k < 0 + objects.length ∧ k < VOT_MAX_OBJECTS) := by omega
      simp only [h1, if_false]
      rw [List.getElem?_append_right (by simp; omega)]
      simp only [List.getElem?_replicate, List.length_map, List.length_take]
      have h2 : k - min VOT_MAX_OBJECTS objects.length < VOT_MAX_OBJECTS - objects.length := by
        omega
      simp [hk, h2]
  · have h1 : ¬ (0 ≤ k ∧ k < 0 + objects.length ∧ k < VOT_MAX_OBJECTS) := by omega
    simp only [h1, if_false]
    rw [List.getElem?_eq_none (by simp; omega), List.getElem?_eq_none (by simp; omega)]

/-- The leading regions of an array that holds `l` followed by `NULL`
slots. -/
theorem leading_objects_padded (l : List R) (k : Nat) :
    leading_objects (l.map some ++ List.replicate k none) = l.take VOT_MAX_OBJECTS := by
  unfold leading_objects
  generalize VOT_MAX_OBJECTS = n
  induction l generalizing n with
  | nil =>
      cases n with
      | zero => simp
      | succ n =>
          cases k with
          | zero => simp
          | succ k => simp [List.replicate_succ, List.takeWhile]
  | cons a rest ih =>
      cases n with
      | zero => simp
      | succ n => simp [List.takeWhile, ih]

/-- `VOT::objects ()` after the handshake: copies of the decoded objects of
the harness, in its order - the first `VOT_MAX_OBJECTS` of them. -/
theorem objects_after_init (M : RegionMode W R) (objects : List (trax_object W))
    (s : VOT W R) (hs : s._objects = List.replicate VOT_MAX_OBJECTS none) :
    VOT.objects M (store_objects M objects 0 s) =
      (objects.take VOT_MAX_OBJECTS).map
        (fun o => M.vot_region_copy (M._trax_to_region o.region)) := by
  unfold VOT.objects
  rw [store_objects_zero M objects s hs, leading_objects_padded]
  simp only [List.take_take, Nat.min_self, List.map_take, List.map_map]
  rfl

/-- Stores inside the array are no overrun. -/
theorem store_objects_inside (M : RegionMode W R) (objects : List (trax_object W)) :
    ∀ (j : Nat) (s : VOT W R), j + objects.length ≤ VOT_MAX_OBJECTS →
      (store_objects M objects j s).overrun = s.overrun := by
  induction objects with
  | nil => intro j s _; rfl
  | cons o rest ih =>
      intro j s h
      simp only [List.length_cons] at h
      simp only [store_objects]
      rw [ih (j + 1) _ (by omega)]
      have hj : j < VOT_MAX_OBJECTS := by omega
      simp [store_object, hj]

/-- `vot_initialize` aborts on its second assertion when the first message
is no `Initialize` (or the harness has closed the connection). -/
theorem vot_initialize_rejected (M : RegionMode W R) (s : VOT W R)
    (h0 : s._trax_handle = none)
    (hp : ¬ ∃ image objects rest, s.wire.pending = Message.init image objects :: rest) :
    ∃ f, vot_initialize M s = Except.error f := by
  cases hq : s.wire.pending with
  | nil => exact ⟨_, by simp [ vot_initialize, h0, trax_server_wait, hq]; rfl⟩
  | cons msg rest =>
      cases msg with
      | init image objects => exact absurd ⟨image, objects, rest, hq⟩ hp
      | frame image objects =>
          exact ⟨_, by simp [ vot_initialize, h0, trax_server_wait, hq]; rfl⟩
      | quit => exact ⟨_, by simp [ vot_initialize, h0, trax_server_wait, hq]; rfl⟩
      | error => exact ⟨_, by simp [ vot_initialize, h0, trax_server_wait, hq]; rfl⟩

/-- The regions released by the loop of `vot_quit` are the regions found in
the slots it visits. -/
theorem released_objects_eq : ∀ (n i : Nat) (objects : List (Option R)),
    released_objects n i objects = ((objects.drop i).take n).filterMap id := by
  intro n
  induction n with
  | zero => intro i objects; simp [released_objects]
  | succ n ih =>
      intro i objects
      simp only [released_objects]
      by_cases hi : i < objects.length
      · have hd : objects.drop i = objects[i] :: objects.drop (i + 1) :=
          List.drop_eq_getElem_cons hi
        have hg : objects.getD i none = objects[i] := by
          rw [List.getD_eq_getElem?_getD, List.getElem?_eq_getElem hi]; rfl
        rw [hg, hd]
        cases ho : objects[i] with
        | some region =>
            simp only [List.take_succ_cons, List.filterMap_cons, id]
            rw [ih, List.drop_set_of_lt _ _ (Nat.lt_succ_self i)]
        | none =>
            simp only [List.take_succ_cons, List.filterMap_cons, id]
            rw [ih]
      · have hg : objects.getD i none = none := by
          rw [List.getD_eq_getElem?_getD, List.getElem?_eq_none (by omega)]; rfl
        simp only [hg]
        rw [ih, List.drop_eq_nil_of_le (by omega), List.drop_eq_nil_of_le (by omega)]
        simp

/-- The state after a report: the state before, with one more reply sent. -/
theorem vot_report_running (M : RegionMode W R) (objects : List (Option R)) (s : VOT W R)
    (h : s._trax_handle ≠ none) :
    vot_report M objects s = Except.ok ((),
      { s with
        wire := { s.wire with
          sent := s.wire.sent ++
            [(leading_objects objects).map (fun r => ⟨M._region_to_trax r, []⟩)] } }) := by
  simp [vot_report, h, trax_server_reply]

/-- The single-object `vot_report` on a running session. -/
theorem vot_report_single_running (M : RegionMode W R) (region : R) (s : VOT W R)
    (h : s._trax_handle ≠ none) :
    vot_report_single M region s = Except.ok ((),
      { s with
        wire := { s.wire with
          sent := s.wire.sent ++ [[⟨M._region_to_trax region, []⟩]] } }) := by
  simp [vot_report_single, h, trax_server_reply]

/-- The call `vot_report2` on a running session. -/
theorem vot_report2_running (M : RegionMode W R) (region : R) (confidence : ℚ) (s : VOT W R)
    (h : s._trax_handle ≠ none) :
    vot_report2 M region confidence s = Except.ok ((),
      { s with
        wire := { s.wire with
          sent := s.wire.sent ++
            [[⟨M._region_to_trax region, [("confidence", confidence)]⟩]] } }) := by
  simp [vot_report2, h, trax_server_reply]

end SessionLemmas

/-! ## Shared lemmas on the runner -/

section RunnerLemmas

variable {W R T : Type}

theorem update_trackers_state (C : TrackerClass R T) (image : VOTImage) (e : Bool) :
    ∀ (ts : List T) (i : Nat),
      (update_trackers C image e ts i).1 = ts.map (fun t => (C.update t image).1) := by
  intro ts
  induction ts with
  | nil => intro i; rfl
  | cons t rest ih => intro i; simp [update_trackers, ih]

theorem update_trackers_trackers (C : TrackerClass R T) (image : VOTImage) (e : Bool) :
    ∀ (ts : List T) (i : Nat),
      (update_trackers C image e ts i).2.1 = ts.map (fun t => (C.update t image).2) := by
  intro ts
  induction ts with
  | nil => intro i; rfl
  | cons t rest ih => intro i; simp [update_trackers, ih]

theorem update_trackers_calls (C : TrackerClass R T) (image : VOTImage) (e : Bool) :
    ∀ (ts : List T) (i : Nat),
      (update_trackers C image e ts i).2.2 =
        (List.range ts.length).map (fun k => Call.update (i + k) image e) := by
  intro ts
  induction ts with
  | nil => intro i; rfl
  | cons t rest ih =>
      intro i
      simp only [update_trackers, ih, List.length_cons, List.range_succ_eq_map, List.map_cons,
        List.map_map]
      congr 1
      apply List.map_congr_left
      intro k _
      simp only [Function.comp, Nat.add_zero]
      congr 1
      omega

theorem reports_append (a b : List (Call R)) : reports (a ++ b) = reports a ++ reports b := by
  simp [reports]

theorem reports_updates (image : VOTImage) (e : Bool) (i n : Nat) :
    reports ((List.range n).map (fun k => (Call.update (i + k) image e : Call R))) = [] := by
  simp [reports, List.filter_eq_nil_iff, Call.is_report]

/-- A cycle of the loop on a new-frame message. -/
theorem run_cycle_frame (M : RegionMode W R) (C : TrackerClass R T) (m : VOTManager W R T)
    (f : trax_image_list) (rest : List (Message W))
    (h1 : m._vot._trax_handle ≠ none) (h2 : m._vot._vot_sequence_position ≠ 0)
    (h3 : m._vot.wire.pending = Message.frame f [] :: rest) :
    run_cycle M C m = Except.ok
      { _vot :=
          { m._vot with
            _image := ⟨f.color⟩
            wire :=
              { m._vot.wire with
                pending := rest
                waits := m._vot.wire.waits + 1
                sent := m._vot.wire.sent ++
                  [((m._trackers.map (fun t => (C.update t ⟨f.color⟩).1)).take
                    VOT_MAX_OBJECTS).map (fun r => ⟨M._region_to_trax r, []⟩)] } }
        _trackers := m._trackers.map (fun t => (C.update t ⟨f.color⟩).2)
        calls := m.calls ++ cycle_calls C ⟨f.color⟩ false m._trackers } := by
  have hr : ({ m._vot with
      _image := ⟨f.color⟩
      wire := { m._vot.wire with pending := rest, waits := m._vot.wire.waits + 1 } }
        : VOT W R)._trax_handle ≠ none := h1
  simp only [run_cycle, VOT.image, vot_frame_frame m._vot f rest h1 h2 h3,
    VOT.report_running M _ _ hr, VOT.end_of_running _ hr, update_trackers_state,
    update_trackers_trackers, update_trackers_calls, cycle_calls, Nat.zero_add,
    List.append_assoc]

/-- A cycle of the loop on a message that ends the session: every tracker is
updated on the empty image and `report` is called on the ended session, where
its assertion aborts the process. -/
theorem run_cycle_stop (M : RegionMode W R) (C : TrackerClass R T) (m : VOTManager W R T)
    (msg : Message W) (rest : List (Message W))
    (h1 : m._vot._trax_handle ≠ none) (h2 : m._vot._vot_sequence_position ≠ 0)
    (h3 : m._vot.wire.pending = msg :: rest) (hf : msg.is_frame = false)
    (ho : msg.objects = []) :
    run_cycle M C m = Except.error
      ⟨{ _vot := vot_quit
            { m._vot with
              wire := { m._vot.wire with pending := rest, waits := m._vot.wire.waits + 1 } }
         _trackers := m._trackers.map (fun t => (C.update t ⟨""⟩).2)
         calls := m.calls ++ cycle_calls C ⟨""⟩ true m._trackers }⟩ := by
  simp only [run_cycle, VOT.image, vot_frame_stop m._vot msg rest h1 h2 h3 hf ho,
    VOT.report_ended M _ _ (vot_quit_handle _), VOT.end_of_ended _ (vot_quit_handle _),
    update_trackers_state, update_trackers_trackers, update_trackers_calls, cycle_calls,
    Nat.zero_add, List.append_assoc]

theorem reports_cycle_calls (C : TrackerClass R T) (image : VOTImage) (e : Bool)
    (ts : List T) :
    reports (cycle_calls C image e ts) =
      [Call.report (ts.map (fun t => (C.update t image).1)) e] := by
  simp [cycle_calls, reports, List.filter_eq_nil_iff, Call.is_report]

/-- The expected calls hold one `report` per frame and one more. -/
theorem reports_script_calls (C : TrackerClass R T) :
    ∀ (frames : List trax_image_list) (ts : List T),
      (reports (script_calls C ts frames)).length = frames.length + 1 := by
  intro frames
  induction frames with
  | nil => intro ts; simp [script_calls, reports_cycle_calls]
  | cons f rest ih => intro ts; simp [script_calls, reports_append, reports_cycle_calls, ih]

/-- The last of the expected calls is a `report` on the ended session. -/
theorem script_calls_getLast (C : TrackerClass R T) :
    ∀ (frames : List trax_image_list) (ts : List T),
      ∃ state, (script_calls C ts frames).getLast? = some (Call.report state true) := by
  intro frames
  induction frames with
  | nil =>
      intro ts
      exact ⟨ts.map (fun t => (C.update t ⟨""⟩).1), by simp [script_calls, cycle_calls]⟩
  | cons f rest ih =>
      intro ts
      obtain ⟨state, h⟩ := ih (ts.map (fun t => (C.update t ⟨f.color⟩).2))
      refine ⟨state, ?_⟩
      simp only [script_calls]
      rw [List.getLast?_append, h]
      rfl

/-- The expected calls end with the cycle on the ended session, made on as
many trackers as the loop started with. -/
theorem script_calls_suffix (C : TrackerClass R T) :
    ∀ (frames : List trax_image_list) (ts : List T),
      ∃ (before : List (Call R)) (trackers : List T),
        script_calls C ts frames = before ++ cycle_calls C ⟨""⟩ true trackers ∧
        trackers.length = ts.length := by
  intro frames
  induction frames with
  | nil => intro ts; exact ⟨[], ts, rfl, rfl⟩
  | cons f rest ih =>
      intro ts
      obtain ⟨before, trackers, h, hl⟩ := ih (ts.map (fun t => (C.update t ⟨f.color⟩).2))
      refine ⟨cycle_calls C ⟨f.color⟩ false ts ++ before, trackers, ?_, ?_⟩
      · simp only [script_calls, h, List.append_assoc]
      · rw [hl]; simp

/-- The loop of `run` on the rest of a script `Frame × k, End`: `k` cycles
report a frame, the cycle that receives `End` updates and reports once more
on the ended session and aborts there. -/
theorem run_loop_script (M : RegionMode W R) (C : TrackerClass R T) :
    ∀ (frames : List trax_image_list) (fuel : Nat) (m : VOTManager W R T),
      m._vot._trax_handle ≠ none → m._vot._vot_sequence_position ≠ 0 →
      m._vot.wire.pending = frames.map (fun f => Message.frame f []) ++ [Message.quit] →
      frames.length + 1 ≤ fuel →
      ∃ m' : VOTManager W R T,
        run_loop M C fuel m = some (Except.error ⟨m'⟩) ∧
        m'._vot._trax_handle = none ∧
        m'.calls = m.calls ++ script_calls C m._trackers frames ∧
        m'._vot.wire.sent.length = m._vot.wire.sent.length + frames.length := by
  intro frames
  induction frames with
  | nil =>
      intro fuel m h1 h2 h3 hfuel
      obtain ⟨fuel, rfl⟩ : ∃ n, fuel = n + 1 := ⟨fuel - 1, by simp at hfuel; omega⟩
      simp only [List.map_nil, List.nil_append] at h3
      have hc := run_cycle_stop M C m Message.quit [] h1 h2 h3 rfl rfl
      simp only [run_loop, VOT.end_of_running _ h1, hc]
      refine ⟨_, rfl, vot_quit_handle _, rfl, ?_⟩
      simp only [vot_quit]
      cases hh : m._vot._trax_handle with
      | none => exact absurd hh h1
      | some h => simp
  | cons f rest ih =>
      intro fuel m h1 h2 h3 hfuel
      obtain ⟨fuel, rfl⟩ : ∃ n, fuel = n + 1 := ⟨fuel - 1, by simp at hfuel; omega⟩
      simp only [List.map_cons, List.cons_append] at h3
      obtain ⟨m1, hc, g1, g2, g3, g4, g5, g6⟩ : ∃ m1 : VOTManager W R T,
          run_cycle M C m = Except.ok m1 ∧ m1._vot._trax_handle ≠ none ∧
          m1._vot._vot_sequence_position ≠ 0 ∧
          m1._vot.wire.pending = rest.map (fun f => Message.frame f []) ++ [Message.quit] ∧
          m1.calls = m.calls ++ cycle_calls C ⟨f.color⟩ false m._trackers ∧
          m1._trackers = m._trackers.map (fun t => (C.update t ⟨f.color⟩).2) ∧
          m1._vot.wire.sent.length = m._vot.wire.sent.length + 1 :=
        ⟨_, run_cycle_frame M C m f _ h1 h2 h3, h1, h2, rfl, rfl, rfl, by simp⟩
      obtain ⟨m', hm', e1, e2, e3⟩ := ih fuel m1 g1 g2 g3 (by simp at hfuel; omega)
      refine ⟨m', ?_, e1, ?_, ?_⟩
      · simp only [run_loop, VOT.end_of_running _ h1, hc]
        exact hm'
      · rw [e2, g4, g5]
        simp [script_calls]
      · rw [e3, g6]
        simp
        omega

/-- The whole run on a script `Initialize, Frame × k, End`: the session
after the handshake, the abort, and every call made. -/
theorem main_script (M : RegionMode W R) (C : TrackerClass R T)
    (image0 : trax_image_list) (objects : trax_object_list W)
    (frames : List trax_image_list) :
    ∃ (s1 : VOT W R) (m : VOTManager W R T),
      vot_initialize M (fresh (script image0 objects frames)) = Except.ok (s1._objects, s1) ∧
      main M C (fresh (script image0 objects frames)) = some (Except.error ⟨m⟩) ∧
      m._vot._trax_handle = none ∧
      m.calls =
        script_calls C ((VOT.objects M s1).map (C.create ⟨image0.color⟩)) frames ∧
      m._vot.wire.sent.length = frames.length + 1 := by
  obtain ⟨s1, hi, a1, a2, a3, a4, _⟩ :=
    vot_initialize_running M (fresh (script image0 objects frames)) image0 objects
      (frames.map (fun f => Message.frame f []) ++ [Message.quit]) rfl rfl
  have hh : s1._trax_handle ≠ none := by simp [a1]
  obtain ⟨m', hm', e1, e2, e3⟩ :=
    run_loop_script M C frames (frames.length + 1 + 2)
      { _vot := { s1 with _vot_sequence_position := 1 }
        _trackers := [] ++ (VOT.objects M s1).map (C.create ⟨s1._image.color⟩)
        calls := [] }
      hh (by simp) (by simp [a4]) (by omega)
  refine ⟨s1, m', hi, ?_, e1, ?_, ?_⟩
  · simp only [main, VOTManager.new, VOT.new, hi, VOTManager.run, run_setup, VOT.image,
      vot_frame_first s1 hh a2]
    simp only [a4, List.length_append, List.length_map, List.length_cons, List.length_nil]
    simp only [a4] at hm'
    have e : frames.length + (0 + 1) + 2 = frames.length + 1 + 2 := by omega
    rw [e, hm']
  · rw [e2, a3]; simp
  · rw [e3]; simp [a4, fresh]; omega

/-- A cycle that completes takes a message from the harness or moves the
position off 0. -/
theorem run_cycle_progress (M : RegionMode W R) (C : TrackerClass R T)
    (m m' : VOTManager W R T) (h1 : m._vot._trax_handle ≠ none)
    (h : run_cycle M C m = Except.ok m') : cycles_left m' < cycles_left m := by
  by_cases h2 : m._vot._vot_sequence_position = 0
  · have hr : ({ m._vot with _vot_sequence_position := 1 } : VOT W R)._trax_handle ≠ none := h1
    simp only [run_cycle, VOT.image, vot_frame_first m._vot h1 h2,
      VOT.report_running M _ _ hr] at h
    cases h
    simp [cycles_left, h2]
  · cases hp : m._vot.wire.pending with
    | nil =>
        simp only [run_cycle, VOT.image, vot_frame_closed m._vot h1 h2 hp,
          VOT.report_ended M _ _ (vot_quit_handle _)] at h
        cases h
    | cons msg rest =>
        by_cases ho : msg.objects = []
        · cases msg with
          | frame image objects =>
              simp only [Message.objects] at ho
              subst ho
              rw [run_cycle_frame M C m image rest h1 h2 hp] at h
              cases h
              simp [cycles_left, h2, hp]
          | init image objects =>
              rw [run_cycle_stop M C m _ rest h1 h2 hp rfl ho] at h
              cases h
          | quit =>
              rw [run_cycle_stop M C m _ rest h1 h2 hp rfl ho] at h
              cases h
          | error =>
              rw [run_cycle_stop M C m _ rest h1 h2 hp rfl ho] at h
              cases h
        · simp only [run_cycle, VOT.image, vot_frame_objects m._vot msg rest h1 h2 hp ho] at h
          cases h

/-- The loop of `run` ends within `cycles_left + 1` iterations. -/
theorem run_loop_total (M : RegionMode W R) (C : TrackerClass R T) :
    ∀ (fuel : Nat) (m : VOTManager W R T), cycles_left m < fuel →
      (run_loop M C fuel m).isSome = true := by
  intro fuel
  induction fuel with
  | zero => intro m h; omega
  | succ fuel ih =>
      intro m h
      simp only [run_loop]
      by_cases he : m._vot._trax_handle = none
      · simp [VOT.end_of_ended _ he]
      · simp only [VOT.end_of_running _ he]
        cases hc : run_cycle M C m with
        | error f => simp
        | ok m' =>
            have := run_cycle_progress M C m m' he hc
            simpa using ih m' (by omega)

/-- `VOTManager::run` always comes to an end: the fuel given to its loop
suffices, whatever the session and the harness. -/
theorem run_total (M : RegionMode W R) (C : TrackerClass R T) (m : VOTManager W R T) :
    (VOTManager.run M C m).isSome = true := by
  unfold VOTManager.run
  cases hs : run_setup M C m with
  | error f => simp
  | ok m1 =>
      simp only
      apply run_loop_total
      unfold cycles_left
      split <;> omega

end RunnerLemmas

/-! ## Shared lemmas on numbers and polygons -/

section RegionLemmas

/-- The excess bits of a value with at most 24 significant bits are zeros. -/
theorem excess_bits_dvd (m : Nat) (hm : m < 2 ^ 24) :
    ∀ (fuel e n : Nat), n = m * 2 ^ e → 2 ^ excess_bits fuel n ∣ n := by
  intro fuel
  induction fuel with
  | zero => intro e n _; simp [excess_bits]
  | succ fuel ih =>
      intro e n hn
      unfold excess_bits
      split
      · simp
      · rename_i hge
        cases e with
        | zero => simp at hn; omega
        | succ e =>
            have h2 : n / 2 = m * 2 ^ e := by
              rw [hn, pow_succ, ← Nat.mul_assoc, Nat.mul_div_cancel _ (by norm_num)]
            have hk := ih e (n / 2) h2
            have hn2 : n = n / 2 * 2 := by
              rw [h2, hn, pow_succ, Nat.mul_assoc]
            generalize excess_bits fuel (n / 2) = k at hk ⊢
            obtain ⟨c, hc⟩ := hk
            refine ⟨c, ?_⟩
            calc n = n / 2 * 2 := hn2
              _ = 2 ^ k * c * 2 := by rw [hc]
              _ = 2 ^ (k + 1) * c := by rw [pow_succ]; ring

/-- Rounding changes no value that has at most 24 significant bits. -/
theorem round_to_float_exact (n : Nat) (h : ∃ m e : Nat, m < 2 ^ 24 ∧ n = m * 2 ^ e) :
    round_to_float n = n := by
  obtain ⟨m, e, hm, hn⟩ := h
  have hd := excess_bits_dvd m hm n e n hn
  unfold round_to_float
  simp only
  have hr : n % 2 ^ excess_bits n n = 0 := Nat.mod_eq_zero_of_dvd hd
  rw [hr, if_pos (by positivity)]
  exact Nat.div_mul_cancel hd

/-- The fuel suffices: what is left of `n` after dropping the excess bits has
at most 24 bits. -/
theorem excess_bits_spec :
    ∀ (fuel n : Nat), n ≤ fuel → n / 2 ^ excess_bits fuel n < 2 ^ 24 := by
  intro fuel
  induction fuel with
  | zero =>
      intro n h
      have : n = 0 := by omega
      subst this
      simp [excess_bits]
  | succ fuel ih =>
      intro n h
      unfold excess_bits
      split
      · rename_i hlt
        simpa using hlt
      · rename_i hge
        have h2 : n / 2 ≤ fuel := by omega
        have := ih (n / 2) h2
        rw [pow_succ, Nat.mul_comm, ← Nat.div_div_eq_div_mul]
        exact this

/-- The value `round_to_float n` is a nearest value among the multiples of
`2 ^ e`, `e` the number of excess bits: it is a multiple, and it differs from
`n` by at most half of `2 ^ e`. -/
theorem round_to_float_near (n : Nat) :
    2 ^ excess_bits n n ∣ round_to_float n ∧
    2 * round_to_float n ≤ 2 * n + 2 ^ excess_bits n n ∧
    2 * n ≤ 2 * round_to_float n + 2 ^ excess_bits n n := by
  unfold round_to_float
  simp only
  generalize excess_bits n n = e
  have hp : 0 < 2 ^ e := by positivity
  have hdm := Nat.div_add_mod n (2 ^ e)
  have hr := Nat.mod_lt n hp
  generalize n / 2 ^ e = q at hdm ⊢
  generalize n % 2 ^ e = r at hdm hr ⊢
  generalize 2 ^ e = p at hdm hr hp ⊢
  refine ⟨Dvd.intro_left _ rfl, ?_, ?_⟩
  · split
    · nlinarith
    · split
      · nlinarith
      · split
        · nlinarith
        · nlinarith
  · split
    · nlinarith
    · split
      · nlinarith
      · split
        · nlinarith
        · nlinarith

/-- The conversion to `float` changes no `int` with at most 24 significant bits. -/
theorem int_to_float_exact (i : Int) (h : ∃ m e : Nat, m < 2 ^ 24 ∧ i.natAbs = m * 2 ^ e) :
    int_to_float i = i := by
  unfold int_to_float
  rw [round_to_float_exact _ h]
  split
  · rename_i h0
    rw [Nat.cast_natAbs, abs_of_nonneg h0]
  · rename_i h0
    rw [Nat.cast_natAbs, abs_of_neg (by omega)]
    push_cast
    ring

/-- The conversion to `float` changes no `int` below `2 ^ 24` in magnitude. -/
theorem int_to_float_small (i : Int) (h : i.natAbs < 2 ^ 24) : int_to_float i = i :=
  int_to_float_exact i ⟨i.natAbs, 0, h, by simp⟩

/-- A whole value in the range of `int` converts to itself. -/
theorem float_to_int_intCast (i : Int) (h1 : INT_MIN ≤ i) (h2 : i ≤ INT_MAX) :
    float_to_int (i : ℚ) = i := by
  unfold float_to_int
  simp only [Int.floor_intCast, Int.ceil_intCast, ite_self]
  rw [if_pos ⟨h1, h2⟩]

/-- A sum inside the range of `int` is the sum. -/
theorem int_add_eq (a b : Int) (h1 : INT_MIN ≤ a + b) (h2 : a + b ≤ INT_MAX) :
    int_add a b = a + b := by
  unfold int_add
  unfold INT_MIN at h1
  unfold INT_MAX at h2
  norm_num at h1 h2 ⊢
  omega

/-- Converting an exactly representable `int` to `float` and back gives the
`int`. -/
theorem float_to_int_int_to_float (i : Int) (h : exactly_representable i) :
    float_to_int (int_to_float i) = i := by
  rw [int_to_float_exact i h.2.2, float_to_int_intCast i h.1 h.2.1]

/-- `set (i, x, y)` inside the array. -/
theorem Polygon.set_inside (region : Polygon.vot_region) (i : Nat) (x y : float)
    (hi : i < region.count) :
    Polygon.VOTRegion.set region i x y =
      Except.ok { region with x := region.x.set i x, y := region.y.set i y } := by
  have h : ((i : Int) ≥ 0 ∧ (i : Int) < region.count) := ⟨by omega, by omega⟩
  simp [Polygon.VOTRegion.set, h]

/-- `get_x (i)` inside the array. -/
theorem Polygon.get_x_inside (region : Polygon.vot_region) (i : Nat) (hi : i < region.count) :
    Polygon.VOTRegion.get_x region i = Except.ok (region.x.getD i 0) := by
  have h : ((i : Int) ≥ 0 ∧ (i : Int) < region.count) := ⟨by omega, by omega⟩
  simp [Polygon.VOTRegion.get_x, h]

/-- `get_y (i)` inside the array. -/
theorem Polygon.get_y_inside (region : Polygon.vot_region) (i : Nat) (hi : i < region.count) :
    Polygon.VOTRegion.get_y region i = Except.ok (region.y.getD i 0) := by
  have h : ((i : Int) ≥ 0 ∧ (i : Int) < region.count) := ⟨by omega, by omega⟩
  simp [Polygon.VOTRegion.get_y, h]

/-- A created region is well shaped. -/
theorem Polygon.vot_region_create_wf (n : Nat) : (Polygon.vot_region_create n).wf := by
  simp [Polygon.vot_region.wf, Polygon.vot_region_create]

/-- The loop of the copy assignment overwrites the entries `i .. i + n - 1`
with those of the source and leaves the others. -/
theorem Polygon.assign_points_spec (source : Polygon.vot_region) (hs : source.wf) :
    ∀ (n i : Nat) (t : Polygon.vot_region), t.count = source.count → t.wf →
      i + n ≤ source.count →
      ∃ t', Polygon.assign_points source n i t = Except.ok t' ∧
        t'.count = t.count ∧ t'.wf ∧
        (∀ k, t'.x[k]? = if i ≤ k ∧ k < i + n then source.x[k]? else t.x[k]?) ∧
        (∀ k, t'.y[k]? = if i ≤ k ∧ k < i + n then source.y[k]? else t.y[k]?) := by
  intro n
  induction n with
  | zero =>
      intro i t _ ht _
      refine ⟨t, rfl, rfl, ht, ?_, ?_⟩ <;>
      · intro k
        have h0 : ¬ (i ≤ k ∧ k < i + 0) := by omega
        simp only [h0, if_false]
  | succ n ih =>
      intro i t hc ht hle
      have hi : i < source.count := by omega
      have hit : i < t.count := by omega
      have hwf : ({ t with x := t.x.set i (source.x.getD i 0),
                           y := t.y.set i (source.y.getD i 0) } : Polygon.vot_region).wf := by
        simp only [Polygon.vot_region.wf, List.length_set]
        exact ht
      obtain ⟨t', h1, h2, h3, h4, h5⟩ := ih (i + 1)
        { t with x := t.x.set i (source.x.getD i 0), y := t.y.set i (source.y.getD i 0) }
        hc hwf (by omega)
      refine ⟨t', ?_, h2, h3, ?_, ?_⟩
      · simp only [Polygon.assign_points, Polygon.get_x_inside source i hi,
          Polygon.get_y_inside source i hi, Polygon.set_inside t i _ _ hit, bind, Except.bind]
        exact h1
      · intro k
        rw [h4 k]
        by_cases hk : k = i
        · subst hk
          have a : ¬ (k + 1 ≤ k ∧ k < k + 1 + n) := by omega
          have b : (k ≤ k ∧ k < k + (n + 1)) := by omega
          have hl : k < t.x.length := by rw [ht.1]; exact hit
          have hl' : k < source.x.length := by rw [hs.1]; exact hi
          simp only [a, b, if_false, if_true, List.getElem?_set, hl, and_self]
          rw [List.getD_eq_getElem?_getD, List.getElem?_eq_getElem hl']
          rfl
        · have a : (i + 1 ≤ k ∧ k < i + 1 + n) ↔ (i ≤ k ∧ k < i + (n + 1)) := by omega
          have c : ¬ i = k := fun h => hk h.symm
          simp only [a, List.getElem?_set, c, if_false]
      · intro k
        rw [h5 k]
        by_cases hk : k = i
        · subst hk
          have a : ¬ (k + 1 ≤ k ∧ k < k + 1 + n) := by omega
          have b : (k ≤ k ∧ k < k + (n + 1)) := by omega
          have hl : k < t.y.length := by rw [ht.2]; exact hit
          have hl' : k < source.y.length := by rw [hs.2]; exact hi
          simp only [a, b, if_false, if_true, List.getElem?_set, hl, and_self]
          rw [List.getD_eq_getElem?_getD, List.getElem?_eq_getElem hl']
          rfl
        · have a : (i + 1 ≤ k ∧ k < i + 1 + n) ↔ (i ≤ k ∧ k < i + (n + 1)) := by omega
          have c : ¬ i = k := fun h => hk h.symm
          simp only [a, List.getElem?_set, c, if_false]

/-- Two lists of the same length that the loop has made agree on every index
below that length are equal. -/
theorem list_eq_of_overwritten {α : Type} (xs ys zs : List α) (n : Nat)
    (hy : ys.length = n) (hz : zs.length = n)
    (h : ∀ k, xs[k]? = (if 0 ≤ k ∧ k < 0 + n then ys[k]? else zs[k]?)) : xs = ys := by
  apply List.ext_getElem?
  intro k
  rw [h k]
  by_cases hk : k < n
  · have : 0 ≤ k ∧ k < 0 + n := by omega
    simp only [this, and_self, if_true]
  · have : ¬ (0 ≤ k ∧ k < 0 + n) := by omega
    simp only [this, if_false]
    rw [List.getElem?_eq_none (by omega), List.getElem?_eq_none (by omega)]

/-- Length of an overwritten array. -/
theorem overwrite_length {α : Type} (src : List α) (d : α) :
    ∀ (n i : Nat) (dst : List α), (overwrite src d n i dst).length = dst.length := by
  intro n
  induction n with
  | zero => intro i dst; rfl
  | succ n ih => intro i dst; simp [overwrite, ih]

/-- Entry `k` of an overwritten array. -/
theorem overwrite_getElem? {α : Type} (src : List α) (d : α) :
    ∀ (n i : Nat) (dst : List α) (k : Nat),
      (overwrite src d n i dst)[k]? =
        if i ≤ k ∧ k < i + n ∧ k < dst.length then some (src.getD k d) else dst[k]? := by
  intro n
  induction n with
  | zero =>
      intro i dst k
      have h0 : ¬ (i ≤ k ∧ k < i + 0 ∧ k < dst.length) := by omega
      simp only [overwrite, h0, if_false]
  | succ n ih =>
      intro i dst k
      simp only [overwrite]
      rw [ih, List.length_set, List.getElem?_set]
      by_cases hk : k = i
      · subst hk
        have a : ¬ (k + 1 ≤ k ∧ k < k + 1 + n ∧ k < dst.length) := by omega
        rw [if_neg a]
        by_cases hl : k < dst.length
        · have b : k ≤ k ∧ k < k + (n + 1) ∧ k < dst.length := by omega
          simp [hl, b]
        · have b : ¬ (k ≤ k ∧ k < k + (n + 1) ∧ k < dst.length) := by omega
          rw [if_neg b]
          simp [hl]
          omega
      · have a : (i + 1 ≤ k ∧ k < i + 1 + n ∧ k < dst.length) ↔
            (i ≤ k ∧ k < i + (n + 1) ∧ k < dst.length) := by omega
        have c : ¬ i = k := fun h => hk h.symm
        simp only [a, c, if_false]

/-- Overwriting a whole array with an array of the same length gives that
array. -/
theorem overwrite_all {α : Type} (src dst : List α) (d : α) (m : Nat)
    (hs : src.length = m) (hd : dst.length = m) : overwrite src d m 0 dst = src := by
  apply List.ext_getElem?
  intro k
  rw [overwrite_getElem?]
  by_cases hk : k < m
  · have a : 0 ≤ k ∧ k < 0 + m ∧ k < dst.length := by omega
    rw [if_pos a, List.getD_eq_getElem?_getD, List.getElem?_eq_getElem (by omega)]
    rfl
  · have a : ¬ (0 ≤ k ∧ k < 0 + m ∧ k < dst.length) := by omega
    rw [if_neg a, List.getElem?_eq_none (by omega), List.getElem?_eq_none (by omega)]

/-- The loop of `vot_region_copy` overwrites both arrays. -/
theorem Polygon.copy_points_eq (region : Polygon.vot_region) :
    ∀ (n i : Nat) (copy : Polygon.vot_region),
      Polygon.copy_points region n i copy =
        { copy with x := overwrite region.x 0 n i copy.x
                    y := overwrite region.y 0 n i copy.y } := by
  intro n
  induction n with
  | zero => intro i copy; rfl
  | succ n ih => intro i copy; simp [Polygon.copy_points, ih, overwrite]

/-- The loop of `_trax_to_region` overwrites both arrays. -/
theorem Polygon.read_points_eq (w : Polygon.trax_region) :
    ∀ (n i : Nat) (region : Polygon.vot_region),
      Polygon.read_points w n i region =
        { region with x := overwrite w.x 0 n i region.x
                      y := overwrite w.y 0 n i region.y } := by
  intro n
  induction n with
  | zero => intro i region; rfl
  | succ n ih =>
      intro i region
      simp [Polygon.read_points, ih, overwrite, Polygon.trax_region_get_polygon_point]

/-- The loop of `_region_to_trax` overwrites both arrays. -/
theorem Polygon.write_points_eq (region : Polygon.vot_region) :
    ∀ (n i : Nat) (w : Polygon.trax_region),
      Polygon.write_points region n i w =
        { w with x := overwrite region.x 0 n i w.x
                 y := overwrite region.y 0 n i w.y } := by
  intro n
  induction n with
  | zero => intro i w; rfl
  | succ n ih =>
      intro i w
      simp [Polygon.write_points, ih, overwrite, Polygon.trax_region_set_polygon_point]

/-- A copy of an allocated polygon equals the polygon. -/
theorem Polygon.polygon_copy_eq (region : Polygon.vot_region) (h : region.wf) :
    Polygon.vot_region_copy region = region := by
  obtain ⟨x, y, count⟩ := region
  obtain ⟨hx, hy⟩ := h
  simp only at hx hy
  simp only [Polygon.vot_region_copy, Polygon.copy_points_eq, Polygon.vot_region_create]
  rw [overwrite_all x _ 0 count hx (by simp), overwrite_all y _ 0 count hy (by simp)]

/-- The wire encoding of an allocated polygon: its count and its arrays. -/
theorem Polygon.polygon_to_trax_eq (region : Polygon.vot_region) (h : region.wf) :
    Polygon._region_to_trax region = ⟨region.count, region.x, region.y⟩ := by
  obtain ⟨x, y, count⟩ := region
  obtain ⟨hx, hy⟩ := h
  simp only at hx hy
  simp only [Polygon._region_to_trax, Polygon.write_points_eq,
    Polygon.trax_region_create_polygon]
  rw [overwrite_all x _ 0 count hx (by simp), overwrite_all y _ 0 count hy (by simp)]

/-- The decoding of a wire polygon whose arrays have `count` entries. -/
theorem Polygon.polygon_of_trax_eq (w : Polygon.trax_region) (hx : w.x.length = w.count)
    (hy : w.y.length = w.count) :
    Polygon._trax_to_region w = ⟨w.x, w.y, w.count⟩ := by
  obtain ⟨count, x, y⟩ := w
  simp only at hx hy
  simp only [Polygon._trax_to_region, Polygon.read_points_eq, Polygon.vot_region_create,
    Polygon.trax_region_get_polygon_count]
  rw [overwrite_all x _ 0 count hx (by simp), overwrite_all y _ 0 count hy (by simp)]

/-- The decoding of a wire polygon is an allocated region, whatever the wire
polygon. -/
theorem Polygon.polygon_of_trax_wf (w : Polygon.trax_region) :
    (Polygon._trax_to_region w).wf := by
  simp [Polygon._trax_to_region, Polygon.read_points_eq, Polygon.vot_region_create,
    Polygon.trax_region_get_polygon_count, Polygon.vot_region.wf, overwrite_length]

/-- Length of a buffer after `memcpy`. -/
theorem memcpy_length (dst : List Nat) (offset : Nat) (src : List Nat) (n : Nat) :
    (memcpy dst offset src n).length = dst.length := by
  simp [memcpy]

/-- Byte `k` of a buffer after `memcpy`. -/
theorem memcpy_getElem? (dst : List Nat) (offset : Nat) (src : List Nat) (n k : Nat) :
    (memcpy dst offset src n)[k]? =
      if k < dst.length then
        some (if offset ≤ k ∧ k < offset + n then src.getD (k - offset) 0 else dst.getD k 0)
      else none := by
  unfold memcpy
  rw [List.getElem?_map]
  by_cases hk : k < dst.length
  · rw [List.getElem?_range hk]
    simp [hk]
  · rw [List.getElem?_eq_none (by simpa using hk)]
    simp [hk]

/-- Byte `k` of a buffer after `memcpy`, read inside the buffer. -/
theorem memcpy_getD (dst : List Nat) (offset : Nat) (src : List Nat) (n k : Nat)
    (hk : k < dst.length) :
    (memcpy dst offset src n).getD k 0 =
      if offset ≤ k ∧ k < offset + n then src.getD (k - offset) 0 else dst.getD k 0 := by
  rw [List.getD_eq_getElem?_getD, memcpy_getElem?, if_pos hk]
  rfl

/-- A `memcpy` of a whole buffer gives the source. -/
theorem memcpy_all (dst src : List Nat) (n : Nat) (hd : dst.length = n) (hs : src.length = n) :
    memcpy dst 0 src n = src := by
  apply List.ext_getElem?
  intro k
  rw [memcpy_getElem?]
  by_cases hk : k < n
  · have a : 0 ≤ k ∧ k < 0 + n := by omega
    rw [if_pos (by omega), if_pos a, List.getD_eq_getElem?_getD,
      List.getElem?_eq_getElem (by omega)]
    simp
  · rw [if_neg (by omega), List.getElem?_eq_none (by omega)]

/-- A copy of an allocated mask equals the mask. -/
theorem Mask.mask_copy_eq (fresh : Nat → Nat) (region : Mask.vot_region)
    (h : region.wf) : Mask.vot_region_copy fresh region = region := by
  obtain ⟨width, height, data⟩ := region
  simp only [Mask.vot_region.wf] at h
  simp only [Mask.vot_region_copy, Mask.vot_region_create]
  rw [memcpy_all _ data (width * height) (by simp) h]

/-- The wire encoding of an allocated mask: offset `(0, 0)`, its size, its
bytes. -/
theorem Mask.mask_to_trax_eq (fresh : Nat → Nat) (region : Mask.vot_region)
    (h : region.wf) :
    Mask._region_to_trax fresh region = ⟨0, 0, region.width, region.height, region.data⟩ := by
  obtain ⟨width, height, data⟩ := region
  simp only [Mask.vot_region.wf] at h
  simp only [Mask._region_to_trax, Mask.trax_region_create_mask]
  rw [memcpy_all _ data (width * height) (by simp) h]

/-- The loop of `_trax_to_region` keeps the size of the region and the length
of its buffer. -/
theorem Mask.read_rows_shape (w : Mask.trax_region) :
    ∀ (n i : Nat) (region : Mask.vot_region),
      (Mask.read_rows w n i region).width = region.width ∧
      (Mask.read_rows w n i region).height = region.height ∧
      (Mask.read_rows w n i region).data.length = region.data.length := by
  intro n
  induction n with
  | zero => intro i region; exact ⟨rfl, rfl, rfl⟩
  | succ n ih =>
      intro i region
      simp only [Mask.read_rows]
      obtain ⟨h1, h2, h3⟩ := ih (i + 1)
        { region with
          data := memcpy region.data ((w.width + w.x) * (i + w.y) + w.x)
            (Mask.trax_region_get_mask_row w i) w.width }
      exact ⟨h1, h2, by rw [h3, memcpy_length]⟩

/-- Reading a byte past a dropped prefix. -/
theorem getD_drop (l : List Nat) (n k : Nat) : (l.drop n).getD k 0 = l.getD (n + k) 0 := by
  simp [List.getD_eq_getElem?_getD, List.getElem?_drop]

/-- The loop of `_trax_to_region` on a wire mask at offset `(0, 0)`: the rows
`i .. i + n - 1` of the region are the rows of the wire mask. -/
theorem Mask.read_rows_origin (w : Mask.trax_region) (hx : w.x = 0) (hy : w.y = 0) :
    ∀ (n i : Nat) (region : Mask.vot_region) (k : Nat),
      (Mask.read_rows w n i region).data[k]? =
        if k < region.data.length then
          some (if w.width * i ≤ k ∧ k < w.width * (i + n) then w.data.getD k 0
                else region.data.getD k 0)
        else none := by
  intro n
  induction n with
  | zero =>
      intro i region k
      have h0 : ¬ (w.width * i ≤ k ∧ k < w.width * (i + 0)) := by
        simp only [Nat.add_zero]; omega
      simp only [Mask.read_rows, h0, if_false]
      by_cases hk : k < region.data.length
      · simp [hk, List.getD_eq_getElem?_getD]
      · rw [if_neg hk, List.getElem?_eq_none (by omega)]
  | succ n ih =>
      intro i region k
      simp only [Mask.read_rows]
      rw [ih, memcpy_length]
      by_cases hk : k < region.data.length
      · simp only [hk, if_true, Option.some.injEq]
        rw [memcpy_getD _ _ _ _ _ hk]
        simp only [hx, hy, Nat.add_zero, Mask.trax_region_get_mask_row, getD_drop]
        have e1 : w.width * (i + 1) = w.width * i + w.width := by ring
        have e2 : w.width * (i + 1 + n) = w.width * i + w.width + w.width * n := by ring
        have e3 : w.width * (i + (n + 1)) = w.width * i + w.width + w.width * n := by ring
        rw [e1, e2, e3]
        by_cases c1 : w.width * i ≤ k ∧ k < w.width * i + w.width
        · have c2 : ¬ (w.width * i + w.width ≤ k ∧
              k < w.width * i + w.width + w.width * n) := by omega
          have c3 : w.width * i ≤ k ∧ k < w.width * i + w.width + w.width * n := by omega
          have e4 : i * w.width + (k - w.width * i) = k := by
            rw [Nat.mul_comm i w.width]; omega
          rw [if_neg c2, if_pos c1, if_pos c3, e4]
        · by_cases c2 : w.width * i + w.width ≤ k ∧
              k < w.width * i + w.width + w.width * n
          · have c3 : w.width * i ≤ k ∧ k < w.width * i + w.width + w.width * n := by omega
            rw [if_pos c2, if_pos c3]
          · have c3 : ¬ (w.width * i ≤ k ∧ k < w.width * i + w.width + w.width * n) := by
              omega
            rw [if_neg c2, if_neg c1, if_neg c3]
      · simp only [hk, if_false]

/-- The decoding of a wire mask at offset `(0, 0)` whose buffer has
`width * height` bytes. -/
theorem Mask.mask_of_trax_origin (fresh : Nat → Nat) (w : Mask.trax_region)
    (hx : w.x = 0) (hy : w.y = 0) (hd : w.data.length = w.width * w.height) :
    Mask._trax_to_region fresh w = ⟨w.width, w.height, w.data⟩ := by
  have hs := Mask.read_rows_shape w w.height 0
    (Mask.vot_region_create fresh (w.x + w.width) (w.y + w.height))
  have hdata : (Mask.read_rows w w.height 0
      (Mask.vot_region_create fresh (w.x + w.width) (w.y + w.height))).data = w.data := by
    apply List.ext_getElem?
    intro k
    rw [Mask.read_rows_origin w hx hy]
    have hl : (Mask.vot_region_create fresh (w.x + w.width) (w.y + w.height)).data.length =
        w.width * w.height := by
      simp [Mask.vot_region_create, hx, hy]
    rw [hl]
    by_cases hk : k < w.width * w.height
    · have c : w.width * 0 ≤ k ∧ k < w.width * (0 + w.height) := by
        simp only [Nat.mul_zero, Nat.zero_add]; omega
      rw [if_pos hk, if_pos c, List.getD_eq_getElem?_getD,
        List.getElem?_eq_getElem (by omega)]
      simp
    · rw [if_neg hk, List.getElem?_eq_none (by omega)]
  unfold Mask._trax_to_region
  generalize Mask.read_rows w w.height 0
    (Mask.vot_region_create fresh (w.x + w.width) (w.y + w.height)) = r at hs hdata
  obtain ⟨rw_, rh, rd⟩ := r
  simp only [Mask.vot_region_create, hx, hy, Nat.zero_add] at hs
  simp only at hdata
  obtain ⟨h1, h2, _⟩ := hs
  subst h1 h2 hdata
  rfl

/-- The decoding of a wire mask is an allocated region, whatever the wire
mask. -/
theorem Mask.mask_of_trax_wf (fresh : Nat → Nat) (w : Mask.trax_region) :
    (Mask._trax_to_region fresh w).wf := by
  obtain ⟨h1, h2, h3⟩ := Mask.read_rows_shape w w.height 0
    (Mask.vot_region_create fresh (w.x + w.width) (w.y + w.height))
  unfold Mask.vot_region.wf Mask._trax_to_region
  rw [h1, h2, h3]
  simp [Mask.vot_region_create]

/-- The loop of `_trax_to_region` at any offset, seen by column `c` and row
`r` of the region (`width + x` columns): the rows `i + y .. i + n - 1 + y`
hold, from column `x` on, the rows `i .. i + n - 1` of the wire mask; every
other byte is as it was. -/
theorem Mask.read_rows_window (w : Mask.trax_region) :
    ∀ (n i : Nat) (region : Mask.vot_region) (r c : Nat), c < w.width + w.x →
      (w.width + w.x) * r + c < region.data.length →
      (Mask.read_rows w n i region).data.getD ((w.width + w.x) * r + c) 0 =
        if w.x ≤ c ∧ i + w.y ≤ r ∧ r < i + n + w.y then
          w.data.getD ((r - w.y) * w.width + (c - w.x)) 0
        else region.data.getD ((w.width + w.x) * r + c) 0 := by
  intro n
  induction n with
  | zero =>
      intro i region r c _ _
      rw [if_neg (by omega)]
      rfl
  | succ n ih =>
      intro i region r c hc hk
      simp only [Mask.read_rows]
      rw [ih (i + 1) _ r c hc (by simpa [memcpy_length] using hk)]
      simp only
      rw [memcpy_getD _ _ _ _ _ hk]
      by_cases hr : r = i + w.y
      · subst hr
        rw [if_neg (by omega)]
        by_cases hxc : w.x ≤ c
        · rw [if_pos (by omega), if_pos (by omega)]
          simp only [Mask.trax_region_get_mask_row]
          rw [getD_drop]
          congr 1
          have e1 : (w.width + w.x) * (i + w.y) + c - ((w.width + w.x) * (i + w.y) + w.x) =
              c - w.x := by omega
          rw [e1, Nat.add_sub_cancel]
        · rw [if_neg (by omega), if_neg (by omega)]
      · have hoff : ¬ ((w.width + w.x) * (i + w.y) + w.x ≤ (w.width + w.x) * r + c ∧
            (w.width + w.x) * r + c < (w.width + w.x) * (i + w.y) + w.x + w.width) := by
          rcases Nat.lt_or_gt_of_ne hr with h | h
          · have := Nat.mul_le_mul_left (w.width + w.x) (Nat.succ_le_of_lt h)
            rw [Nat.mul_succ] at this
            omega
          · have := Nat.mul_le_mul_left (w.width + w.x) (Nat.succ_le_of_lt h)
            rw [Nat.mul_succ] at this
            omega
        rw [if_neg hoff]
        by_cases hin : w.x ≤ c ∧ i + w.y ≤ r ∧ r < i + (n + 1) + w.y
        · rw [if_pos hin, if_pos (by omega)]
        · rw [if_neg hin, if_neg (by omega)]

/-- The region that `_trax_to_region` makes of a wire mask at offset `(x, y)`:
`x + width` columns and `y + height` rows; at column `c` and row `r` the byte
of the wire mask at `(c - x, r - y)` inside the window, and outside of it the
byte `malloc` handed out. -/
theorem Mask.mask_of_trax_window (fresh : Nat → Nat) (w : Mask.trax_region) :
    (Mask._trax_to_region fresh w).width = w.x + w.width ∧
    (Mask._trax_to_region fresh w).height = w.y + w.height ∧
    (Mask._trax_to_region fresh w).data.length = (w.x + w.width) * (w.y + w.height) ∧
    ∀ r c, r < w.y + w.height → c < w.x + w.width →
      (Mask._trax_to_region fresh w).data.getD ((w.x + w.width) * r + c) 0 =
        if w.x ≤ c ∧ w.y ≤ r then w.data.getD ((r - w.y) * w.width + (c - w.x)) 0
        else fresh ((w.x + w.width) * r + c) := by
  obtain ⟨h1, h2, h3⟩ := Mask.read_rows_shape w w.height 0
    (Mask.vot_region_create fresh (w.x + w.width) (w.y + w.height))
  have hlen : (Mask.vot_region_create fresh (w.x + w.width) (w.y + w.height)).data.length =
      (w.x + w.width) * (w.y + w.height) := by
    simp [Mask.vot_region_create]
  refine ⟨h1, h2, h3.trans hlen, ?_⟩
  intro r c hr hc
  have hk : (w.x + w.width) * r + c < (w.x + w.width) * (w.y + w.height) := by
    have := Nat.mul_le_mul_left (w.x + w.width) (Nat.succ_le_of_lt hr)
    rw [Nat.mul_succ] at this
    omega
  have key := Mask.read_rows_window w w.height 0
    (Mask.vot_region_create fresh (w.x + w.width) (w.y + w.height)) r c (by omega)
    (by rw [hlen, Nat.add_comm w.width w.x]; exact hk)
  rw [Nat.add_comm w.width w.x] at key
  unfold Mask._trax_to_region
  simp only
  rw [key]
  by_cases hin : w.x ≤ c ∧ w.y ≤ r
  · rw [if_pos hin, if_pos (by omega)]
  · rw [if_neg hin, if_neg (by omega)]
    simp [Mask.vot_region_create, List.getD_eq_getElem?_getD, List.getElem?_map,
      List.getElem?_range hk]

/-- The macro `MIN` is below its first argument. -/
theorem MIN_le_left (a b : float) : MIN a b ≤ a := by
  unfold MIN; split <;> linarith

/-- The macro `MIN` is below its second argument. -/
theorem MIN_le_right (a b : float) : MIN a b ≤ b := by
  unfold MIN; split <;> linarith

/-- The macro `MIN` returns one of its arguments. -/
theorem MIN_eq (a b : float) : MIN a b = a ∨ MIN a b = b := by
  unfold MIN; split <;> simp

/-- The macro `MAX` is above its first argument. -/
theorem le_MAX_left (a b : float) : a ≤ MAX a b := by
  unfold MAX; split <;> linarith

/-- The macro `MAX` is above its second argument. -/
theorem le_MAX_right (a b : float) : b ≤ MAX a b := by
  unfold MAX; split <;> linarith

/-- The loop of `VOTRegion::get` over the indices `l`, from the values `e0`:
`left` and `top` only go down, to a value that is their start or a coordinate
met; `right` and `bottom` only go up; every coordinate met lies between. -/
theorem Polygon.extent_fold (r : Polygon.vot_region) :
    ∀ (l : List Nat) (e0 e : Polygon.Extent),
      l.foldl (fun e j =>
          ({ top := MIN e.top (r.y.getD j 0)
             bottom := MAX e.bottom (r.y.getD j 0)
             left := MIN e.left (r.x.getD j 0)
             right := MAX e.right (r.x.getD j 0) } : Polygon.Extent)) e0 = e →
      e.left ≤ e0.left ∧ e0.right ≤ e.right ∧ e.top ≤ e0.top ∧ e0.bottom ≤ e.bottom ∧
      (∀ j ∈ l, e.left ≤ r.x.getD j 0 ∧ r.x.getD j 0 ≤ e.right ∧
        e.top ≤ r.y.getD j 0 ∧ r.y.getD j 0 ≤ e.bottom) ∧
      (e.left = e0.left ∨ ∃ j ∈ l, e.left = r.x.getD j 0) ∧
      (e.top = e0.top ∨ ∃ j ∈ l, e.top = r.y.getD j 0) := by
  intro l
  induction l with
  | nil =>
      intro e0 e h
      simp only [List.foldl_nil] at h
      subst h
      simp
  | cons j t ih =>
      intro e0 e h
      rw [List.foldl_cons] at h
      obtain ⟨a1, a2, a3, a4, a5, a6, a7⟩ := ih _ e h
      simp only at a1 a2 a3 a4 a6 a7
      have b1 := MIN_le_left e0.left (r.x.getD j 0)
      have b2 := MIN_le_right e0.left (r.x.getD j 0)
      have b3 := le_MAX_left e0.right (r.x.getD j 0)
      have b4 := le_MAX_right e0.right (r.x.getD j 0)
      have c1 := MIN_le_left e0.top (r.y.getD j 0)
      have c2 := MIN_le_right e0.top (r.y.getD j 0)
      have c3 := le_MAX_left e0.bottom (r.y.getD j 0)
      have c4 := le_MAX_right e0.bottom (r.y.getD j 0)
      refine ⟨by linarith, by linarith, by linarith, by linarith, ?_, ?_, ?_⟩
      · intro k hk
        rcases List.mem_cons.1 hk with hk | hk
        · subst hk
          exact ⟨by linarith, by linarith, by linarith, by linarith⟩
        · exact a5 k hk
      · rcases a6 with a6 | ⟨k, hk, a6⟩
        · rcases MIN_eq e0.left (r.x.getD j 0) with m | m
          · exact Or.inl (by rw [a6, m])
          · exact Or.inr ⟨j, List.mem_cons_self _ _, by rw [a6, m]⟩
        · exact Or.inr ⟨k, List.mem_cons_of_mem _ hk, a6⟩
      · rcases a7 with a7 | ⟨k, hk, a7⟩
        · rcases MIN_eq e0.top (r.y.getD j 0) with m | m
          · exact Or.inl (by rw [a7, m])
          · exact Or.inr ⟨j, List.mem_cons_self _ _, by rw [a7, m]⟩
        · exact Or.inr ⟨k, List.mem_cons_of_mem _ hk, a7⟩

/-- What the loop of `VOTRegion::get` leaves in its four locals. -/
theorem Polygon.extent_spec (r : Polygon.vot_region) :
    (∀ j, j < r.count →
      (Polygon.VOTRegion.extent r).left ≤ r.x.getD j 0 ∧
      r.x.getD j 0 ≤ (Polygon.VOTRegion.extent r).right ∧
      (Polygon.VOTRegion.extent r).top ≤ r.y.getD j 0 ∧
      r.y.getD j 0 ≤ (Polygon.VOTRegion.extent r).bottom) ∧
    ((Polygon.VOTRegion.extent r).left = FLT_MAX ∨
      ∃ j, j < r.count ∧ (Polygon.VOTRegion.extent r).left = r.x.getD j 0) ∧
    ((Polygon.VOTRegion.extent r).top = FLT_MAX ∨
      ∃ j, j < r.count ∧ (Polygon.VOTRegion.extent r).top = r.y.getD j 0) := by
  obtain ⟨_, _, _, _, a5, a6, a7⟩ := Polygon.extent_fold r (List.range r.count)
    { top := FLT_MAX, bottom := FLT_MIN, left := FLT_MAX, right := FLT_MIN }
    (Polygon.VOTRegion.extent r) rfl
  refine ⟨fun j hj => a5 j (List.mem_range.2 hj), ?_, ?_⟩
  · rcases a6 with a6 | ⟨j, hj, a6⟩
    · exact Or.inl a6
    · exact Or.inr ⟨j, List.mem_range.1 hj, a6⟩
  · rcases a7 with a7 | ⟨j, hj, a7⟩
    · exact Or.inl a7
    · exact Or.inr ⟨j, List.mem_range.1 hj, a7⟩

/-- Inside the range of `int` the conversion is the truncation toward zero. -/
theorem float_to_int_of_range (q : float) (h1 : (INT_MIN : ℚ) ≤ q)
    (h2 : q < (INT_MAX : ℚ) + 1) :
    float_to_int q = if 0 ≤ q then ⌊q⌋ else ⌈q⌉ := by
  unfold float_to_int
  simp only
  apply if_pos
  by_cases h0 : 0 ≤ q
  · rw [if_pos h0]
    constructor
    · exact le_trans (by decide) (Int.floor_nonneg.2 h0)
    · have : ⌊q⌋ < INT_MAX + 1 := Int.floor_lt.2 (by push_cast; exact h2)
      omega
  · rw [if_neg h0]
    constructor
    · have : ((INT_MIN : Int) : ℚ) ≤ ((⌈q⌉ : Int) : ℚ) := le_trans h1 (Int.le_ceil q)
      exact_mod_cast this
    · have : ⌈q⌉ ≤ 0 := Int.ceil_le.2 (by push_cast; linarith)
      exact le_trans this (by decide)

/-- Truncation keeps a value that is not negative and fits `int` from
becoming negative. -/
theorem float_to_int_nonneg (q : float) (h : 0 ≤ q) (h2 : q < (INT_MAX : ℚ) + 1) :
    0 ≤ float_to_int q := by
  rw [float_to_int_of_range q (le_trans (by norm_num [INT_MIN]) h) h2, if_pos h]
  exact Int.floor_nonneg.2 h

/-- Truncation toward zero does not go above a value in the range of `int`
that is not negative or is whole. -/
theorem float_to_int_le (q : float) (h1 : (INT_MIN : ℚ) ≤ q) (h2 : q < (INT_MAX : ℚ) + 1)
    (h : q < 0 → ∃ n : Int, q = n) :
    ((float_to_int q : Int) : ℚ) ≤ q := by
  rw [float_to_int_of_range q h1 h2]
  by_cases h0 : 0 ≤ q
  · rw [if_pos h0]
    exact Int.floor_le q
  · rw [if_neg h0]
    obtain ⟨n, hn⟩ := h (by linarith)
    rw [hn, Int.ceil_intCast]

/-- Truncation toward zero of a value in the range of `int` stays less than 1
above the value. -/
theorem float_to_int_lt (q : float) (h1 : (INT_MIN : ℚ) ≤ q) (h2 : q < (INT_MAX : ℚ) + 1) :
    ((float_to_int q : Int) : ℚ) < q + 1 := by
  rw [float_to_int_of_range q h1 h2]
  split
  · have := Int.floor_le q
    linarith
  · exact Int.ceil_lt_add_one q

/-- The constant `FLT_MAX` is positive. -/
theorem FLT_MAX_nonneg : 0 ≤ FLT_MAX := by
  norm_num [FLT_MAX]

/-- The region after `set (rectangle)`: 4 points, the coordinates being the
`int` values `x`, `y` and the `int` sums `x + width`, `y + height` converted
to `float`. -/
theorem Polygon.set_rect_corners (region : Polygon.vot_region) (rectangle : Rect) (hwf : region.wf) :
    Polygon.VOTRegion.set_rect region rectangle =
      Except.ok
        { x := [int_to_float rectangle.x, int_to_float (int_add rectangle.x rectangle.width),
                int_to_float (int_add rectangle.x rectangle.width), int_to_float rectangle.x]
          y := [int_to_float rectangle.y, int_to_float rectangle.y,
                int_to_float (int_add rectangle.y rectangle.height),
                int_to_float (int_add rectangle.y rectangle.height)]
          count := 4 } := by
  have key : ∀ t : Polygon.vot_region, t.count = 4 → t.wf →
      (do
        let t ← Polygon.VOTRegion.set t 0 (int_to_float rectangle.x) (int_to_float rectangle.y)
        let t ← Polygon.VOTRegion.set t 1 (int_to_float (int_add rectangle.x rectangle.width))
          (int_to_float rectangle.y)
        let t ← Polygon.VOTRegion.set t 2 (int_to_float (int_add rectangle.x rectangle.width))
          (int_to_float (int_add rectangle.y rectangle.height))
        Polygon.VOTRegion.set t 3 (int_to_float rectangle.x)
          (int_to_float (int_add rectangle.y rectangle.height))) =
      Except.ok
        { x := [int_to_float rectangle.x, int_to_float (int_add rectangle.x rectangle.width),
                int_to_float (int_add rectangle.x rectangle.width), int_to_float rectangle.x]
          y := [int_to_float rectangle.y, int_to_float rectangle.y,
                int_to_float (int_add rectangle.y rectangle.height),
                int_to_float (int_add rectangle.y rectangle.height)]
          count := 4 } := by
    intro t hc hw
    obtain ⟨tx, ty, tc⟩ := t
    simp only at hc
    subst hc
    obtain ⟨h1, h2⟩ := hw
    simp only at h1 h2
    match tx, h1, ty, h2 with
    | [a, b, c, d], _, [e, f, g, h], _ =>
        simp [Polygon.VOTRegion.set, bind, Except.bind]
  unfold Polygon.VOTRegion.set_rect
  split
  · exact key _ rfl (Polygon.vot_region_create_wf 4)
  · rename_i h
    exact key region (by simpa using h) hwf

/-- The macro `MAX` returns one of its arguments. -/
theorem MAX_eq (a b : float) : MAX a b = a ∨ MAX a b = b := by
  unfold MAX; split <;> simp

/-- The macro `MAX` on a second argument that is not below the first. -/
theorem MAX_of_le (a b : float) (h : a ≤ b) : MAX a b = b := by
  unfold MAX
  split
  · rfl
  · linarith

/-- The macro `MAX` on a second argument that is not above the first. -/
theorem MAX_of_ge (a b : float) (h : b ≤ a) : MAX a b = a := by
  unfold MAX
  split
  · linarith
  · rfl

/-- The loop of `VOTRegion::get` over the indices `l`: `right` and `bottom`
end at their start or at a coordinate met. -/
theorem Polygon.extent_fold_upper (r : Polygon.vot_region) :
    ∀ (l : List Nat) (e0 e : Polygon.Extent),
      l.foldl (fun e j =>
          ({ top := MIN e.top (r.y.getD j 0)
             bottom := MAX e.bottom (r.y.getD j 0)
             left := MIN e.left (r.x.getD j 0)
             right := MAX e.right (r.x.getD j 0) } : Polygon.Extent)) e0 = e →
      (e.right = e0.right ∨ ∃ j ∈ l, e.right = r.x.getD j 0) ∧
      (e.bottom = e0.bottom ∨ ∃ j ∈ l, e.bottom = r.y.getD j 0) := by
  intro l
  induction l with
  | nil =>
      intro e0 e h
      simp only [List.foldl_nil] at h
      subst h
      simp
  | cons j t ih =>
      intro e0 e h
      rw [List.foldl_cons] at h
      obtain ⟨a1, a2⟩ := ih _ e h
      simp only at a1 a2
      constructor
      · rcases a1 with a1 | ⟨k, hk, a1⟩
        · rcases MAX_eq e0.right (r.x.getD j 0) with m | m
          · exact Or.inl (by rw [a1, m])
          · exact Or.inr ⟨j, List.mem_cons_self _ _, by rw [a1, m]⟩
        · exact Or.inr ⟨k, List.mem_cons_of_mem _ hk, a1⟩
      · rcases a2 with a2 | ⟨k, hk, a2⟩
        · rcases MAX_eq e0.bottom (r.y.getD j 0) with m | m
          · exact Or.inl (by rw [a2, m])
          · exact Or.inr ⟨j, List.mem_cons_self _ _, by rw [a2, m]⟩
        · exact Or.inr ⟨k, List.mem_cons_of_mem _ hk, a2⟩

/-- Among finitely many values, at least one, there is a greatest. -/
theorem exists_greatest (f : Nat → ℚ) :
    ∀ n, 1 ≤ n → ∃ j, j < n ∧ ∀ k, k < n → f k ≤ f j := by
  intro n
  induction n with
  | zero => intro h; omega
  | succ n ih =>
      intro _
      by_cases hn : 1 ≤ n
      · obtain ⟨j, hj, hmax⟩ := ih hn
        by_cases hc : f n ≤ f j
        · refine ⟨j, by omega, ?_⟩
          intro k hk
          by_cases hkn : k = n
          · rw [hkn]; exact hc
          · exact hmax k (by omega)
        · refine ⟨n, by omega, ?_⟩
          intro k hk
          by_cases hkn : k = n
          · rw [hkn]
          · exact le_trans (hmax k (by omega)) (by linarith)
      · refine ⟨0, by omega, ?_⟩
        intro k hk
        have : k = 0 := by omega
        rw [this]

/-- The locals of `VOTRegion::get` after the loop, on a polygon with a point
and no coordinate above `FLT_MAX`: `left` and `top` are the least `x` and `y`;
`right` and `bottom` are the greatest `x` and `y`, but not less than
`FLT_MIN`, the value they start from. -/
theorem Polygon.extent_values (r : Polygon.vot_region) (h1 : 1 ≤ r.count)
    (hx : ∀ j, j < r.count → r.x.getD j 0 ≤ FLT_MAX)
    (hy : ∀ j, j < r.count → r.y.getD j 0 ≤ FLT_MAX) :
    ∃ jl jr jt jb, jl < r.count ∧ jr < r.count ∧ jt < r.count ∧ jb < r.count ∧
      (∀ k, k < r.count →
        r.x.getD jl 0 ≤ r.x.getD k 0 ∧ r.x.getD k 0 ≤ r.x.getD jr 0 ∧
        r.y.getD jt 0 ≤ r.y.getD k 0 ∧ r.y.getD k 0 ≤ r.y.getD jb 0) ∧
      (Polygon.VOTRegion.extent r).left = r.x.getD jl 0 ∧
      (Polygon.VOTRegion.extent r).right = MAX FLT_MIN (r.x.getD jr 0) ∧
      (Polygon.VOTRegion.extent r).top = r.y.getD jt 0 ∧
      (Polygon.VOTRegion.extent r).bottom = MAX FLT_MIN (r.y.getD jb 0) := by
  obtain ⟨hb, hl, ht⟩ := Polygon.extent_spec r
  obtain ⟨c1, c2, _, c4, _, _, _⟩ := Polygon.extent_fold r (List.range r.count)
    { top := FLT_MAX, bottom := FLT_MIN, left := FLT_MAX, right := FLT_MIN }
    (Polygon.VOTRegion.extent r) rfl
  obtain ⟨hr, hbt⟩ := Polygon.extent_fold_upper r (List.range r.count)
    { top := FLT_MAX, bottom := FLT_MIN, left := FLT_MAX, right := FLT_MIN }
    (Polygon.VOTRegion.extent r) rfl
  simp only at c1 c2 c4 hr hbt
  -- the least x
  have hleft : ∃ jl, jl < r.count ∧ (Polygon.VOTRegion.extent r).left = r.x.getD jl 0 := by
    rcases hl with e | ⟨j, hj, e⟩
    · exact ⟨0, by omega, le_antisymm (hb 0 (by omega)).1 (by rw [e]; exact hx 0 (by omega))⟩
    · exact ⟨j, hj, e⟩
  have htop : ∃ jt, jt < r.count ∧ (Polygon.VOTRegion.extent r).top = r.y.getD jt 0 := by
    rcases ht with e | ⟨j, hj, e⟩
    · exact ⟨0, by omega,
        le_antisymm (hb 0 (by omega)).2.2.1 (by rw [e]; exact hy 0 (by omega))⟩
    · exact ⟨j, hj, e⟩
  have hright : ∃ jr, jr < r.count ∧ (∀ k, k < r.count → r.x.getD k 0 ≤ r.x.getD jr 0) ∧
      (Polygon.VOTRegion.extent r).right = MAX FLT_MIN (r.x.getD jr 0) := by
    rcases hr with e | ⟨j, hj, e⟩
    · obtain ⟨jr, hjr, hmax⟩ := exists_greatest (fun k => r.x.getD k 0) r.count h1
      refine ⟨jr, hjr, hmax, ?_⟩
      rw [e, MAX_of_ge]
      rw [← e]
      exact (hb jr hjr).2.1
    · refine ⟨j, List.mem_range.1 hj, ?_, ?_⟩
      · intro k hk
        rw [← e]
        exact (hb k hk).2.1
      · rw [MAX_of_le _ _ (by rw [← e]; exact c2)]
        exact e
  have hbottom : ∃ jb, jb < r.count ∧ (∀ k, k < r.count → r.y.getD k 0 ≤ r.y.getD jb 0) ∧
      (Polygon.VOTRegion.extent r).bottom = MAX FLT_MIN (r.y.getD jb 0) := by
    rcases hbt with e | ⟨j, hj, e⟩
    · obtain ⟨jb, hjb, hmax⟩ := exists_greatest (fun k => r.y.getD k 0) r.count h1
      refine ⟨jb, hjb, hmax, ?_⟩
      rw [e, MAX_of_ge]
      rw [← e]
      exact (hb jb hjb).2.2.2
    · refine ⟨j, List.mem_range.1 hj, ?_, ?_⟩
      · intro k hk
        rw [← e]
        exact (hb k hk).2.2.2
      · rw [MAX_of_le _ _ (by rw [← e]; exact c4)]
        exact e
  obtain ⟨jl, hjl, el⟩ := hleft
  obtain ⟨jt, hjt, et⟩ := htop
  obtain ⟨jr, hjr, hmr, er⟩ := hright
  obtain ⟨jb, hjb, hmb, eb⟩ := hbottom
  refine ⟨jl, jr, jt, jb, hjl, hjr, hjt, hjb, ?_, el, er, et, eb⟩
  intro k hk
  exact ⟨by rw [← el]; exact (hb k hk).1, hmr k hk, by rw [← et]; exact (hb k hk).2.2.1,
    hmb k hk⟩

end RegionLemmas

/-! ## Shared lemmas on the heap -/

section HeapLemmas

open Heap

theorem Heap.store_cells (m : Memory) (p : Nat) (b : Block) (q : Nat) :
    (store m p b).cells q = if q = p then some b else m.cells q := by
  simp only [store, Function.update_apply]

theorem Heap.free_cells (m : Memory) (p q : Nat) :
    (free m p).cells q = if q = p then none else m.cells q := by
  simp only [free, Function.update_apply]

theorem Heap.store_next (m : Memory) (p : Nat) (b : Block) : (store m p b).next = m.next := rfl

theorem Heap.free_next (m : Memory) (p : Nat) : (free m p).next = m.next := rfl

theorem Heap.Frame.refl (m : Memory) (S : List Nat) : Frame m m S :=
  ⟨fun _ _ _ => rfl, le_refl _⟩

/-- Frames compose: what the second call touches among the old blocks must be
allowed to the whole. -/
theorem Heap.Frame.trans {m m1 m2 : Memory} {S S' : List Nat}
    (h1 : Frame m m1 S) (h2 : Frame m1 m2 S')
    (hS : ∀ q ∈ S', q < m.next → q ∈ S) : Frame m m2 S := by
  refine ⟨?_, le_trans h1.2 h2.2⟩
  intro q hq hn
  rw [h2.1 q (lt_of_lt_of_le hq h1.2) (fun hin => hn (hS q hin hq)), h1.1 q hq hn]

theorem Heap.Frame.store (m : Memory) (p : Nat) (b : Block) (S : List Nat) (hp : p ∈ S) :
    Frame m (store m p b) S := by
  refine ⟨?_, le_refl _⟩
  intro q _ hn
  rw [Heap.store_cells]
  have : q ≠ p := fun h => hn (h ▸ hp)
  simp [this]

theorem Heap.Frame.free (m : Memory) (p : Nat) (S : List Nat) (hp : p ∈ S) :
    Frame m (free m p) S := by
  refine ⟨?_, le_refl _⟩
  intro q _ hn
  rw [Heap.free_cells]
  have : q ≠ p := fun h => hn (h ▸ hp)
  simp [this]

/-- A region whose three blocks a call leaves alone is the same region after
the call. -/
theorem Heap.Rep.frame {m m' : Memory} {p px py : Nat} {v : Polygon.vot_region}
    {S : List Nat} (h : Rep m p px py v) (hf : Frame m m' S)
    (h1 : p ∉ S) (h2 : px ∉ S) (h3 : py ∉ S) : Rep m' p px py v := by
  obtain ⟨a1, a2, a3⟩ := h.allocated
  exact
    { region := by rw [hf.1 p a1 h1]; exact h.region
      xs := by rw [hf.1 px a2 h2]; exact h.xs
      ys := by rw [hf.1 py a3 h3]; exact h.ys
      distinct := h.distinct
      allocated := ⟨lt_of_lt_of_le a1 hf.2, lt_of_lt_of_le a2 hf.2, lt_of_lt_of_le a3 hf.2⟩ }

theorem Heap.Rep.load_region {m : Memory} {p px py : Nat} {v : Polygon.vot_region}
    (h : Rep m p px py v) : load_region m p = some (px, py, v.count) := by
  simp [Heap.load_region, h.region]

theorem Heap.Rep.load_xs {m : Memory} {p px py : Nat} {v : Polygon.vot_region}
    (h : Rep m p px py v) : load_floats m px = some v.x := by
  simp [Heap.load_floats, h.xs]

theorem Heap.Rep.load_ys {m : Memory} {p px py : Nat} {v : Polygon.vot_region}
    (h : Rep m p px py v) : load_floats m py = some v.y := by
  simp [Heap.load_floats, h.ys]

/-- A valid pointer reads as the region it stands for. -/
theorem Heap.Rep.view {m : Memory} {p px py : Nat} {v : Polygon.vot_region}
    (h : Rep m p px py v) : view m p = some v := by
  simp [Heap.view, h.load_region, h.load_xs, h.load_ys]

/-- `vot_region_create`: three new blocks after everything handed out so
far. -/
theorem Heap.vot_region_create_spec (n : Nat) (m : Memory) :
    (vot_region_create n m).1 = m.next ∧
    Rep (vot_region_create n m).2 m.next (m.next + 1) (m.next + 2)
      (Polygon.vot_region_create n) ∧
    Frame m (vot_region_create n m).2 [] ∧
    (vot_region_create n m).2.next = m.next + 3 := by
  refine ⟨rfl, ?_, ?_, rfl⟩
  · exact
      { region := by
          simp [Heap.vot_region_create, Heap.malloc, Heap.store, Polygon.vot_region_create]
        xs := by
          simp [Heap.vot_region_create, Heap.malloc, Heap.store, Polygon.vot_region_create,
            Function.update_apply]
        ys := by
          simp [Heap.vot_region_create, Heap.malloc, Heap.store, Polygon.vot_region_create,
            Function.update_apply]
        distinct := by omega
        allocated := by
          simp only [Heap.vot_region_create, Heap.malloc, Heap.store]
          omega }
  · refine ⟨?_, ?_⟩
    · intro q hq _
      have h0 : q ≠ m.next := by omega
      have h1 : q ≠ m.next + 1 := by omega
      have h2 : q ≠ m.next + 1 + 1 := by omega
      simp [Heap.vot_region_create, Heap.malloc, Heap.store, Function.update_apply, h0, h1, h2]
    · simp only [Heap.vot_region_create, Heap.malloc, Heap.store]
      omega

theorem Heap.load_region_iff (m : Memory) (p x y c : Nat) :
    load_region m p = some (x, y, c) ↔ m.cells p = some (Block.region x y c) := by
  unfold Heap.load_region
  cases h : m.cells p with
  | none => simp
  | some b => cases b <;> simp

theorem Heap.load_floats_iff (m : Memory) (p : Nat) (d : List float) :
    load_floats m p = some d ↔ m.cells p = some (Block.floats d) := by
  unfold Heap.load_floats
  cases h : m.cells p with
  | none => simp
  | some b => cases b <;> simp

/-- A `set (i, x, y)` that returns has written to the two arrays of the
region and to nothing else. -/
theorem Heap.set_ok {m m' : Memory} {p px py c : Nat} {i : Int} {x y : float}
    (h : VOTRegion.set p i x y m = Except.ok m')
    (hl : load_region m p = some (px, py, c)) :
    load_region m' p = some (px, py, c) ∧ Frame m m' [px, py] ∧ m'.next = m.next := by
  unfold Heap.VOTRegion.set at h
  rw [hl] at h
  simp only at h
  split at h
  · cases h
  · cases hx : load_floats m px with
    | none => rw [hx] at h; cases h
    | some xs =>
        rw [hx] at h
        simp only at h
        cases hy : load_floats (store m px (Block.floats (xs.set i.toNat x))) py with
        | none => rw [hy] at h; cases h
        | some ys =>
            rw [hy] at h
            simp only at h
            have e := Except.ok.inj h
            subst e
            have cp := (Heap.load_region_iff _ _ _ _ _).1 hl
            have cx := (Heap.load_floats_iff _ _ _).1 hx
            have cy := (Heap.load_floats_iff _ _ _).1 hy
            have n1 : p ≠ px := by
              intro e
              rw [e, cx] at cp
              cases cp
            have n2 : p ≠ py := by
              intro e
              rw [← e, Heap.store_cells, if_neg n1, cp] at cy
              cases cy
            refine ⟨?_, ?_, rfl⟩
            · rw [Heap.load_region_iff, Heap.store_cells, if_neg n2, Heap.store_cells,
                if_neg n1]
              exact cp
            · exact Heap.Frame.trans (Heap.Frame.store m px _ [px, py] (by simp))
                (Heap.Frame.store _ py _ [px, py] (by simp)) (fun q hq _ => hq)

/-- The loop of the copy assignment, when it returns, has written to the two
arrays of the target and to nothing else. -/
theorem Heap.assign_points_frame (source p px py c : Nat) :
    ∀ (n i : Nat) (m m' : Memory), assign_points source p n i m = Except.ok m' →
      load_region m p = some (px, py, c) →
      load_region m' p = some (px, py, c) ∧ Frame m m' [px, py] ∧ m'.next = m.next := by
  intro n
  induction n with
  | zero =>
      intro i m m' h hl
      have e := Except.ok.inj h
      subst e
      exact ⟨hl, Heap.Frame.refl _ _, rfl⟩
  | succ n ih =>
      intro i m m' h hl
      unfold Heap.assign_points at h
      split at h
      · rename_i x y _ _
        split at h
        · rename_i m1 hs
          obtain ⟨a1, a2, a3⟩ := Heap.set_ok hs hl
          obtain ⟨b1, b2, b3⟩ := ih (i + 1) m1 m' h a1
          exact ⟨b1, Heap.Frame.trans a2 b2 (fun q hq _ => hq), by rw [b3, a3]⟩
        · cases h
      · cases h

/-- `vot_region_release`, when it returns, has freed the three blocks of the
region. -/
theorem Heap.release_frame {m m' : Memory} {p px py c : Nat}
    (h : vot_region_release p m = Except.ok m')
    (hl : load_region m p = some (px, py, c)) :
    Frame m m' [p, px, py] ∧ m'.next = m.next := by
  unfold Heap.vot_region_release at h
  rw [hl] at h
  have e := Except.ok.inj h
  subst e
  refine ⟨?_, rfl⟩
  exact Heap.Frame.trans
    (Heap.Frame.trans (Heap.Frame.free m px [p, px, py] (by simp))
      (Heap.Frame.free _ py [p, px, py] (by simp)) (fun q hq _ => hq))
    (Heap.Frame.free _ p [p, px, py] (by simp)) (fun q hq _ => hq)

/-- A region made after a release: whatever is written to it later touches no
block that existed before. -/
theorem Heap.realloc_frame {m m0 : Memory} {p px py c : Nat} (n : Nat)
    (h : vot_region_release p m = Except.ok m0)
    (hl : load_region m p = some (px, py, c)) :
    load_region (vot_region_create n m0).2 (vot_region_create n m0).1 =
      some (m.next + 1, m.next + 2, n) ∧
    Frame m (vot_region_create n m0).2 [p, px, py] ∧
    (vot_region_create n m0).2.next = m.next + 3 := by
  obtain ⟨f0, n0⟩ := Heap.release_frame h hl
  obtain ⟨c1, c2, c3, c4⟩ := Heap.vot_region_create_spec n m0
  rw [n0] at c2 c4
  refine ⟨?_, Heap.Frame.trans f0 c3 (fun q hq _ => by simp at hq), c4⟩
  rw [c1, n0]
  have := c2.load_region
  simpa [Polygon.vot_region_create] using this

/-- The copy assignment, when it returns, has touched the three blocks of the
target and blocks made during the call, and nothing else. -/
theorem Heap.assign_frame {m m' : Memory} {p p' source px py c : Nat}
    (h : VOTRegion.assign p source m = Except.ok (p', m'))
    (hl : load_region m p = some (px, py, c)) :
    Frame m m' [p, px, py] := by
  unfold Heap.VOTRegion.assign at h
  split at h
  · have e := (Prod.mk.inj (Except.ok.inj h)).2
    subst e
    exact Heap.Frame.refl _ _
  · rw [hl] at h
    cases hs : load_region m source with
    | none => simp [hs] at h
    | some t =>
      obtain ⟨sx, sy, sc⟩ := t
      simp only [hs] at h
      by_cases hc : c = sc
      · subst hc
        simp only [ne_eq, not_true_eq_false, if_false] at h
        cases ha : assign_points source p c 0 m with
        | error f => simp [ha] at h
        | ok m1 =>
          simp only [ha] at h
          have e := (Prod.mk.inj (Except.ok.inj h)).2
          subst e
          obtain ⟨_, f, _⟩ := Heap.assign_points_frame source p px py c c 0 m _ ha hl
          refine Heap.Frame.trans (Heap.Frame.refl m [p, px, py]) f ?_
          intro a ha _
          simp at ha ⊢
          rcases ha with ha | ha <;> simp [ha]
      · simp only [ne_eq, hc, not_false_eq_true, if_true] at h
        cases hr : vot_region_release p m with
        | error f => simp [hr] at h
        | ok m0 =>
          simp only [hr] at h
          obtain ⟨l0, f0, _⟩ := Heap.realloc_frame sc hr hl
          cases ha : assign_points source (vot_region_create sc m0).1 sc 0
              (vot_region_create sc m0).2 with
          | error f => simp [ha] at h
          | ok m1 =>
            simp only [ha] at h
            have e := (Prod.mk.inj (Except.ok.inj h)).2
            subst e
            obtain ⟨_, f, _⟩ := Heap.assign_points_frame source _ _ _ sc sc 0 _ _ ha l0
            refine Heap.Frame.trans f0 f ?_
            intro a ha hlt
            simp at ha
            omega

end HeapLemmas

/-! ## Shared lemmas on the three builds -/

section BuildLemmas

variable {W R T : Type}

/-- In the rectangle build a copy equals its original. -/
theorem Box.box_copy_eq (region : Box.vot_region) :
    Box.vot_region_copy region = region := rfl

/-- In the three builds the copy of a decoded object is the decoded object. -/
theorem copy_of_decoded (bytes : Nat → Nat) :
    (∀ w, Box.mode.vot_region_copy (Box.mode._trax_to_region w) = Box.mode._trax_to_region w) ∧
    (∀ w, Polygon.mode.vot_region_copy (Polygon.mode._trax_to_region w) =
      Polygon.mode._trax_to_region w) ∧
    (∀ w, (Mask.mode bytes).vot_region_copy ((Mask.mode bytes)._trax_to_region w) =
      (Mask.mode bytes)._trax_to_region w) :=
  ⟨fun _ => Box.box_copy_eq _,
   fun w => Polygon.polygon_copy_eq _ (Polygon.polygon_of_trax_wf w),
   fun w => Mask.mask_copy_eq bytes _ (Mask.mask_of_trax_wf bytes w)⟩

/-- The handshake on an `Initialize` with at most `VOT_MAX_OBJECTS` objects,
in a build whose copy of a decoded object is that object: the array holds the
decodings, then `NULL`s; nothing is stored outside of it; `VOT::objects ()`
returns the decodings. -/
theorem vot_initialize_objects (M : RegionMode W R) (s : VOT W R) (image : trax_image_list)
    (objects : trax_object_list W) (rest : List (Message W))
    (h0 : s._trax_handle = none) (hp : s.wire.pending = Message.init image objects :: rest)
    (h100 : objects.length ≤ VOT_MAX_OBJECTS)
    (hcopy : ∀ w, M.vot_region_copy (M._trax_to_region w) = M._trax_to_region w) :
    ∃ s1, vot_initialize M s = Except.ok (s1._objects, s1) ∧
      s1._objects = objects.map (fun o => some (M._trax_to_region o.region)) ++
        List.replicate (VOT_MAX_OBJECTS - objects.length) none ∧
      s1.overrun = s.overrun ∧
      VOT.objects M s1 = objects.map (fun o => M._trax_to_region o.region) := by
  have h := vot_initialize_init M s image objects rest h0 hp
  refine ⟨_, h, ?_, ?_, ?_⟩
  · rw [store_objects_zero M objects _ rfl, List.take_of_length_le h100, List.map_map]
    rfl
  · rw [store_objects_inside M objects 0 _ (by omega)]
  · rw [objects_after_init M objects _ rfl, List.take_of_length_le h100]
    exact List.map_congr_left (fun o _ => hcopy o.region)

end BuildLemmas

/-! ## C1: the runner and the end of the sequence -/

section C1

variable {W R T : Type}

/-- C1 (evaluation of the code): on every harness script `Initialize,
Frame × k, End` the program aborts in `VOT::report`: the cycle that receives
`End` still calls `update` on every tracker (one per initial object, at most
`VOT_MAX_OBJECTS`), on the empty image, and then `report`, all on the ended
session. In all `report` is called `k + 1` times, the last call being made
after the end of the session; `k` of them reach the transport (which has then
received `k + 1` replies, the first being the echo of `vot_initialize`). -/
theorem run_reports_on_ended_session (M : RegionMode W R) (C : TrackerClass R T)
    (image0 : trax_image_list) (objects : trax_object_list W)
    (frames : List trax_image_list) :
    ∃ m : VOTManager W R T,
      main M C (fresh (script image0 objects frames)) = some (Except.error ⟨m⟩) ∧
      m._vot._trax_handle = none ∧
      (reports m.calls).length = frames.length + 1 ∧
      (∃ state, m.calls.getLast? = some (Call.report state true)) ∧
      (∃ (before : List (Call R)) (trackers : List T),
        m.calls = before ++ cycle_calls C ⟨""⟩ true trackers ∧
        trackers.length = min VOT_MAX_OBJECTS objects.length) ∧
      m._vot.wire.sent.length = frames.length + 1 := by
  obtain ⟨s1, m, hi, hm, e1, e2, e3⟩ := main_script M C image0 objects frames
  refine ⟨m, hm, e1, ?_, ?_, ?_, e3⟩
  · rw [e2, reports_script_calls]
  · rw [e2]; exact script_calls_getLast C frames _
  · obtain ⟨before, trackers, h, hl⟩ :=
      script_calls_suffix C frames ((VOT.objects M s1).map (C.create ⟨image0.color⟩))
    refine ⟨before, trackers, by rw [e2, h], ?_⟩
    have h0 := vot_initialize_init M (fresh (script image0 objects frames)) image0 objects
      (frames.map (fun f => Message.frame f []) ++ [Message.quit]) rfl rfl
    rw [h0] at hi
    have e := (Prod.mk.inj (Except.ok.inj hi)).2
    rw [hl, ← e, objects_after_init M objects _ rfl]
    simp

/-- The scenario of the specification (one rectangle, one frame) under an
arbitrary tracker: the calls `run` makes, in order. -/
theorem run_scenario_calls (C : TrackerClass Box.vot_region T) :
    ∃ (m : VOTManager Box.trax_region Box.vot_region T) (r1 r2 : Box.vot_region),
      main Box.mode C (fresh (script ⟨"f1.png"⟩ [box_object] [⟨"f2.png"⟩])) =
        some (Except.error ⟨m⟩) ∧
      m.calls =
        [Call.update 0 ⟨"f2.png"⟩ false, Call.report [r1] false,
         Call.update 0 ⟨""⟩ true, Call.report [r2] true] :=
  ⟨_, _, _, rfl, rfl⟩

end C1

/-! ## C2: more objects than `VOT_MAX_OBJECTS` -/

section C2

variable {W R : Type}

/-- C2 (evaluation of the code): on an initialization message with more than
`VOT_MAX_OBJECTS` objects `vot_initialize` does not fail: it returns normally
with the transport handle still held and no `trax_cleanup` made, after having
stored object 100 at `_objects[100]`, outside the array. -/
theorem vot_initialize_stores_past_array (M : RegionMode W R) (s : VOT W R)
    (image : trax_image_list) (objects : trax_object_list W) (rest : List (Message W))
    (o : trax_object W)
    (h0 : s._trax_handle = none) (hp : s.wire.pending = Message.init image objects :: rest)
    (ho : objects.get? VOT_MAX_OBJECTS = some o) :
    ∃ objs s', vot_initialize M s = Except.ok (objs, s') ∧
      s'._trax_handle = some trax_handle.server ∧
      s'.wire.cleanups = s.wire.cleanups ∧
      (VOT_MAX_OBJECTS, M._trax_to_region o.region) ∈ s'.overrun := by
  refine ⟨_, _, vot_initialize_init M s image objects rest h0 hp, ?_, ?_, ?_⟩
  · rw [store_objects_handle]
  · rw [store_objects_wire]
  · have := store_objects_overrun M objects 0
      { s with
        _vot_sequence_position := 0
        _vot_sequence_size := 0
        _trax_handle := some trax_handle.server
        _image := ⟨image.color⟩
        _objects := List.replicate VOT_MAX_OBJECTS none
        wire :=
          { s.wire with
            pending := rest
            waits := s.wire.waits + 1
            sent := s.wire.sent ++ [objects] } } VOT_MAX_OBJECTS o ho (by omega)
    simpa using this

/-- C2, at 101 rectangles: the hypotheses hold and the overrun happens. -/
theorem vot_initialize_stores_past_array_witness :
    ∃ objs s',
      vot_initialize Box.mode (fresh [Message.init ⟨"f1.png"⟩ (List.replicate 101 box_object)]) =
          Except.ok (objs, s') ∧
      s'._trax_handle = some trax_handle.server ∧
      s'.wire.cleanups = 0 ∧
      (VOT_MAX_OBJECTS, Box.mode._trax_to_region box_object.region) ∈ s'.overrun :=
  vot_initialize_stores_past_array Box.mode
    (fresh [Message.init ⟨"f1.png"⟩ (List.replicate 101 box_object)])
    ⟨"f1.png"⟩ (List.replicate 101 box_object) [] box_object rfl rfl rfl

end C2

/-! ## C3, C4: polygon and rectangle -/

section C3

/-- C3 (evaluation of the code): the rectangle `(-10, -10, 5, 5)` becomes the
four corners `(-10,-10) (-5,-10) (-5,-5) (-10,-5)`; `get` reads them back as
`(-10, -10, 10, 10)`, because `right` and `bottom` start at the positive
`FLT_MIN` and no coordinate exceeds it; the polygon made from that rectangle
has other corners than the first one. -/
theorem polygon_round_trip_negative :
    Polygon.VOTRegion.of_rect ⟨-10, -10, 5, 5⟩ =
      Except.ok ⟨[-10, -5, -5, -10], [-10, -10, -5, -5], 4⟩ ∧
    Polygon.VOTRegion.get_rect ⟨[-10, -5, -5, -10], [-10, -10, -5, -5], 4⟩ =
      ⟨-10, -10, 10, 10⟩ ∧
    Polygon.VOTRegion.of_rect ⟨-10, -10, 10, 10⟩ =
      Except.ok ⟨[-10, 0, 0, -10], [-10, -10, 0, 0], 4⟩ := by
  have a1 : int_to_float (-10) = -10 := by
    rw [int_to_float_small _ (by decide)]
    norm_num
  have a2 : int_to_float (-5) = -5 := by
    rw [int_to_float_small _ (by decide)]
    norm_num
  have a3 : int_to_float 0 = 0 := by
    rw [int_to_float_small _ (by decide)]
    norm_num
  have b1 : int_add (-10) 5 = -5 := by decide
  have b2 : int_add (-10) 10 = 0 := by decide
  refine ⟨?_, ?_, ?_⟩
  · norm_num [Polygon.VOTRegion.of_rect, Polygon.VOTRegion.set_rect, Polygon.VOTRegion.set,
      Polygon.vot_region_create, a1, a2, b1, bind, Except.bind, List.replicate, Int.toNat]
  · norm_num [Polygon.VOTRegion.get_rect, Polygon.VOTRegion.get_float,
      Polygon.VOTRegion.extent, List.range, List.range.loop, MIN, MAX, FLT_MIN, FLT_MAX,
      float_to_int, INT_MIN, INT_MAX, Int.ceil_neg]
  · norm_num [Polygon.VOTRegion.of_rect, Polygon.VOTRegion.set_rect, Polygon.VOTRegion.set,
      Polygon.vot_region_create, a1, a3, b2, bind, Except.bind, List.replicate, Int.toNat]

/-- C4 (evaluation of the code): for the triangle `(-3,-1) (-1,-4) (-2,-2)`
the values assigned by `get` are `x = -3`, `y = -4`, `width = FLT_MIN + 3`,
`height = FLT_MIN + 4` (3 and 4 once rounded to single precision), whereas
the tight bounding box has `width = -1 - (-3) = 2` and
`height = -1 - (-4) = 3`; as an integer rectangle the result is
`(-3, -4, 3, 4)`. -/
theorem polygon_extent_negative :
    Polygon.VOTRegion.get_float ⟨[-3, -1, -2], [-1, -4, -2], 3⟩ =
      (-3, -4, FLT_MIN + 3, FLT_MIN + 4) ∧
    FLT_MIN + 3 ≠ -1 - (-3) ∧ FLT_MIN + 4 ≠ -1 - (-4) ∧
    Polygon.VOTRegion.get_rect ⟨[-3, -1, -2], [-1, -4, -2], 3⟩ = ⟨-3, -4, 3, 4⟩ := by
  refine ⟨?_, ?_, ?_, ?_⟩
  · norm_num [Polygon.VOTRegion.get_float, Polygon.VOTRegion.extent, List.range,
      List.range.loop, MIN, MAX, FLT_MIN, FLT_MAX]
  · norm_num [FLT_MIN]
  · norm_num [FLT_MIN]
  · norm_num [Polygon.VOTRegion.get_rect, Polygon.VOTRegion.get_float,
      Polygon.VOTRegion.extent, List.range, List.range.loop, MIN, MAX, FLT_MIN, FLT_MAX,
      float_to_int, INT_MIN, INT_MAX, Int.ceil_neg]

end C3

/-! ## C5: messages that end the session -/

section C5

variable {W R : Type}

/-- The fixture `running_box` is the state the handshake and the first frame
request lead to. -/
theorem running_box_reached (pending : List (Message Box.trax_region)) :
    ( vot_initialize Box.mode (fresh (Message.init ⟨"f1.png"⟩ [box_object] :: pending))).bind
        (fun p => vot_frame p.2) =
      Except.ok (some ⟨"f1.png"⟩, running_box pending) :=
  rfl

/-- C5 (counterexample): a second `Initialize` that carries one rectangle.
`vot_frame` does not return `NULL` on a torn-down session: the assertion on
`_trax_objects` aborts the process, the handle still held, no `trax_cleanup`
made, the stored region still in its slot. -/
theorem vot_frame_second_init_aborts :
    (∃ f, vot_frame (running_box [Message.init ⟨"f9.png"⟩ [box_object]]) = Except.error f ∧
      f.state._trax_handle = some trax_handle.server ∧
      f.state.wire.cleanups = 0 ∧
      f.state._objects = (running_box [])._objects) ∧
    ∀ s', vot_frame (running_box [Message.init ⟨"f9.png"⟩ [box_object]]) ≠
      Except.ok (none, s') := by
  have h := vot_frame_objects (running_box [Message.init ⟨"f9.png"⟩ [box_object]])
    (Message.init ⟨"f9.png"⟩ [box_object]) [] (by decide) (by decide) rfl
    (by simp [Message.objects])
  refine ⟨⟨_, h, rfl, rfl, rfl⟩, ?_⟩
  intro s' hs
  rw [h] at hs
  cases hs

/-- C5 (amended): a message that is no new-frame message and carries no
object (End, a transport error, an `Initialize` without objects) makes
`vot_frame` tear the session down - handle released by one `trax_cleanup`,
every slot of `_objects` `NULL`, `end ()` true - and return `NULL`. -/
theorem vot_frame_tears_down (s : VOT W R) (msg : Message W) (rest : List (Message W))
    (h1 : s._trax_handle ≠ none) (h2 : s._vot_sequence_position ≠ 0)
    (hlen : s._objects.length = VOT_MAX_OBJECTS)
    (h3 : s.wire.pending = msg :: rest) (hf : msg.is_frame = false) (ho : msg.objects = []) :
    ∃ s', vot_frame s = Except.ok (none, s') ∧
      s'._trax_handle = none ∧
      s'.wire.cleanups = s.wire.cleanups + 1 ∧
      s'._objects = List.replicate VOT_MAX_OBJECTS none ∧
      VOT.end s' = true := by
  refine ⟨_, vot_frame_stop s msg rest h1 h2 h3 hf ho, vot_quit_handle _, ?_, ?_,
    VOT.end_of_ended _ (vot_quit_handle _)⟩
  · rw [vot_quit_running _ (by exact h1) (by exact hlen)]
  · rw [vot_quit_running _ (by exact h1) (by exact hlen)]

/-- C5 (amended), on the End message in the rectangle scenario. -/
theorem vot_frame_tears_down_witness :
    ∃ s', vot_frame (running_box [Message.quit]) = Except.ok (none, s') ∧
      s'._trax_handle = none ∧
      s'.wire.cleanups = (running_box [Message.quit]).wire.cleanups + 1 ∧
      s'._objects = List.replicate VOT_MAX_OBJECTS none ∧
      VOT.end s' = true :=
  vot_frame_tears_down (running_box [Message.quit]) Message.quit [] (by decide) (by decide)
    rfl rfl rfl rfl

end C5

/-! ## C6: the position counter -/

section C6

variable {W R : Type}

/-- C6 (counterexample): in the rectangle scenario, after the handshake, the
initial frame and one further frame the position is 1, not 2: the frame
request that received the new-frame message did not advance it. -/
theorem position_after_one_further_frame :
    ∃ s, ( vot_initialize Box.mode
          (fresh (script ⟨"f1.png"⟩ [box_object] [⟨"f2.png"⟩]))).bind
        (fun p => vot_frames 2 p.2) = Except.ok s ∧
      s._image = ⟨"f2.png"⟩ ∧
      s._vot_sequence_position = 1 :=
  ⟨_, rfl, rfl, rfl⟩

/-- C6 (amended): the position never decreases and only takes the values 0
and 1 - it is 0 after the handshake, and after the initial frame request and
`n` further frames (`0 ≤ n ≤ k` on a script with `k` frames) it is 1; any
frame request that returns leaves the position at least where it was. -/
theorem position_counter (M : RegionMode W R) (s : VOT W R) (image : trax_image_list)
    (objects : trax_object_list W) (frames : List trax_image_list)
    (rest : List (Message W))
    (h0 : s._trax_handle = none)
    (hp : s.wire.pending =
      Message.init image objects :: (frames.map (fun f => Message.frame f []) ++ rest)) :
    (∃ s1, vot_initialize M s = Except.ok (s1._objects, s1) ∧
      s1._vot_sequence_position = 0 ∧
      ∀ n, n ≤ frames.length →
        ∃ s2, vot_frames (n + 1) s1 = Except.ok s2 ∧ s2._vot_sequence_position = 1) ∧
    ∀ (a b : VOT W R) (r : Option vot_image), vot_frame a = Except.ok (r, b) →
      a._vot_sequence_position ≤ b._vot_sequence_position := by
  constructor
  · obtain ⟨s1, hi, a1, a2, _, a4, _⟩ := vot_initialize_running M s image objects _ h0 hp
    have hh : s1._trax_handle ≠ none := by simp [a1]
    refine ⟨s1, hi, a2, ?_⟩
    intro n hn
    obtain ⟨s2, e1, e2, _⟩ := vot_frames_frames n frames
      { s1 with _vot_sequence_position := 1 } rest hh (by simp) (by simp [a4]) hn
    refine ⟨s2, ?_, e2⟩
    simp only [vot_frames, vot_frame_first s1 hh a2]
    exact e1
  · intro a b r h
    rw [vot_frame_position a b r h]
    split
    · rename_i h0; rw [h0]; decide
    · exact le_refl _

/-- C6 (amended), in the rectangle scenario with two frames. -/
theorem position_counter_witness :
    (∃ s1, vot_initialize Box.mode
          (fresh (script ⟨"f1.png"⟩ [box_object] [⟨"f2.png"⟩, ⟨"f3.png"⟩])) =
        Except.ok (s1._objects, s1) ∧
      s1._vot_sequence_position = 0 ∧
      ∀ n, n ≤ [(⟨"f2.png"⟩ : trax_image_list), ⟨"f3.png"⟩].length →
        ∃ s2, vot_frames (n + 1) s1 = Except.ok s2 ∧ s2._vot_sequence_position = 1) ∧
    ∀ (a b : VOT Box.trax_region Box.vot_region) (r : Option vot_image),
      vot_frame a = Except.ok (r, b) →
      a._vot_sequence_position ≤ b._vot_sequence_position :=
  position_counter Box.mode (fresh (script ⟨"f1.png"⟩ [box_object] [⟨"f2.png"⟩, ⟨"f3.png"⟩]))
    ⟨"f1.png"⟩ [box_object] [⟨"f2.png"⟩, ⟨"f3.png"⟩] [Message.quit] rfl rfl

end C6

/-! ## C7: the ended session -/

section C7

variable {W R : Type}

/-- C7: on an ended session (`_trax_handle == NULL`, the state `vot_quit`
leaves) `vot_end` is true and `vot_frame`, `image`, and every form of
`report` fail on their first assertion: the process aborts in the very state
of the call, so no wait was made, no reply sent and nothing changed. -/
theorem ended_session_rejects (M : RegionMode W R) (s : VOT W R)
    (h : s._trax_handle = none) :
    vot_end s = 1 ∧ VOT.end s = true ∧
    vot_frame s = Except.error ⟨s⟩ ∧
    VOT.image s = Except.error ⟨s⟩ ∧
    (∀ objects, vot_report M objects s = Except.error ⟨s⟩) ∧
    (∀ objects, VOT.report M objects s = Except.error ⟨s⟩) ∧
    (∀ region, vot_report_single M region s = Except.error ⟨s⟩) ∧
    (∀ region confidence, vot_report2 M region confidence s = Except.error ⟨s⟩) := by
  refine ⟨by simp [vot_end, h], VOT.end_of_ended s h, vot_frame_ended s h, ?_, ?_, ?_, ?_, ?_⟩
  · simp [VOT.image, vot_frame_ended s h]
  · intro objects; simp [vot_report, h]
  · intro objects; exact VOT.report_ended M objects s h
  · intro region; simp [vot_report_single, h]
  · intro region confidence; simp [vot_report2, h]

/-- C7, on the session of the rectangle scenario after `vot_quit`. -/
theorem ended_session_rejects_witness :
    vot_end (vot_quit (running_box [])) = 1 ∧ VOT.end (vot_quit (running_box [])) = true ∧
    vot_frame (vot_quit (running_box [])) = Except.error ⟨vot_quit (running_box [])⟩ ∧
    VOT.image (vot_quit (running_box [])) = Except.error ⟨vot_quit (running_box [])⟩ ∧
    (∀ objects, vot_report Box.mode objects (vot_quit (running_box [])) =
      Except.error ⟨vot_quit (running_box [])⟩) ∧
    (∀ objects, VOT.report Box.mode objects (vot_quit (running_box [])) =
      Except.error ⟨vot_quit (running_box [])⟩) ∧
    (∀ region, vot_report_single Box.mode region (vot_quit (running_box [])) =
      Except.error ⟨vot_quit (running_box [])⟩) ∧
    (∀ region confidence, vot_report2 Box.mode region confidence (vot_quit (running_box [])) =
      Except.error ⟨vot_quit (running_box [])⟩) :=
  ended_session_rejects Box.mode (vot_quit (running_box [])) rfl

end C7

/-! ## C8: what a report sends -/

section C8

variable {W R : Type}

/-- C8 (counterexample): 101 regions are reported and the reply holds 100
wire regions. -/
theorem report_of_101_regions :
    ∃ s', VOT.report Box.mode (List.replicate 101 Box.vot_region_create) (running_box []) =
        Except.ok ((), s') ∧
      s'.wire.sent.map List.length = [1, 100] :=
  ⟨_, rfl, rfl⟩

/-- C8 (amended): `report` on a running session sends one reply; it holds
the encodings of the first `VOT_MAX_OBJECTS` reported regions, in order and
without properties - all of them when at most 100 regions are reported. -/
theorem report_sends_encodings (M : RegionMode W R) (objects : List R) (s : VOT W R)
    (h : s._trax_handle ≠ none) :
    ∃ s', VOT.report M objects s = Except.ok ((), s') ∧
      s'.wire.sent = s.wire.sent ++
        [(objects.take VOT_MAX_OBJECTS).map (fun r => ⟨M._region_to_trax r, []⟩)] ∧
      (objects.length ≤ VOT_MAX_OBJECTS →
        s'.wire.sent = s.wire.sent ++ [objects.map (fun r => ⟨M._region_to_trax r, []⟩)]) := by
  refine ⟨_, VOT.report_running M objects s h, rfl, ?_⟩
  intro hl
  simp [List.take_of_length_le hl]

/-- C8 (amended), on two rectangles in the rectangle scenario. -/
theorem report_sends_encodings_witness :
    ∃ s', VOT.report Box.mode [⟨12, 11, 20, 20⟩, ⟨1, 2, 3, 4⟩] (running_box []) =
        Except.ok ((), s') ∧
      s'.wire.sent = (running_box []).wire.sent ++
        [(([⟨12, 11, 20, 20⟩, ⟨1, 2, 3, 4⟩] : List Box.vot_region).take VOT_MAX_OBJECTS).map
          (fun r => ⟨Box.mode._region_to_trax r, []⟩)] ∧
      (([⟨12, 11, 20, 20⟩, ⟨1, 2, 3, 4⟩] : List Box.vot_region).length ≤ VOT_MAX_OBJECTS →
        s'.wire.sent = (running_box []).wire.sent ++
          [([⟨12, 11, 20, 20⟩, ⟨1, 2, 3, 4⟩] : List Box.vot_region).map
            (fun r => ⟨Box.mode._region_to_trax r, []⟩)]) :=
  report_sends_encodings Box.mode [⟨12, 11, 20, 20⟩, ⟨1, 2, 3, 4⟩] (running_box [])
    (by decide)

end C8

/-! ## C9: the order of the reported regions -/

section C9

/-- Three rectangles `A`, `B`, `C` and one frame, under the tracker that
moves its rectangle right: `report` receives `[A', B', C']`. -/
theorem run_three_objects :
    ∃ m : VOTManager Box.trax_region Box.vot_region Box.vot_region,
      main Box.mode moving_tracker (fresh (script ⟨"f1.png"⟩ three_boxes [⟨"f2.png"⟩])) =
        some (Except.error ⟨m⟩) ∧
      m.calls.take 4 =
        [Call.update 0 ⟨"f2.png"⟩ false, Call.update 1 ⟨"f2.png"⟩ false,
         Call.update 2 ⟨"f2.png"⟩ false,
         Call.report [⟨1 + 1, 0, 5, 5⟩, ⟨2 + 1, 0, 5, 5⟩, ⟨3 + 1, 0, 5, 5⟩] false] :=
  ⟨_, rfl, rfl⟩

end C9

/-! ## C10: mask and `cv::Mat` -/

section C10

/-- C10 (evaluation of the code): a single-channel mask is never written -
the assertion of `set` and of the constructor demands `channels () == 2` and
aborts - and `get` makes the matrix with `height` columns and `width` rows,
the transposed shape. -/
theorem mask_single_channel_rejected (fresh : Nat → Nat) (_region : Mask.vot_region)
    (mask : Mat) (h : mask.channels = 1) :
    Mask.VOTRegion.set_mat fresh _region mask = Except.error ⟨_region⟩ ∧
    (∃ f, Mask.VOTRegion.of_mat fresh mask = Except.error f) ∧
    ∀ r : Mask.vot_region,
      (Mask.VOTRegion.get_mat fresh r).cols = r.height ∧
      (Mask.VOTRegion.get_mat fresh r).rows = r.width := by
  refine ⟨by simp [Mask.VOTRegion.set_mat, h], ⟨_, by simp [Mask.VOTRegion.of_mat, h]; rfl⟩, ?_⟩
  intro r
  exact ⟨rfl, rfl⟩

/-- C10, on the 8-bit single-channel mask of 2 columns and 1 row with the
bytes `1 0`: it is rejected, and the region holding these bytes is read back
as 1 column and 2 rows. -/
theorem mask_single_channel_rejected_witness :
    Mask.VOTRegion.set_mat (fun _ => 0) (Mask.vot_region_create (fun _ => 0) 2 1)
        ⟨1, 2, 1, 1, [1, 0]⟩ =
      Except.error ⟨Mask.vot_region_create (fun _ => 0) 2 1⟩ ∧
    (∃ f, Mask.VOTRegion.of_mat (fun _ => 0) ⟨1, 2, 1, 1, [1, 0]⟩ = Except.error f) ∧
    ∀ r : Mask.vot_region,
      (Mask.VOTRegion.get_mat (fun _ => 0) r).cols = r.height ∧
      (Mask.VOTRegion.get_mat (fun _ => 0) r).rows = r.width :=
  mask_single_channel_rejected (fun _ => 0) (Mask.vot_region_create (fun _ => 0) 2 1)
    ⟨1, 2, 1, 1, [1, 0]⟩ rfl

/-- The read-back of the region with 2 columns, 1 row and bytes `1 0`. -/
theorem mask_get_transposed (fresh : Nat → Nat) :
    Mask.VOTRegion.get_mat fresh ⟨2, 1, [1, 0]⟩ =
      { rows := 2, cols := 1, channels := 1, elemSize := 1, data := [1, 0] } := by
  simp [Mask.VOTRegion.get_mat, Mat.create, memcpy, List.range, List.range.loop]

end C10

/-! ## C11: the wire encodings -/

section C11

/-- C11: in each of the three builds, decoding the wire encoding of an
allocated region gives the region back - the four fields of a rectangle; the
count and the coordinates of a polygon, index by index; the width, the height
and the bytes of a mask. -/
theorem wire_round_trip (rb : Box.vot_region) (rp : Polygon.vot_region)
    (rm : Mask.vot_region) (fresh fresh' : Nat → Nat) (hp : rp.wf) (hm : rm.wf) :
    Box._trax_to_region (Box._region_to_trax rb) = rb ∧
    Polygon._trax_to_region (Polygon._region_to_trax rp) = rp ∧
    Mask._trax_to_region fresh (Mask._region_to_trax fresh' rm) = rm := by
  refine ⟨rfl, ?_, ?_⟩
  · rw [Polygon.polygon_to_trax_eq rp hp, Polygon.polygon_of_trax_eq _ hp.1 hp.2]
  · rw [Mask.mask_to_trax_eq fresh' rm hm,
      Mask.mask_of_trax_origin fresh ⟨0, 0, rm.width, rm.height, rm.data⟩ rfl rfl hm]

/-- C11, on the rectangle of the scenario, a triangle and a mask of 3 columns
and 2 rows. -/
theorem wire_round_trip_witness :
    Box._trax_to_region (Box._region_to_trax ⟨10, 10, 20, 20⟩) = ⟨10, 10, 20, 20⟩ ∧
    Polygon._trax_to_region (Polygon._region_to_trax ⟨[-3, -1, -2], [-1, -4, -2], 3⟩) =
      ⟨[-3, -1, -2], [-1, -4, -2], 3⟩ ∧
    Mask._trax_to_region (fun _ => 7) (Mask._region_to_trax (fun _ => 9)
        ⟨3, 2, [1, 0, 1, 0, 1, 1]⟩) =
      ⟨3, 2, [1, 0, 1, 0, 1, 1]⟩ :=
  wire_round_trip ⟨10, 10, 20, 20⟩ ⟨[-3, -1, -2], [-1, -4, -2], 3⟩ ⟨3, 2, [1, 0, 1, 0, 1, 1]⟩
    (fun _ => 7) (fun _ => 9) ⟨rfl, rfl⟩ rfl

end C11

/-! ## C12: the handshake -/

section C12

variable {W R : Type}

/-- C12: on a session that holds no handle yet, `vot_initialize` fails (its
assertion on the response aborts) exactly when the first message of the
harness is no `Initialize`; on an `Initialize` with at most
`VOT_MAX_OBJECTS` objects it returns with position 0, the handle held (the
session not ended) and no store outside the array. -/
theorem start_fails_iff_not_init (M : RegionMode W R) (s : VOT W R)
    (h0 : s._trax_handle = none) :
    ((∃ f, vot_initialize M s = Except.error f) ↔
      ¬ ∃ image objects rest, s.wire.pending = Message.init image objects :: rest) ∧
    ∀ image objects rest, s.wire.pending = Message.init image objects :: rest →
      objects.length ≤ VOT_MAX_OBJECTS →
      ∃ s1, vot_initialize M s = Except.ok (s1._objects, s1) ∧
        s1._vot_sequence_position = 0 ∧
        s1._trax_handle = some trax_handle.server ∧
        VOT.end s1 = false ∧
        s1.overrun = s.overrun := by
  constructor
  · constructor
    · rintro ⟨f, hf⟩ ⟨image, objects, rest, hp⟩
      rw [vot_initialize_init M s image objects rest h0 hp] at hf
      cases hf
    · exact vot_initialize_rejected M s h0
  · intro image objects rest hp hn
    obtain ⟨s1, hi, a1, a2, _, _, _⟩ := vot_initialize_running M s image objects rest h0 hp
    refine ⟨s1, hi, a2, a1, VOT.end_of_running s1 (by simp [a1]), ?_⟩
    have h := vot_initialize_init M s image objects rest h0 hp
    rw [h] at hi
    have e := (Prod.mk.inj (Except.ok.inj hi)).2
    rw [← e, store_objects_inside M objects 0 _ (by omega)]

/-- C12, on the fresh session of the rectangle scenario. -/
theorem start_fails_iff_not_init_witness :
    ((∃ f, vot_initialize Box.mode (fresh (script ⟨"f1.png"⟩ [box_object] [])) =
        Except.error f) ↔
      ¬ ∃ image objects rest,
        (fresh (R := Box.vot_region) (script ⟨"f1.png"⟩ [box_object] [])).wire.pending =
          Message.init image objects :: rest) ∧
    ∀ image objects rest,
      (fresh (R := Box.vot_region) (script ⟨"f1.png"⟩ [box_object] [])).wire.pending =
        Message.init image objects :: rest →
      objects.length ≤ VOT_MAX_OBJECTS →
      ∃ s1, vot_initialize Box.mode (fresh (script ⟨"f1.png"⟩ [box_object] [])) =
          Except.ok (s1._objects, s1) ∧
        s1._vot_sequence_position = 0 ∧
        s1._trax_handle = some trax_handle.server ∧
        VOT.end s1 = false ∧
        s1.overrun = (fresh (R := Box.vot_region) (script ⟨"f1.png"⟩ [box_object] [])).overrun :=
  start_fails_iff_not_init Box.mode (fresh (script ⟨"f1.png"⟩ [box_object] [])) rfl

/-- A first message `Frame` is rejected: the handshake aborts. -/
theorem start_on_frame_aborts :
    ∃ f, vot_initialize Box.mode (fresh [Message.frame ⟨"f1.png"⟩ []]) = Except.error f :=
  ⟨_, rfl⟩

end C12

/-! ## C13: the initial frame -/

section C13

variable {W R : Type}

/-- C13: after a handshake on `Initialize (image, objects)` the first frame
request returns the frame of that message from the cached `_image`: the
transport ghost (no wait, no reply), the stored regions and the cached image
are as before, and only the position has moved, from 0 to 1. The wrapper
`image ()` returns the same path. -/
theorem first_frame_from_cache (M : RegionMode W R) (s : VOT W R) (image : trax_image_list)
    (objects : trax_object_list W) (rest : List (Message W))
    (h0 : s._trax_handle = none) (hp : s.wire.pending = Message.init image objects :: rest) :
    ∃ s1 s2, vot_initialize M s = Except.ok (s1._objects, s1) ∧
      s1._vot_sequence_position = 0 ∧
      vot_frame s1 = Except.ok (some ⟨image.color⟩, s2) ∧
      VOT.image s1 = Except.ok (⟨image.color⟩, s2) ∧
      s2 = { s1 with _vot_sequence_position := 1 } ∧
      s2.wire = s1.wire ∧ s2.wire.waits = s.wire.waits + 1 ∧
      s2._objects = s1._objects ∧ s2._image = s1._image ∧
      s2._trax_handle = s1._trax_handle := by
  obtain ⟨s1, hi, a1, a2, a3, a4, _⟩ := vot_initialize_running M s image objects rest h0 hp
  have hh : s1._trax_handle ≠ none := by simp [a1]
  have hf := vot_frame_first s1 hh a2
  refine ⟨s1, { s1 with _vot_sequence_position := 1 }, hi, a2, ?_, ?_, rfl, rfl, ?_, rfl, rfl,
    rfl⟩
  · rw [hf, a3]
  · simp [VOT.image, hf, a3]
  · simp [a4]

/-- C13, in the rectangle scenario. -/
theorem first_frame_from_cache_witness :
    ∃ s1 s2, vot_initialize Box.mode (fresh (script ⟨"f1.png"⟩ [box_object] [])) =
        Except.ok (s1._objects, s1) ∧
      s1._vot_sequence_position = 0 ∧
      vot_frame s1 = Except.ok (some ⟨(⟨"f1.png"⟩ : trax_image_list).color⟩, s2) ∧
      VOT.image s1 = Except.ok (⟨(⟨"f1.png"⟩ : trax_image_list).color⟩, s2) ∧
      s2 = { s1 with _vot_sequence_position := 1 } ∧
      s2.wire = s1.wire ∧
      s2.wire.waits =
        (fresh (R := Box.vot_region) (script ⟨"f1.png"⟩ [box_object] [])).wire.waits + 1 ∧
      s2._objects = s1._objects ∧ s2._image = s1._image ∧
      s2._trax_handle = s1._trax_handle :=
  first_frame_from_cache Box.mode (fresh (script ⟨"f1.png"⟩ [box_object] [])) ⟨"f1.png"⟩
    [box_object] [Message.quit] rfl rfl

end C13

/-! ## C14: a new frame -/

section C14

variable {W R : Type}

/-- C14: on a running session past the initial frame, a new-frame message
without objects makes `vot_frame` return the path of that message; the path
becomes the cached `_image`, replacing the previous one; the handle stays
held (`end ()` false), and position and stored regions are untouched. The
wrapper `image ()` returns the same path. -/
theorem next_frame_is_cached (s : VOT W R) (f : trax_image_list) (rest : List (Message W))
    (h1 : s._trax_handle ≠ none) (h2 : s._vot_sequence_position ≠ 0)
    (h3 : s.wire.pending = Message.frame f [] :: rest) :
    ∃ s', vot_frame s = Except.ok (some ⟨f.color⟩, s') ∧
      VOT.image s = Except.ok (⟨f.color⟩, s') ∧
      s'._image = ⟨f.color⟩ ∧
      s'._trax_handle = s._trax_handle ∧ VOT.end s' = false ∧
      s'.wire.pending = rest ∧ s'.wire.cleanups = s.wire.cleanups ∧
      s'._objects = s._objects ∧
      s'._vot_sequence_position = s._vot_sequence_position := by
  have hf := vot_frame_frame s f rest h1 h2 h3
  refine ⟨_, hf, ?_, rfl, rfl, VOT.end_of_running _ h1, rfl, rfl, rfl, rfl⟩
  simp [VOT.image, hf]

/-- C14, on the frame `f2.png` in the rectangle scenario. -/
theorem next_frame_is_cached_witness :
    ∃ s', vot_frame (running_box [Message.frame ⟨"f2.png"⟩ [], Message.quit]) =
        Except.ok (some ⟨(⟨"f2.png"⟩ : trax_image_list).color⟩, s') ∧
      VOT.image (running_box [Message.frame ⟨"f2.png"⟩ [], Message.quit]) =
        Except.ok (⟨(⟨"f2.png"⟩ : trax_image_list).color⟩, s') ∧
      s'._image = ⟨(⟨"f2.png"⟩ : trax_image_list).color⟩ ∧
      s'._trax_handle =
        (running_box [Message.frame ⟨"f2.png"⟩ [], Message.quit])._trax_handle ∧
      VOT.end s' = false ∧
      s'.wire.pending = [Message.quit] ∧
      s'.wire.cleanups =
        (running_box [Message.frame ⟨"f2.png"⟩ [], Message.quit]).wire.cleanups ∧
      s'._objects = (running_box [Message.frame ⟨"f2.png"⟩ [], Message.quit])._objects ∧
      s'._vot_sequence_position =
        (running_box [Message.frame ⟨"f2.png"⟩ [], Message.quit])._vot_sequence_position :=
  next_frame_is_cached (running_box [Message.frame ⟨"f2.png"⟩ [], Message.quit]) ⟨"f2.png"⟩
    [Message.quit] (by decide) (by decide) rfl

end C14

/-! ## C15: shutdown -/

section C15

variable {W R : Type}

/-- C15: `vot_quit` on a running session makes one `trax_cleanup`, leaves the
handle and every slot `NULL`, and releases each stored region once (the
regions released are those of the slots, each listed once); on an ended
session - after a `vot_quit`, or after `vot_frame` ended the sequence - it
makes no `trax_cleanup`, releases nothing and leaves the state as it is. -/
theorem vot_quit_idempotent (s : VOT W R) (h : s._trax_handle ≠ none)
    (hlen : s._objects.length = VOT_MAX_OBJECTS) :
    (vot_quit s)._trax_handle = none ∧
    (vot_quit s)._objects = List.replicate VOT_MAX_OBJECTS none ∧
    (vot_quit s).wire.cleanups = s.wire.cleanups + 1 ∧
    vot_quit_released s = s._objects.filterMap id ∧
    vot_quit (vot_quit s) = vot_quit s ∧
    vot_quit_released (vot_quit s) = [] ∧
    ∀ t : VOT W R, t._trax_handle = none → vot_quit t = t ∧ vot_quit_released t = [] := by
  have hq := vot_quit_running s h hlen
  refine ⟨vot_quit_handle s, by rw [hq], by rw [hq], ?_,
    vot_quit_ended _ (vot_quit_handle s), ?_, ?_⟩
  · unfold vot_quit_released
    cases hh : s._trax_handle with
    | none => exact absurd hh h
    | some t =>
        simp only
        rw [released_objects_eq, List.drop_zero, List.take_of_length_le (by omega)]
  · simp [vot_quit_released, vot_quit_handle s]
  · intro t ht
    exact ⟨vot_quit_ended t ht, by simp [vot_quit_released, ht]⟩

/-- C15, on the running session of the rectangle scenario. -/
theorem vot_quit_idempotent_witness :
    (vot_quit (running_box []))._trax_handle = none ∧
    (vot_quit (running_box []))._objects = List.replicate VOT_MAX_OBJECTS none ∧
    (vot_quit (running_box [])).wire.cleanups = (running_box []).wire.cleanups + 1 ∧
    vot_quit_released (running_box []) = (running_box [])._objects.filterMap id ∧
    vot_quit (vot_quit (running_box [])) = vot_quit (running_box []) ∧
    vot_quit_released (vot_quit (running_box [])) = [] ∧
    ∀ t : VOT Box.trax_region Box.vot_region, t._trax_handle = none →
      vot_quit t = t ∧ vot_quit_released t = [] :=
  vot_quit_idempotent (running_box []) (by decide) rfl

/-- After `vot_frame` has ended the sequence, `vot_quit` changes nothing and
releases nothing. -/
theorem vot_quit_after_end :
    ∃ s', vot_frame (running_box [Message.quit]) = Except.ok (none, s') ∧
      vot_quit s' = s' ∧ vot_quit_released s' = [] ∧ s'.wire.cleanups = 1 :=
  ⟨_, rfl, rfl, rfl, rfl⟩

end C15

/-! ## C16: the initial objects -/

section C16

/-- C16: in each of the three builds, on an `Initialize` with `N` objects,
`N ≤ VOT_MAX_OBJECTS`, the array holds after the handshake the decodings of
the wire regions in the slots `0 .. N-1`, in the order of the harness, and
`NULL` in the slots `N .. 99`; nothing is stored outside the array; and
`VOT::objects ()` returns `N` regions, the `i`-th being the decoding of the
`i`-th wire region. -/
theorem initial_objects_stored (bytes : Nat → Nat) (image : trax_image_list)
    (sb : VOT Box.trax_region Box.vot_region) (ob : trax_object_list Box.trax_region)
    (rb : List (Message Box.trax_region))
    (sp : VOT Polygon.trax_region Polygon.vot_region)
    (op : trax_object_list Polygon.trax_region) (rp : List (Message Polygon.trax_region))
    (sm : VOT Mask.trax_region Mask.vot_region) (om : trax_object_list Mask.trax_region)
    (rm : List (Message Mask.trax_region))
    (hb0 : sb._trax_handle = none) (hbp : sb.wire.pending = Message.init image ob :: rb)
    (hb : ob.length ≤ VOT_MAX_OBJECTS)
    (hp0 : sp._trax_handle = none) (hpp : sp.wire.pending = Message.init image op :: rp)
    (hp : op.length ≤ VOT_MAX_OBJECTS)
    (hm0 : sm._trax_handle = none) (hmp : sm.wire.pending = Message.init image om :: rm)
    (hm : om.length ≤ VOT_MAX_OBJECTS) :
    (∃ s1, vot_initialize Box.mode sb = Except.ok (s1._objects, s1) ∧
      s1._objects = ob.map (fun o => some (Box._trax_to_region o.region)) ++
        List.replicate (VOT_MAX_OBJECTS - ob.length) none ∧
      s1.overrun = sb.overrun ∧
      VOT.objects Box.mode s1 = ob.map (fun o => Box._trax_to_region o.region) ∧
      (VOT.objects Box.mode s1).length = ob.length) ∧
    (∃ s1, vot_initialize Polygon.mode sp = Except.ok (s1._objects, s1) ∧
      s1._objects = op.map (fun o => some (Polygon._trax_to_region o.region)) ++
        List.replicate (VOT_MAX_OBJECTS - op.length) none ∧
      s1.overrun = sp.overrun ∧
      VOT.objects Polygon.mode s1 = op.map (fun o => Polygon._trax_to_region o.region) ∧
      (VOT.objects Polygon.mode s1).length = op.length) ∧
    (∃ s1, vot_initialize (Mask.mode bytes) sm = Except.ok (s1._objects, s1) ∧
      s1._objects = om.map (fun o => some (Mask._trax_to_region bytes o.region)) ++
        List.replicate (VOT_MAX_OBJECTS - om.length) none ∧
      s1.overrun = sm.overrun ∧
      VOT.objects (Mask.mode bytes) s1 =
        om.map (fun o => Mask._trax_to_region bytes o.region) ∧
      (VOT.objects (Mask.mode bytes) s1).length = om.length) := by
  obtain ⟨s1, a1, a2, a3, a4⟩ := vot_initialize_objects Box.mode sb image ob rb hb0 hbp hb
    (copy_of_decoded bytes).1
  obtain ⟨s2, b1, b2, b3, b4⟩ := vot_initialize_objects Polygon.mode sp image op rp hp0 hpp hp
    (copy_of_decoded bytes).2.1
  obtain ⟨s3, c1, c2, c3, c4⟩ := vot_initialize_objects (Mask.mode bytes) sm image om rm hm0
    hmp hm (copy_of_decoded bytes).2.2
  exact ⟨⟨s1, a1, a2, a3, a4, by rw [a4, List.length_map]⟩,
    ⟨s2, b1, b2, b3, b4, by rw [b4, List.length_map]⟩,
    ⟨s3, c1, c2, c3, c4, by rw [c4, List.length_map]⟩⟩

/-- C16, on 100 rectangles, on the triangle and on the mask. -/
theorem initial_objects_stored_witness :
    (∃ s1, vot_initialize Box.mode boxes_session = Except.ok (s1._objects, s1) ∧
      s1._objects =
        (List.replicate 100 box_object).map (fun o => some (Box._trax_to_region o.region)) ++
          List.replicate (VOT_MAX_OBJECTS - (List.replicate 100 box_object).length) none ∧
      s1.overrun = boxes_session.overrun ∧
      VOT.objects Box.mode s1 =
        (List.replicate 100 box_object).map (fun o => Box._trax_to_region o.region) ∧
      (VOT.objects Box.mode s1).length = (List.replicate 100 box_object).length) ∧
    (∃ s1, vot_initialize Polygon.mode triangle_session = Except.ok (s1._objects, s1) ∧
      s1._objects = [wire_triangle].map (fun o => some (Polygon._trax_to_region o.region)) ++
        List.replicate (VOT_MAX_OBJECTS - [wire_triangle].length) none ∧
      s1.overrun = triangle_session.overrun ∧
      VOT.objects Polygon.mode s1 =
        [wire_triangle].map (fun o => Polygon._trax_to_region o.region) ∧
      (VOT.objects Polygon.mode s1).length = [wire_triangle].length) ∧
    (∃ s1, vot_initialize (Mask.mode (fun _ => 0)) mask_session =
        Except.ok (s1._objects, s1) ∧
      s1._objects =
        [wire_mask].map (fun o => some (Mask._trax_to_region (fun _ => 0) o.region)) ++
          List.replicate (VOT_MAX_OBJECTS - [wire_mask].length) none ∧
      s1.overrun = mask_session.overrun ∧
      VOT.objects (Mask.mode (fun _ => 0)) s1 =
        [wire_mask].map (fun o => Mask._trax_to_region (fun _ => 0) o.region) ∧
      (VOT.objects (Mask.mode (fun _ => 0)) s1).length = [wire_mask].length) :=
  initial_objects_stored (fun _ => 0) ⟨"f1.png"⟩ boxes_session (List.replicate 100 box_object)
    [] triangle_session [wire_triangle] [] mask_session [wire_mask] []
    rfl rfl (by decide) rfl rfl (by decide) rfl rfl (by decide)

/-- The regions `VOT::objects ()` returns for the triangle and for the mask,
written out. -/
theorem initial_objects_example :
    (∃ s1, vot_initialize Polygon.mode triangle_session = Except.ok (s1._objects, s1) ∧
      VOT.objects Polygon.mode s1 = [⟨[-3, -1, -2], [-1, -4, -2], 3⟩]) ∧
    (∃ s1, vot_initialize (Mask.mode (fun _ => 0)) mask_session =
        Except.ok (s1._objects, s1) ∧
      VOT.objects (Mask.mode (fun _ => 0)) s1 = [⟨2, 2, [1, 0, 1, 1]⟩]) :=
  ⟨⟨_, rfl, by decide⟩, ⟨_, rfl, by decide⟩⟩

end C16

/-! ## C17: copy assignment of polygons -/

section C17

/-- C17: for every allocated target and source polygon, of equal or different
point counts, the copy assignment leaves in the target the region of the
source: its count and, index by index, its coordinates; nothing of the old
target remains. (The source is the value passed in; the assignment only
reads it.) -/
theorem polygon_assign (target source : Polygon.vot_region) (ht : target.wf)
    (hs : source.wf) :
    Polygon.VOTRegion.assign target source = Except.ok source := by
  unfold Polygon.VOTRegion.assign Polygon.VOTRegion.count
  have key : ∀ t : Polygon.vot_region, t.count = source.count → t.wf →
      Polygon.assign_points source source.count 0 t = Except.ok source := by
    intro t hc hwf
    obtain ⟨t', h1, h2, h3, h4, h5⟩ :=
      Polygon.assign_points_spec source hs source.count 0 t hc hwf (by omega)
    rw [h1]
    have hx : t'.x = source.x :=
      list_eq_of_overwritten t'.x source.x t.x source.count hs.1 (by rw [hwf.1, hc]) h4
    have hy : t'.y = source.y :=
      list_eq_of_overwritten t'.y source.y t.y source.count hs.2 (by rw [hwf.2, hc]) h5
    have hcount : t'.count = source.count := by rw [h2, hc]
    cases t'
    cases source
    simp only at hx hy hcount
    subst hx hy hcount
    rfl
  split
  · exact key _ rfl (Polygon.vot_region_create_wf _)
  · rename_i h
    exact key target (by simpa using h) ht

/-- C17, on a target of 4 points and a source of 7 points. -/
theorem polygon_assign_witness :
    Polygon.VOTRegion.assign ⟨[1, 2, 3, 4], [5, 6, 7, 8], 4⟩
        ⟨[10, 20, 30, 40, 50, 60, 70], [11, 21, 31, 41, 51, 61, 71], 7⟩ =
      Except.ok ⟨[10, 20, 30, 40, 50, 60, 70], [11, 21, 31, 41, 51, 61, 71], 7⟩ :=
  polygon_assign ⟨[1, 2, 3, 4], [5, 6, 7, 8], 4⟩
    ⟨[10, 20, 30, 40, 50, 60, 70], [11, 21, 31, 41, 51, 61, 71], 7⟩ ⟨rfl, rfl⟩ ⟨rfl, rfl⟩

/-- On the heap, the copy assignment writes only to the blocks of its target
(and to blocks it allocates): a source that shares no block with the target
reads afterwards as it did before. -/
theorem polygon_assign_source_unchanged (m m' : Heap.Memory) (p px py c s sx sy p' : Nat)
    (vs : Polygon.vot_region) (hl : Heap.load_region m p = some (px, py, c))
    (hs : Heap.Rep m s sx sy vs) (hd : ∀ q ∈ [s, sx, sy], q ∉ [p, px, py])
    (h : Heap.VOTRegion.assign p s m = Except.ok (p', m')) :
    Heap.view m' s = some vs :=
  (hs.frame (Heap.assign_frame h hl) (hd s (by simp)) (hd sx (by simp))
    (hd sy (by simp))).view

end C17

/-! ## C18: a copy is independent of its original -/

section C18

open Heap

/-- The operations of C18 carried out on the triangle: the copy is made at
address 4; the original then takes the rectangle `(1, 2, 3, 4)` (released and
made anew at address 7, with 4 points) and the copy still reads as the
triangle; then a point of the copy is set and the original still reads as the
rectangle. -/
theorem copy_independent_run :
    copy_run = Except.ok (4, 7,
      some ⟨[int_to_float 1, int_to_float (1 + 3), int_to_float (1 + 3), int_to_float 1],
        [int_to_float 2, int_to_float 2, int_to_float (2 + 4), int_to_float (2 + 4)], 4⟩,
      some ⟨[-3, -1, -2], [-1, -4, -2], 3⟩,
      some ⟨[int_to_float 1, int_to_float (1 + 3), int_to_float (1 + 3), int_to_float 1],
        [int_to_float 2, int_to_float 2, int_to_float (2 + 4), int_to_float (2 + 4)], 4⟩,
      some ⟨[7, -1, -2], [8, -4, -2], 3⟩) := by
  rfl

end C18

/-! ## C19: a rectangle as a polygon -/

section C19

/-- C19 (counterexample): the rectangle `(16777217, 0, 1, 1)` becomes the
points `(16777216, 0) (16777218, 0) (16777218, 1) (16777216, 1)`: the `int`
`x = 2 ^ 24 + 1` has 25 significant bits and is stored as the nearest
`float`, so the first and the last point are not at `x`. -/
theorem polygon_set_rect_rounds :
    Polygon.VOTRegion.of_rect ⟨16777217, 0, 1, 1⟩ =
      Except.ok ⟨[16777216, 16777218, 16777218, 16777216], [0, 0, 1, 1], 4⟩ ∧
    Polygon.VOTRegion.of_rect ⟨16777217, 0, 1, 1⟩ ≠
      Except.ok ⟨[16777217, 16777217 + 1, 16777217 + 1, 16777217], [0, 0, 0 + 1, 0 + 1], 4⟩ := by
  have a1 : int_to_float 16777217 = 16777216 := by
    have e : round_to_float 16777217 = 16777216 := by decide
    simp [int_to_float, e]
  have a2 : int_to_float 16777218 = 16777218 := by
    rw [int_to_float_exact _ ⟨8388609, 1, by norm_num, by decide⟩]
    norm_num
  have a3 : int_to_float 0 = 0 := by
    rw [int_to_float_small _ (by decide)]
    norm_num
  have a4 : int_to_float 1 = 1 := by
    rw [int_to_float_small _ (by decide)]
    norm_num
  have b1 : int_add 16777217 1 = 16777218 := by decide
  have b2 : int_add 0 1 = 1 := by decide
  have e : Polygon.VOTRegion.of_rect ⟨16777217, 0, 1, 1⟩ =
      Except.ok ⟨[16777216, 16777218, 16777218, 16777216], [0, 0, 1, 1], 4⟩ := by
    rw [Polygon.VOTRegion.of_rect,
      Polygon.set_rect_corners _ _ (Polygon.vot_region_create_wf 4)]
    simp only [a1, a2, a3, a4, b1, b2]
  refine ⟨e, ?_⟩
  rw [e]
  intro h
  have h2 := congrArg (fun r => (r.x.getD 0 0 : float)) (Except.ok.inj h)
  norm_num at h2

/-- C19 (amended): for every rectangle `(x, y, w, h)` whose corner coordinates
`x`, `y`, `x + w`, `y + h` are exactly representable (in the range of `int`,
at most 24 significant bits) and every allocated polygon, whatever its point
count, `set (rectangle)` leaves 4 points: `(x, y)`, `(x + w, y)`,
`(x + w, y + h)`, `(x, y + h)`, in this order. -/
theorem polygon_set_rect (region : Polygon.vot_region) (rectangle : Rect) (hwf : region.wf)
    (hx : exactly_representable rectangle.x) (hy : exactly_representable rectangle.y)
    (hxw : exactly_representable (rectangle.x + rectangle.width))
    (hyh : exactly_representable (rectangle.y + rectangle.height)) :
    Polygon.VOTRegion.set_rect region rectangle =
      Except.ok
        { x := [(rectangle.x : ℚ), ((rectangle.x + rectangle.width : Int) : ℚ),
                ((rectangle.x + rectangle.width : Int) : ℚ), (rectangle.x : ℚ)]
          y := [(rectangle.y : ℚ), (rectangle.y : ℚ),
                ((rectangle.y + rectangle.height : Int) : ℚ),
                ((rectangle.y + rectangle.height : Int) : ℚ)]
          count := 4 } := by
  rw [Polygon.set_rect_corners region rectangle hwf,
    int_add_eq _ _ hxw.1 hxw.2.1, int_add_eq _ _ hyh.1 hyh.2.1,
    int_to_float_exact _ hx.2.2, int_to_float_exact _ hy.2.2,
    int_to_float_exact _ hxw.2.2, int_to_float_exact _ hyh.2.2]

/-- C19 (amended), on a polygon of 7 points and the rectangle
`(10, 20, 30, 40)`. -/
theorem polygon_set_rect_witness :
    Polygon.VOTRegion.set_rect ⟨[1, 2, 3, 4, 5, 6, 7], [1, 2, 3, 4, 5, 6, 7], 7⟩
        ⟨10, 20, 30, 40⟩ =
      Except.ok
        { x := [((⟨10, 20, 30, 40⟩ : Rect).x : ℚ),
                (((⟨10, 20, 30, 40⟩ : Rect).x + (⟨10, 20, 30, 40⟩ : Rect).width : Int) : ℚ),
                (((⟨10, 20, 30, 40⟩ : Rect).x + (⟨10, 20, 30, 40⟩ : Rect).width : Int) : ℚ),
                ((⟨10, 20, 30, 40⟩ : Rect).x : ℚ)]
          y := [((⟨10, 20, 30, 40⟩ : Rect).y : ℚ), ((⟨10, 20, 30, 40⟩ : Rect).y : ℚ),
                (((⟨10, 20, 30, 40⟩ : Rect).y + (⟨10, 20, 30, 40⟩ : Rect).height : Int) : ℚ),
                (((⟨10, 20, 30, 40⟩ : Rect).y + (⟨10, 20, 30, 40⟩ : Rect).height : Int) : ℚ)]
          count := 4 } :=
  polygon_set_rect ⟨[1, 2, 3, 4, 5, 6, 7], [1, 2, 3, 4, 5, 6, 7], 7⟩ ⟨10, 20, 30, 40⟩
    ⟨rfl, rfl⟩ ⟨by decide, by decide, 10, 0, by norm_num, rfl⟩
    ⟨by decide, by decide, 20, 0, by norm_num, rfl⟩
    ⟨by decide, by decide, 40, 0, by norm_num, rfl⟩
    ⟨by decide, by decide, 60, 0, by norm_num, rfl⟩

/-- The same call written out: the polygon of 7 points becomes the four
corners of `(10, 20, 30, 40)`. -/
theorem polygon_set_rect_example :
    Polygon.VOTRegion.set_rect ⟨[1, 2, 3, 4, 5, 6, 7], [1, 2, 3, 4, 5, 6, 7], 7⟩
        ⟨10, 20, 30, 40⟩ =
      Except.ok ⟨[10, 40, 40, 10], [20, 20, 60, 60], 4⟩ := by
  rw [Polygon.set_rect_corners _ _ ⟨rfl, rfl⟩]
  have b1 : int_add (⟨10, 20, 30, 40⟩ : Rect).x (⟨10, 20, 30, 40⟩ : Rect).width = 40 := by
    decide
  have b2 : int_add (⟨10, 20, 30, 40⟩ : Rect).y (⟨10, 20, 30, 40⟩ : Rect).height = 60 := by
    decide
  rw [b1, b2, int_to_float_small _ (by decide), int_to_float_small _ (by decide),
    int_to_float_small _ (by decide), int_to_float_small _ (by decide)]
  norm_num

end C19

/-! ## C20: rectangle build and `cv::Rect` -/

section C20

/-- C20: in the rectangle build, for every `cv::Rect` whose fields single
precision holds exactly, `set` stores the four fields as they are, `get`
after `set` gives the rectangle back, and so the region made from the
rectangle read back is the region made from the rectangle. -/
theorem box_rect_identity (region : Box.vot_region) (rectangle : Rect)
    (hx : exactly_representable rectangle.x) (hy : exactly_representable rectangle.y)
    (hw : exactly_representable rectangle.width)
    (hh : exactly_representable rectangle.height) :
    Box.VOTRegion.set_rect region rectangle =
      { x := rectangle.x, y := rectangle.y, width := rectangle.width,
        height := rectangle.height } ∧
    Box.VOTRegion.get_rect (Box.VOTRegion.set_rect region rectangle) = rectangle ∧
    Box.VOTRegion.get_rect (Box.VOTRegion.of_rect rectangle) = rectangle ∧
    Box.VOTRegion.of_rect (Box.VOTRegion.get_rect (Box.VOTRegion.of_rect rectangle)) =
      Box.VOTRegion.of_rect rectangle := by
  have hset : ∀ r : Box.vot_region, Box.VOTRegion.set_rect r rectangle =
      { x := rectangle.x, y := rectangle.y, width := rectangle.width,
        height := rectangle.height } := by
    intro r
    simp [Box.VOTRegion.set_rect, Box.VOTRegion.set_x, Box.VOTRegion.set_y,
      Box.VOTRegion.set_width, Box.VOTRegion.set_height, int_to_float_exact _ hx.2.2,
      int_to_float_exact _ hy.2.2, int_to_float_exact _ hw.2.2, int_to_float_exact _ hh.2.2]
  have hget : Box.VOTRegion.get_rect
      { x := rectangle.x, y := rectangle.y, width := rectangle.width,
        height := rectangle.height } = rectangle := by
    simp [Box.VOTRegion.get_rect, Box.VOTRegion.get_x, Box.VOTRegion.get_y,
      Box.VOTRegion.get_width, Box.VOTRegion.get_height,
      float_to_int_intCast _ hx.1 hx.2.1, float_to_int_intCast _ hy.1 hy.2.1,
      float_to_int_intCast _ hw.1 hw.2.1, float_to_int_intCast _ hh.1 hh.2.1]
  refine ⟨hset region, ?_, ?_, ?_⟩
  · rw [hset, hget]
  · rw [Box.VOTRegion.of_rect, hset, hget]
  · simp only [Box.VOTRegion.of_rect, hset, hget]

/-- C20, on the rectangle `(12, 11, 20, 20)` of the scenario. -/
theorem box_rect_identity_witness :
    Box.VOTRegion.set_rect Box.vot_region_create ⟨12, 11, 20, 20⟩ =
      { x := (⟨12, 11, 20, 20⟩ : Rect).x, y := (⟨12, 11, 20, 20⟩ : Rect).y,
        width := (⟨12, 11, 20, 20⟩ : Rect).width,
        height := (⟨12, 11, 20, 20⟩ : Rect).height } ∧
    Box.VOTRegion.get_rect (Box.VOTRegion.set_rect Box.vot_region_create ⟨12, 11, 20, 20⟩) =
      ⟨12, 11, 20, 20⟩ ∧
    Box.VOTRegion.get_rect (Box.VOTRegion.of_rect ⟨12, 11, 20, 20⟩) = ⟨12, 11, 20, 20⟩ ∧
    Box.VOTRegion.of_rect (Box.VOTRegion.get_rect (Box.VOTRegion.of_rect ⟨12, 11, 20, 20⟩)) =
      Box.VOTRegion.of_rect ⟨12, 11, 20, 20⟩ :=
  box_rect_identity Box.vot_region_create ⟨12, 11, 20, 20⟩
    ⟨by decide, by decide, 12, 0, by norm_num, rfl⟩
    ⟨by decide, by decide, 11, 0, by norm_num, rfl⟩
    ⟨by decide, by decide, 20, 0, by norm_num, rfl⟩
    ⟨by decide, by decide, 20, 0, by norm_num, rfl⟩

end C20

/-! ## C21: the confidence of a report -/

section C21

variable {W R : Type}

/-- C21: on a running session `vot_report2 (region, confidence)` sends one
reply that holds exactly one wire region, the encoding of `region`, with the
one property `confidence` of the given value on it; the wrapper
`VOT::report (region, confidence)` of the single-object build is this call,
with the value 1 when the second argument is left out; the reply that the
multi-object `vot_report` sends has no property on any of its objects. -/
theorem report_confidence (M : RegionMode W R) (region : R) (confidence : ℚ)
    (objects : List (Option R)) (s : VOT W R) (h : s._trax_handle ≠ none) :
    (∃ s', vot_report2 M region confidence s = Except.ok ((), s') ∧
      s'.wire.sent = s.wire.sent ++
        [[⟨M._region_to_trax region, [("confidence", confidence)]⟩]]) ∧
    VOT.report_single M region (some confidence) s = vot_report2 M region confidence s ∧
    VOT.report_single M region none s = vot_report2 M region 1 s ∧
    (∃ s' reply, vot_report M objects s = Except.ok ((), s') ∧
      s'.wire.sent = s.wire.sent ++ [reply] ∧ ∀ o ∈ reply, o.properties = []) := by
  refine ⟨⟨_, vot_report2_running M region confidence s h, rfl⟩, rfl, rfl,
    ⟨_, _, vot_report_running M objects s h, rfl, ?_⟩⟩
  intro o ho
  obtain ⟨r, _, hr⟩ := List.mem_map.1 ho
  rw [← hr]

/-- C21, on the running session of the rectangle scenario: the rectangle
`(12, 11, 20, 20)` reported with confidence `3 / 4`. -/
theorem report_confidence_witness :
    (∃ s', vot_report2 Box.mode ⟨12, 11, 20, 20⟩ (3 / 4) (running_box []) =
        Except.ok ((), s') ∧
      s'.wire.sent = (running_box []).wire.sent ++
        [[⟨Box.mode._region_to_trax ⟨12, 11, 20, 20⟩, [("confidence", 3 / 4)]⟩]]) ∧
    VOT.report_single Box.mode ⟨12, 11, 20, 20⟩ (some (3 / 4)) (running_box []) =
      vot_report2 Box.mode ⟨12, 11, 20, 20⟩ (3 / 4) (running_box []) ∧
    VOT.report_single Box.mode ⟨12, 11, 20, 20⟩ none (running_box []) =
      vot_report2 Box.mode ⟨12, 11, 20, 20⟩ 1 (running_box []) ∧
    (∃ s' reply, vot_report Box.mode [some ⟨12, 11, 20, 20⟩, none] (running_box []) =
        Except.ok ((), s') ∧
      s'.wire.sent = (running_box []).wire.sent ++ [reply] ∧ ∀ o ∈ reply, o.properties = []) :=
  report_confidence Box.mode ⟨12, 11, 20, 20⟩ (3 / 4) [some ⟨12, 11, 20, 20⟩, none]
    (running_box []) (by decide)

/-- The reply of a single-object report without a second argument, written
out: one wire rectangle with `confidence = 1`. -/
theorem report_default_confidence :
    ∃ s', VOT.report_single Box.mode ⟨12, 11, 20, 20⟩ none (running_box []) =
        Except.ok ((), s') ∧
      s'.wire.sent = [[box_object], [⟨⟨12, 11, 20, 20⟩, [("confidence", 1)]⟩]] :=
  ⟨_, rfl, rfl⟩

end C21

/-! ## C22: a wire mask with an offset -/

section C22

/-- C22 (evaluation of the code): the wire mask at offset `(1, 1)` with 2
columns and 2 rows, `1 0` and `1 1`, decoded when `malloc` hands out a block
whose bytes are 9: the region has 3 columns and 3 rows, the window holds the
bytes of the wire mask, and the five bytes outside the window are the 9 of
`malloc`, not 0 - `memset (region->data, sizeof (char) * width * height, 0)`
has the length 0 and writes nothing. -/
theorem mask_outside_window_not_zeroed :
    Mask._trax_to_region (fun _ => 9) ⟨1, 1, 2, 2, [1, 0, 1, 1]⟩ =
      ⟨3, 3, [9, 9, 9, 9, 1, 0, 9, 1, 1]⟩ ∧
    (Mask._trax_to_region (fun _ => 9) ⟨1, 1, 2, 2, [1, 0, 1, 1]⟩).data.getD (3 * 0 + 0) 0 ≠
      0 := by
  decide

/-- What holds of C22 for every wire mask and every content `fresh` of new
blocks: the region has `x + width` columns and `y + height` rows, row after
row; at column `c` and row `r` inside the window it has the byte of the wire
mask at `(c - x, r - y)`; outside the window it has the byte `malloc` handed
out, which is 0 exactly when `malloc` hands out zeroed memory. -/
theorem mask_window_bytes (fresh : Nat → Nat) (w : Mask.trax_region) :
    (Mask._trax_to_region fresh w).width = w.x + w.width ∧
    (Mask._trax_to_region fresh w).height = w.y + w.height ∧
    (Mask._trax_to_region fresh w).data.length = (w.x + w.width) * (w.y + w.height) ∧
    (∀ r c, r < w.y + w.height → c < w.x + w.width → w.x ≤ c → w.y ≤ r →
      (Mask._trax_to_region fresh w).data.getD ((w.x + w.width) * r + c) 0 =
        w.data.getD ((r - w.y) * w.width + (c - w.x)) 0) ∧
    (∀ r c, r < w.y + w.height → c < w.x + w.width → ¬ (w.x ≤ c ∧ w.y ≤ r) →
      (Mask._trax_to_region fresh w).data.getD ((w.x + w.width) * r + c) 0 =
        fresh ((w.x + w.width) * r + c)) := by
  obtain ⟨h1, h2, h3, h4⟩ := Mask.mask_of_trax_window fresh w
  refine ⟨h1, h2, h3, ?_, ?_⟩
  · intro r c hr hc hx hy
    rw [h4 r c hr hc, if_pos ⟨hx, hy⟩]
  · intro r c hr hc hout
    rw [h4 r c hr hc, if_neg hout]

end C22

/-! ## C23: the default region representation -/

section C23

/-- C23 (evaluation of the code): with none of `VOT_RECTANGLE`, `VOT_POLYGON`,
`VOT_MASK`, `_VOT_REGION` defined, the first conditional block takes its
`#else` branch and defines `_VOT_REGION` as 1, the rectangle; the block under
the comment "Default region is polygon" then finds the macro defined and is
skipped, so the default is not 2. -/
theorem default_region_is_rectangle :
    _VOT_REGION ⟨false, false, false, none⟩ = 1 ∧
    _VOT_REGION ⟨false, false, false, none⟩ ≠ 2 := by
  decide

/-- The selection by macro, `_VOT_REGION` not being defined beforehand:
`VOT_RECTANGLE` selects 1; without it `VOT_POLYGON` selects 2; without both
`VOT_MASK` selects 3; the first block leaves the macro defined in every case,
so the value 2 never comes from the default block. -/
theorem region_selected_by_define (d : Defines) (h : d._VOT_REGION = none) :
    (d.VOT_RECTANGLE = true → _VOT_REGION d = 1) ∧
    (d.VOT_RECTANGLE = false → d.VOT_POLYGON = true → _VOT_REGION d = 2) ∧
    (d.VOT_RECTANGLE = false → d.VOT_POLYGON = false → d.VOT_MASK = true →
      _VOT_REGION d = 3) ∧
    (_VOT_REGION d = 2 → d.VOT_POLYGON = true) := by
  obtain ⟨r, p, m, v⟩ := d
  simp only at h
  subst h
  cases r <;> cases p <;> cases m <;> simp [_VOT_REGION]

end C23

/-! ## C24: a report leaves the session as it is -/

section C24

variable {W R : Type}

/-- C24: on a running session each of the report calls - `vot_report` and
`VOT::report` of the multi-object build, `vot_report` and `vot_report2` of
the single-object build - returns, and the state after it is the state before
it with one reply added to those sent: the stored regions, the cached image,
the position, the handle are the same, and `VOT::objects ()` and
`VOT::region ()` return what they returned before. (The reported regions are
arguments that the calls only read, through `_region_to_trax (const
vot_region*)`.) -/
theorem report_leaves_session (M : RegionMode W R) (objects : List (Option R))
    (wrapped : List R) (region : R) (confidence : ℚ) (s : VOT W R)
    (h : s._trax_handle ≠ none) :
    (∃ s' reply, vot_report M objects s = Except.ok ((), s') ∧
      s' = { s with wire := { s.wire with sent := s.wire.sent ++ [reply] } } ∧
      s'._objects = s._objects ∧ s'._image = s._image ∧
      s'._vot_sequence_position = s._vot_sequence_position ∧
      s'._trax_handle = s._trax_handle ∧
      VOT.objects M s' = VOT.objects M s ∧ VOT.region M s' = VOT.region M s) ∧
    (∃ s' reply, VOT.report M wrapped s = Except.ok ((), s') ∧
      s' = { s with wire := { s.wire with sent := s.wire.sent ++ [reply] } } ∧
      s'._objects = s._objects ∧ s'._image = s._image ∧
      s'._vot_sequence_position = s._vot_sequence_position ∧
      s'._trax_handle = s._trax_handle ∧
      VOT.objects M s' = VOT.objects M s ∧ VOT.region M s' = VOT.region M s) ∧
    (∃ s' reply, vot_report_single M region s = Except.ok ((), s') ∧
      s' = { s with wire := { s.wire with sent := s.wire.sent ++ [reply] } } ∧
      s'._objects = s._objects ∧ s'._image = s._image ∧
      s'._vot_sequence_position = s._vot_sequence_position ∧
      s'._trax_handle = s._trax_handle ∧
      VOT.objects M s' = VOT.objects M s ∧ VOT.region M s' = VOT.region M s) ∧
    (∃ s' reply, vot_report2 M region confidence s = Except.ok ((), s') ∧
      s' = { s with wire := { s.wire with sent := s.wire.sent ++ [reply] } } ∧
      s'._objects = s._objects ∧ s'._image = s._image ∧
      s'._vot_sequence_position = s._vot_sequence_position ∧
      s'._trax_handle = s._trax_handle ∧
      VOT.objects M s' = VOT.objects M s ∧ VOT.region M s' = VOT.region M s) :=
  ⟨⟨_, _, vot_report_running M objects s h, rfl, rfl, rfl, rfl, rfl, rfl, rfl⟩,
    ⟨_, _, VOT.report_running M wrapped s h, rfl, rfl, rfl, rfl, rfl, rfl, rfl⟩,
    ⟨_, _, vot_report_single_running M region s h, rfl, rfl, rfl, rfl, rfl, rfl, rfl⟩,
    ⟨_, _, vot_report2_running M region confidence s h, rfl, rfl, rfl, rfl, rfl, rfl, rfl⟩⟩

/-- C24, on the running session of the rectangle scenario. -/
theorem report_leaves_session_witness :
    (∃ s' reply, vot_report Box.mode [some ⟨12, 11, 20, 20⟩, none] (running_box []) =
        Except.ok ((), s') ∧
      s' = { running_box [] with
        wire := { (running_box []).wire with
          sent := (running_box []).wire.sent ++ [reply] } } ∧
      s'._objects = (running_box [])._objects ∧ s'._image = (running_box [])._image ∧
      s'._vot_sequence_position = (running_box [])._vot_sequence_position ∧
      s'._trax_handle = (running_box [])._trax_handle ∧
      VOT.objects Box.mode s' = VOT.objects Box.mode (running_box []) ∧
      VOT.region Box.mode s' = VOT.region Box.mode (running_box [])) ∧
    (∃ s' reply, VOT.report Box.mode [⟨12, 11, 20, 20⟩] (running_box []) =
        Except.ok ((), s') ∧
      s' = { running_box [] with
        wire := { (running_box []).wire with
          sent := (running_box []).wire.sent ++ [reply] } } ∧
      s'._objects = (running_box [])._objects ∧ s'._image = (running_box [])._image ∧
      s'._vot_sequence_position = (running_box [])._vot_sequence_position ∧
      s'._trax_handle = (running_box [])._trax_handle ∧
      VOT.objects Box.mode s' = VOT.objects Box.mode (running_box []) ∧
      VOT.region Box.mode s' = VOT.region Box.mode (running_box [])) ∧
    (∃ s' reply, vot_report_single Box.mode ⟨12, 11, 20, 20⟩ (running_box []) =
        Except.ok ((), s') ∧
      s' = { running_box [] with
        wire := { (running_box []).wire with
          sent := (running_box []).wire.sent ++ [reply] } } ∧
      s'._objects = (running_box [])._objects ∧ s'._image = (running_box [])._image ∧
      s'._vot_sequence_position = (running_box [])._vot_sequence_position ∧
      s'._trax_handle = (running_box [])._trax_handle ∧
      VOT.objects Box.mode s' = VOT.objects Box.mode (running_box []) ∧
      VOT.region Box.mode s' = VOT.region Box.mode (running_box [])) ∧
    (∃ s' reply, vot_report2 Box.mode ⟨12, 11, 20, 20⟩ (3 / 4) (running_box []) =
        Except.ok ((), s') ∧
      s' = { running_box [] with
        wire := { (running_box []).wire with
          sent := (running_box []).wire.sent ++ [reply] } } ∧
      s'._objects = (running_box [])._objects ∧ s'._image = (running_box [])._image ∧
      s'._vot_sequence_position = (running_box [])._vot_sequence_position ∧
      s'._trax_handle = (running_box [])._trax_handle ∧
      VOT.objects Box.mode s' = VOT.objects Box.mode (running_box []) ∧
      VOT.region Box.mode s' = VOT.region Box.mode (running_box [])) :=
  report_leaves_session Box.mode [some ⟨12, 11, 20, 20⟩, none] [⟨12, 11, 20, 20⟩]
    ⟨12, 11, 20, 20⟩ (3 / 4) (running_box []) (by decide)

/-- After a report of another rectangle, `VOT::objects ()` and
`VOT::region ()` still return the rectangle of the initialization message. -/
theorem objects_after_report :
    ∃ s', VOT.report Box.mode [⟨12, 11, 20, 20⟩] (running_box []) = Except.ok ((), s') ∧
      VOT.objects Box.mode s' = [⟨10, 10, 20, 20⟩] ∧
      VOT.region Box.mode s' = some ⟨10, 10, 20, 20⟩ :=
  ⟨_, rfl, rfl, rfl⟩

end C24

/-! ## C25: the rectangle of a polygon and its points -/

section C25

/-- C25 (counterexample): the triangle `(-1/2, -1/2) (2, -1/2) (2, 2)` is read
as the rectangle `(0, 0, 2, 2)`: its `x` and `y` are the least coordinates
`-1/2` truncated toward zero, and they are greater than the coordinates of the
first point. And the two points `(2000000000, 0) (-2000000000, 0)` are read
with the width `INT_MIN`: their span `4000000000` does not fit `int`. -/
theorem polygon_rect_above_point :
    (Polygon.VOTRegion.get_rect ⟨[-1 / 2, 2, 2], [-1 / 2, -1 / 2, 2], 3⟩ = ⟨0, 0, 2, 2⟩ ∧
      ¬ (∀ j, j < 3 →
        ((Polygon.VOTRegion.get_rect ⟨[-1 / 2, 2, 2], [-1 / 2, -1 / 2, 2], 3⟩).x : ℚ) ≤
            ([-1 / 2, 2, 2] : List float).getD j 0 ∧
        ((Polygon.VOTRegion.get_rect ⟨[-1 / 2, 2, 2], [-1 / 2, -1 / 2, 2], 3⟩).y : ℚ) ≤
            ([-1 / 2, -1 / 2, 2] : List float).getD j 0)) ∧
    (Polygon.VOTRegion.get_rect ⟨[2000000000, -2000000000], [0, 0], 2⟩ =
        ⟨-2000000000, 0, INT_MIN, 0⟩ ∧
      (Polygon.VOTRegion.get_rect ⟨[2000000000, -2000000000], [0, 0], 2⟩).width < 0) := by
  have e : Polygon.VOTRegion.get_rect ⟨[-1 / 2, 2, 2], [-1 / 2, -1 / 2, 2], 3⟩ =
      ⟨0, 0, 2, 2⟩ := by
    norm_num [Polygon.VOTRegion.get_rect, Polygon.VOTRegion.get_float,
      Polygon.VOTRegion.extent, List.range, List.range.loop, MIN, MAX, FLT_MIN, FLT_MAX,
      float_to_int, INT_MIN, INT_MAX, Int.ceil_neg]
  have e2 : Polygon.VOTRegion.get_rect ⟨[2000000000, -2000000000], [0, 0], 2⟩ =
      ⟨-2000000000, 0, INT_MIN, 0⟩ := by
    norm_num [Polygon.VOTRegion.get_rect, Polygon.VOTRegion.get_float,
      Polygon.VOTRegion.extent, List.range, List.range.loop, MIN, MAX, FLT_MIN, FLT_MAX,
      float_to_int, INT_MIN, INT_MAX, Int.ceil_neg]
  refine ⟨⟨e, ?_⟩, e2, ?_⟩
  · rw [e]
    intro h
    have h0 := (h 0 (by norm_num)).1
    norm_num at h0
  · rw [e2]
    decide

/-- C25 (amended): for every polygon with at least one point (the points are
`(x[j], y[j])`, `j < count`) whose coordinates lie in the range of `int` and
whose spans - the greatest `x`, but not less than `FLT_MIN`, minus the least
`x`, and likewise in `y` - are at most 2147483520, the greatest `float` in the
range of `int`, the rectangle that `VOTRegion::get` produces has the least
`x` and the least `y` truncated toward zero as its `x` and `y`, and
`width ≥ 0` and `height ≥ 0`. So `x` is not greater than any point's `x` when
every negative `x` of the polygon is a whole number, and likewise `y`; in
every case `x` and `y` stay less than 1 above each point's `x` and `y`. -/
theorem polygon_rect_bounds (r : Polygon.vot_region) (h1 : 1 ≤ r.count)
    (hx : ∀ j, j < r.count → (INT_MIN : ℚ) ≤ r.x.getD j 0 ∧ r.x.getD j 0 ≤ (INT_MAX : ℚ))
    (hy : ∀ j, j < r.count → (INT_MIN : ℚ) ≤ r.y.getD j 0 ∧ r.y.getD j 0 ≤ (INT_MAX : ℚ))
    (hw : ∀ j k, j < r.count → k < r.count →
      MAX FLT_MIN (r.x.getD j 0) - r.x.getD k 0 ≤ 2147483520)
    (hh : ∀ j k, j < r.count → k < r.count →
      MAX FLT_MIN (r.y.getD j 0) - r.y.getD k 0 ≤ 2147483520) :
    (∃ jl jt, jl < r.count ∧ jt < r.count ∧
      (∀ k, k < r.count → r.x.getD jl 0 ≤ r.x.getD k 0 ∧ r.y.getD jt 0 ≤ r.y.getD k 0) ∧
      (Polygon.VOTRegion.get_rect r).x =
        (if 0 ≤ r.x.getD jl 0 then ⌊r.x.getD jl 0⌋ else ⌈r.x.getD jl 0⌉) ∧
      (Polygon.VOTRegion.get_rect r).y =
        (if 0 ≤ r.y.getD jt 0 then ⌊r.y.getD jt 0⌋ else ⌈r.y.getD jt 0⌉)) ∧
    0 ≤ (Polygon.VOTRegion.get_rect r).width ∧
    0 ≤ (Polygon.VOTRegion.get_rect r).height ∧
    ((∀ j, j < r.count → r.x.getD j 0 < 0 → ∃ n : Int, r.x.getD j 0 = n) →
      ∀ j, j < r.count → ((Polygon.VOTRegion.get_rect r).x : ℚ) ≤ r.x.getD j 0) ∧
    ((∀ j, j < r.count → r.y.getD j 0 < 0 → ∃ n : Int, r.y.getD j 0 = n) →
      ∀ j, j < r.count → ((Polygon.VOTRegion.get_rect r).y : ℚ) ≤ r.y.getD j 0) ∧
    (∀ j, j < r.count →
      ((Polygon.VOTRegion.get_rect r).x : ℚ) < r.x.getD j 0 + 1 ∧
      ((Polygon.VOTRegion.get_rect r).y : ℚ) < r.y.getD j 0 + 1) := by
  have hmax : (INT_MAX : ℚ) ≤ FLT_MAX := by norm_num [INT_MAX, FLT_MAX]
  have hbig : (2147483520 : ℚ) < (INT_MAX : ℚ) + 1 := by norm_num [INT_MAX]
  obtain ⟨jl, jr, jt, jb, hjl, hjr, hjt, hjb, hall, el, er, et, eb⟩ :=
    Polygon.extent_values r h1 (fun j hj => le_trans (hx j hj).2 hmax)
      (fun j hj => le_trans (hy j hj).2 hmax)
  have hwn : 0 ≤ MAX FLT_MIN (r.x.getD jr 0) - r.x.getD jl 0 := by
    have := le_MAX_right FLT_MIN (r.x.getD jr 0)
    have := (hall jr hjr).1
    linarith
  have hhn : 0 ≤ MAX FLT_MIN (r.y.getD jb 0) - r.y.getD jt 0 := by
    have := le_MAX_right FLT_MIN (r.y.getD jb 0)
    have := (hall jb hjb).2.2.1
    linarith
  have ex : (Polygon.VOTRegion.get_rect r).x =
      if 0 ≤ r.x.getD jl 0 then ⌊r.x.getD jl 0⌋ else ⌈r.x.getD jl 0⌉ := by
    simp only [Polygon.VOTRegion.get_rect, Polygon.VOTRegion.get_float, el]
    exact float_to_int_of_range _ (hx jl hjl).1 (by linarith [(hx jl hjl).2])
  have ey : (Polygon.VOTRegion.get_rect r).y =
      if 0 ≤ r.y.getD jt 0 then ⌊r.y.getD jt 0⌋ else ⌈r.y.getD jt 0⌉ := by
    simp only [Polygon.VOTRegion.get_rect, Polygon.VOTRegion.get_float, et]
    exact float_to_int_of_range _ (hy jt hjt).1 (by linarith [(hy jt hjt).2])
  have ew : 0 ≤ (Polygon.VOTRegion.get_rect r).width := by
    simp only [Polygon.VOTRegion.get_rect, Polygon.VOTRegion.get_float, el, er]
    exact float_to_int_nonneg _ hwn (by linarith [hw jr jl hjr hjl])
  have eh : 0 ≤ (Polygon.VOTRegion.get_rect r).height := by
    simp only [Polygon.VOTRegion.get_rect, Polygon.VOTRegion.get_float, et, eb]
    exact float_to_int_nonneg _ hhn (by linarith [hh jb jt hjb hjt])
  have hxle : ∀ q : ℚ, ((if 0 ≤ q then ⌊q⌋ else ⌈q⌉ : Int) : ℚ) < q + 1 := by
    intro q
    split
    · have := Int.floor_le q
      linarith
    · exact Int.ceil_lt_add_one q
  have hwhole : ∀ q : ℚ, (q < 0 → ∃ n : Int, q = n) →
      ((if 0 ≤ q then ⌊q⌋ else ⌈q⌉ : Int) : ℚ) ≤ q := by
    intro q h
    by_cases h0 : 0 ≤ q
    · rw [if_pos h0]
      exact Int.floor_le q
    · rw [if_neg h0]
      obtain ⟨n, hn⟩ := h (by linarith)
      rw [hn, Int.ceil_intCast]
  refine ⟨⟨jl, jt, hjl, hjt, fun k hk => ⟨(hall k hk).1, (hall k hk).2.2.1⟩, ex, ey⟩,
    ew, eh, ?_, ?_, ?_⟩
  · intro hneg j hj
    rw [ex]
    exact le_trans (hwhole _ (hneg jl hjl)) (hall j hj).1
  · intro hneg j hj
    rw [ey]
    exact le_trans (hwhole _ (hneg jt hjt)) (hall j hj).2.2.1
  · intro j hj
    rw [ex, ey]
    have a := hxle (r.x.getD jl 0)
    have b := hxle (r.y.getD jt 0)
    have c := hall j hj
    exact ⟨by linarith [c.1], by linarith [c.2.2.1]⟩

/-- C25 (amended), on the triangle `(-3,-1) (1,4) (2,2)`. -/
theorem polygon_rect_bounds_witness :
    (∃ jl jt, jl < mixed_triangle.count ∧ jt < mixed_triangle.count ∧
      (∀ k, k < mixed_triangle.count →
        mixed_triangle.x.getD jl 0 ≤ mixed_triangle.x.getD k 0 ∧
        mixed_triangle.y.getD jt 0 ≤ mixed_triangle.y.getD k 0) ∧
      (Polygon.VOTRegion.get_rect mixed_triangle).x =
        (if 0 ≤ mixed_triangle.x.getD jl 0 then ⌊mixed_triangle.x.getD jl 0⌋
          else ⌈mixed_triangle.x.getD jl 0⌉) ∧
      (Polygon.VOTRegion.get_rect mixed_triangle).y =
        (if 0 ≤ mixed_triangle.y.getD jt 0 then ⌊mixed_triangle.y.getD jt 0⌋
          else ⌈mixed_triangle.y.getD jt 0⌉)) ∧
    0 ≤ (Polygon.VOTRegion.get_rect mixed_triangle).width ∧
    0 ≤ (Polygon.VOTRegion.get_rect mixed_triangle).height ∧
    ((∀ j, j < mixed_triangle.count → mixed_triangle.x.getD j 0 < 0 →
        ∃ n : Int, mixed_triangle.x.getD j 0 = n) →
      ∀ j, j < mixed_triangle.count →
        ((Polygon.VOTRegion.get_rect mixed_triangle).x : ℚ) ≤ mixed_triangle.x.getD j 0) ∧
    ((∀ j, j < mixed_triangle.count → mixed_triangle.y.getD j 0 < 0 →
        ∃ n : Int, mixed_triangle.y.getD j 0 = n) →
      ∀ j, j < mixed_triangle.count →
        ((Polygon.VOTRegion.get_rect mixed_triangle).y : ℚ) ≤ mixed_triangle.y.getD j 0) ∧
    (∀ j, j < mixed_triangle.count →
      ((Polygon.VOTRegion.get_rect mixed_triangle).x : ℚ) < mixed_triangle.x.getD j 0 + 1 ∧
      ((Polygon.VOTRegion.get_rect mixed_triangle).y : ℚ) <
        mixed_triangle.y.getD j 0 + 1) :=
  polygon_rect_bounds mixed_triangle (by decide)
    (fun j hj => by
      have hj3 : j < 3 := hj
      interval_cases j <;> norm_num [mixed_triangle, INT_MIN, INT_MAX])
    (fun j hj => by
      have hj3 : j < 3 := hj
      interval_cases j <;> norm_num [mixed_triangle, INT_MIN, INT_MAX])
    (fun j k hj hk => by
      have hj3 : j < 3 := hj
      have hk3 : k < 3 := hk
      interval_cases j <;> interval_cases k <;> norm_num [mixed_triangle, MAX, FLT_MIN])
    (fun j k hj hk => by
      have hj3 : j < 3 := hj
      have hk3 : k < 3 := hk
      interval_cases j <;> interval_cases k <;> norm_num [mixed_triangle, MAX, FLT_MIN])

/-- The rectangle of that triangle, written out. -/
theorem polygon_rect_example :
    Polygon.VOTRegion.get_rect mixed_triangle = ⟨-3, -1, 5, 5⟩ := by
  norm_num [mixed_triangle, Polygon.VOTRegion.get_rect, Polygon.VOTRegion.get_float,
    Polygon.VOTRegion.extent, List.range, List.range.loop, MIN, MAX, FLT_MIN, FLT_MAX,
    float_to_int, INT_MIN, INT_MAX, Int.ceil_neg]

/-- Without a point the loop does not run: `width` and `height` come from
`FLT_MIN - FLT_MAX`, which does not fit `int`, and are negative. -/
theorem polygon_rect_of_no_point :
    (Polygon.VOTRegion.get_rect ⟨[], [], 0⟩).width < 0 ∧
    (Polygon.VOTRegion.get_rect ⟨[], [], 0⟩).height < 0 := by
  norm_num [Polygon.VOTRegion.get_rect, Polygon.VOTRegion.get_float,
    Polygon.VOTRegion.extent, FLT_MIN, FLT_MAX, float_to_int, INT_MIN, INT_MAX, Int.ceil_neg]

end C25

end Vot
